import Mathlib

/-!
Shallow embedding of the `forged-alliance-never` simulation core
(`src/simulation.rs` and `src/main.rs`).

Numeric conventions: every Rust `f64` field is embedded as `ℚ` (the
arithmetic used by the simulation is `+`, `-`, `*`, `/` and `min`, which
are exact over the rationals; IEEE rounding is not modelled).  `u64`
counters become `ℕ` and the `i32` rolloff counter becomes `ℤ`.  Division
by zero follows the Lean convention `x / 0 = 0`; every theorem that
evaluates a quotient carries hypotheses making the divisor nonzero, with
one deliberate exception documented at `calc_stall`.

The bevy-ecs entity store is embedded as an association list from entity
ids to a record of optional component slots, which matches bevy's
semantics of at most one component instance of each type per entity,
with `insert` replacing any previous instance.  Structural mutations that
bevy defers to a stage boundary (spawns, despawns, component insertion
and removal issued through `Commands`) are embedded so that no system
observes mid-stage structural changes, mirroring the source's deferred
command queues; direct data writes through `&mut` queries are immediate,
as in the source.
-/

namespace FA

/-- Embeds the constant `TICK_RATE: f64 = 10.0` from `simulation.rs`. -/
def TICK_RATE : ℚ := 10

/-- Embeds the component `Damage` from `simulation.rs`. -/
structure Damage where
  health : ℚ
  health_points : ℕ
  mass_total : ℚ
  energy_total : ℚ
  build_time : ℚ
deriving DecidableEq

/-- Embeds the component `Engineering` from `simulation.rs`. -/
structure Engineering where
  build_rate : ℚ
deriving DecidableEq

/-- Embeds the component `ResourceProducer` from `simulation.rs`. -/
structure ResourceProducer where
  mass_yield : ℚ
  energy_yield : ℚ
  total_mass : ℚ
  total_energy : ℚ
deriving DecidableEq

/-- Embeds the component `ResourceConsumer` from `simulation.rs`. -/
structure ResourceConsumer where
  mass_request : ℚ
  energy_request : ℚ
  mass_consumed : ℚ
  energy_consumed : ℚ
deriving DecidableEq

/-- Embeds the component `Constructing` from `simulation.rs`; the target
entity is an entity id. -/
structure Constructing where
  target : ℕ
  mass_requested : ℚ
  energy_requested : ℚ
  mass_consumption_multiplier : ℚ
  energy_consumption_multiplier : ℚ
  build_amount : ℚ
deriving DecidableEq

/-- Embeds the component `SacrificeCapable` from `main.rs`. -/
structure SacrificeCapable where
  mass_efficiency : ℚ
  energy_efficiency : ℚ
deriving DecidableEq

/-- Embeds the component `Sacrificing` from `main.rs`. -/
structure Sacrificing where
  target : ℕ
deriving DecidableEq

/-- Embeds the component `QuantumGate` from `main.rs`. -/
structure QuantumGate where
  rolloff_time : ℤ
  rolloff_current : ℤ
deriving DecidableEq

/-- Embeds the resource `Economy` from `simulation.rs`. -/
structure Economy where
  mass : ℚ
  energy : ℚ
  mass_capacity : ℚ
  energy_capacity : ℚ
  mass_stall : ℚ
  energy_stall : ℚ
  mass_produced : ℚ
  energy_produced : ℚ
  mass_requested : ℚ
  energy_requested : ℚ
  mass_consumed : ℚ
  energy_consumed : ℚ
deriving DecidableEq

/-- Embeds `impl Default for Economy` from `simulation.rs`. -/
def Economy.default : Economy where
  mass := 0
  energy := 0
  mass_capacity := 4000
  energy_capacity := 100000
  mass_stall := 1
  energy_stall := 1
  mass_produced := 0
  energy_produced := 0
  mass_requested := 0
  energy_requested := 0
  mass_consumed := 0
  energy_consumed := 0

/-- The component slots one entity may carry.  Bevy stores at most one
component of each type per entity, which this record of options embeds.
The marker components `Executing`, `WillExecuteOnConstruct`,
`ConstructionPaused` and `RASSupportCommander` are data-free tags,
embedded as booleans (the driver-only `Paragon` marker never appears in
any system and is omitted). -/
structure EntityComponents where
  executing : Bool
  willExecuteOnConstruct : Bool
  constructionPaused : Bool
  rasSupportCommander : Bool
  damage : Option Damage
  engineering : Option Engineering
  producer : Option ResourceProducer
  consumer : Option ResourceConsumer
  constructing : Option Constructing
  sacrificeCapable : Option SacrificeCapable
  sacrificing : Option Sacrificing
  quantumGate : Option QuantumGate
deriving DecidableEq

/-- An entity with no components attached. -/
def EntityComponents.empty : EntityComponents where
  executing := false
  willExecuteOnConstruct := false
  constructionPaused := false
  rasSupportCommander := false
  damage := none
  engineering := none
  producer := none
  consumer := none
  constructing := none
  sacrificeCapable := none
  sacrificing := none
  quantumGate := none

/-- The bevy `World` restricted to what the simulation uses: the entity
store (association list keyed by entity id, fresh ids allocated from
`nextId`), the `Economy` resource and the `CurrentTick` resource.  The
`LogHandler` resource only performs output and carries no state. -/
structure World where
  nextId : ℕ
  entities : List (ℕ × EntityComponents)
  economy : Economy
  current_tick : ℕ

/-- Look up the component record of an entity, `none` if despawned. -/
def World.find (w : World) (e : ℕ) : Option EntityComponents :=
  (w.entities.find? (fun p => p.1 == e)).map (fun p => p.2)

/-- Apply a function to the component record of one entity. -/
def World.modifyEntity (w : World) (e : ℕ) (f : EntityComponents → EntityComponents) :
    World :=
  { w with entities := w.entities.map (fun p => if p.1 = e then (p.1, f p.2) else p) }

/-- Remove an entity and all its components (bevy `despawn`). -/
def World.despawn (w : World) (e : ℕ) : World :=
  { w with entities := w.entities.filter (fun p => p.1 != e) }

/-- Spawn a new entity with the given components; the new entity gets id
`w.nextId` (bevy `Commands::spawn` with a chain of `insert`s). -/
def World.spawn (w : World) (c : EntityComponents) : World :=
  { w with nextId := w.nextId + 1, entities := w.entities ++ [(w.nextId, c)] }

/-- Damage component of an entity, if the entity exists and has one. -/
def World.damageOf (w : World) (e : ℕ) : Option Damage :=
  (w.find e).bind (fun c => c.damage)

/-- Consumer component of an entity, if the entity exists and has one. -/
def World.consumerOf (w : World) (e : ℕ) : Option ResourceConsumer :=
  (w.find e).bind (fun c => c.consumer)

/-- Constructing component of an entity, if present. -/
def World.constructingOf (w : World) (e : ℕ) : Option Constructing :=
  (w.find e).bind (fun c => c.constructing)

/-- Embeds the query filter pair `(With<Executing>,
Without<ConstructionPaused>)` shared by the builder-facing systems. -/
def activeUnit (c : EntityComponents) : Bool :=
  c.executing && !c.constructionPaused

/-- Embeds the system `count_tick` from `simulation.rs`. -/
def count_tick (w : World) : World :=
  { w with current_tick := w.current_tick + 1 }

/-- Embeds the loop body of `economy_resource_producers`: whether the
entity is in the query `Query<&mut ResourceProducer, With<Executing>>`. -/
def producerYields (p : ℕ × EntityComponents) : Option ResourceProducer :=
  if p.2.executing then p.2.producer else none

/-- The per-producer lifetime-total accumulation performed by the loop
of `economy_resource_producers` on each executing producer
(`producer.total_mass += producer.mass_yield` and the energy analogue);
entities outside the query are untouched. -/
def producerAccumulate (c : EntityComponents) : EntityComponents :=
  if c.executing then
    match c.producer with
    | some producer =>
      { c with producer := some { producer with
          total_mass := producer.total_mass + producer.mass_yield,
          total_energy := producer.total_energy + producer.energy_yield } }
    | none => c
  else c

/-- Embeds the system `economy_resource_producers` from `simulation.rs`:
sums the per-tick yields of all executing producers, adds them to the
economy stock (with no clamp), records them as this-tick produced
totals, and accumulates each producer's lifetime totals via
`producerAccumulate`. -/
def economy_resource_producers (w : World) : World :=
  let produced := w.entities.filterMap producerYields
  let total_mass := (produced.map (fun p => p.mass_yield)).sum
  let total_energy := (produced.map (fun p => p.energy_yield)).sum
  { w with
    entities := w.entities.map (fun p => (p.1, producerAccumulate p.2)),
    economy := { w.economy with
      mass := w.economy.mass + total_mass,
      energy := w.economy.energy + total_energy,
      mass_produced := total_mass,
      energy_produced := total_energy } }

/-- Embeds the expression `f64::min(1.0, stock / requested)` from
`economy_process_resource_requests`.  The Rust code computes this in
IEEE `f64` arithmetic, where `stock / 0.0` is `+inf` for positive stock
and NaN for `0.0 / 0.0`, and `f64::min(1.0, x)` returns `1.0` when `x`
is `+inf` or NaN; so the `f64` result is `1.0` whenever `requested == 0`
and `stock ≥ 0`, which the first branch embeds exactly.  The one input
region this rational embedding does not represent is
`requested == 0 ∧ stock < 0`, where the `f64` code yields `-inf`
(no rational value exists for it; theorems about worlds with negative
stock stay outside that region). -/
def calc_stall (stock requested : ℚ) : ℚ :=
  if requested = 0 then 1 else min 1 (stock / requested)

/-- Embeds the loop body of `economy_process_resource_requests`: whether
the entity is in `Query<&mut ResourceConsumer, With<Executing>>`. -/
def consumerOfEntry (p : ℕ × EntityComponents) : Option ResourceConsumer :=
  if p.2.executing then p.2.consumer else none

/-- Embeds the system `economy_process_resource_requests` from
`simulation.rs`: totals the requests of executing consumers and derives
the two stall ratios. -/
def economy_process_resource_requests (w : World) : World :=
  let consumers := w.entities.filterMap consumerOfEntry
  let total_mass_requested := (consumers.map (fun c => c.mass_request)).sum
  let total_energy_requested := (consumers.map (fun c => c.energy_request)).sum
  { w with economy := { w.economy with
      mass_stall := calc_stall w.economy.mass total_mass_requested,
      energy_stall := calc_stall w.economy.energy total_energy_requested,
      mass_requested := total_mass_requested,
      energy_requested := total_energy_requested } }

/-- The per-consumer counter reset performed by the loop of
`economy_process_resource_consumption` on each executing consumer;
entities outside the query are untouched. -/
def consumerReset (c : EntityComponents) : EntityComponents :=
  if c.executing then
    match c.consumer with
    | some consumer =>
      { c with consumer := some { consumer with
          mass_consumed := 0, energy_consumed := 0,
          mass_request := 0, energy_request := 0 } }
    | none => c
  else c

/-- Embeds the system `economy_process_resource_consumption` from
`simulation.rs`: totals realized consumption of executing consumers
(read before the reset), resets their counters via `consumerReset`, and
subtracts consumption from stock with a clamp to capacity as an upper
bound only.  The overconsumption warning only emits a log line and
changes no state, so it is not modelled. -/
def economy_process_resource_consumption (w : World) : World :=
  let consumers := w.entities.filterMap consumerOfEntry
  let total_mass_consumed := (consumers.map (fun c => c.mass_consumed)).sum
  let total_energy_consumed := (consumers.map (fun c => c.energy_consumed)).sum
  { w with
    entities := w.entities.map (fun p => (p.1, consumerReset p.2)),
    economy := { w.economy with
      mass := min w.economy.mass_capacity (w.economy.mass - total_mass_consumed),
      energy := min w.economy.energy_capacity (w.economy.energy - total_energy_consumed),
      mass_consumed := total_mass_consumed,
      energy_consumed := total_energy_consumed } }

/-- Embeds the query of `execute_on_finished_construction`: entities
without `Executing`, with `WillExecuteOnConstruct`, whose damage health
reads exactly `1.0`.  The source's `Changed<Damage>` filter only skips
entities whose damage was not written since the system last ran; since
the transition removes the `WillExecuteOnConstruct` tag the first time
it fires, the filter is a change-detection optimization with no effect
on which transitions ever happen, and is not modelled. -/
def execute_on_finished_construction_pending (w : World) : List ℕ :=
  w.entities.filterMap (fun p =>
    match p.2.damage with
    | some d =>
      if ¬p.2.executing ∧ p.2.willExecuteOnConstruct ∧ d.health = 1 then some p.1
      else none
    | none => none)

/-- Applies the deferred commands of `execute_on_finished_construction`
(remove `WillExecuteOnConstruct`, insert `Executing`); bevy applies them
at the end of the update stage, after the other systems of that stage
ran against the old tags. -/
def apply_executing_promotions (w : World) (ids : List ℕ) : World :=
  ids.foldl (fun w e =>
    w.modifyEntity e (fun c =>
      { c with executing := true, willExecuteOnConstruct := false })) w

/-- Embeds one iteration of the loop in `do_construct_resources_request`
from `simulation.rs`, for the entity `e` of the query
`(Entity, &mut Constructing, &Engineering, &mut ResourceConsumer)` with
`(With<Executing>, Without<ConstructionPaused>)`. -/
def do_construct_resources_request_step (w : World) (e : ℕ) : World :=
  match w.find e with
  | none => w
  | some c =>
    if activeUnit c then
      match c.constructing, c.engineering, c.consumer with
      | some constructing, some engineering, some consumer =>
        match w.damageOf constructing.target with
        | some target_damage =>
          let build_amount := engineering.build_rate / target_damage.build_time
          let mass_requested := build_amount * target_damage.mass_total *
            constructing.mass_consumption_multiplier
          let energy_requested := build_amount * target_damage.energy_total *
            constructing.energy_consumption_multiplier
          w.modifyEntity e (fun c => { c with
            constructing := some { constructing with
              build_amount := build_amount,
              mass_requested := mass_requested,
              energy_requested := energy_requested },
            consumer := some { consumer with
              mass_request := consumer.mass_request + mass_requested,
              energy_request := consumer.energy_request + energy_requested } })
        | none =>
          w.modifyEntity e (fun c => { c with constructing := none })
      | _, _, _ => w
    else w

/-- Embeds the system `do_construct_resources_request` from
`simulation.rs` as a fold of its loop body over the entity list. -/
def do_construct_resources_request (w : World) : World :=
  (w.entities.map (fun p => p.1)).foldl do_construct_resources_request_step w

/-- Embeds one iteration of the loop in `do_construct` from
`simulation.rs`, for the entity `e` of the query
`(Entity, &Constructing, &mut ResourceConsumer)` with
`(With<Executing>, Without<ConstructionPaused>)`. -/
def do_construct_step (w : World) (e : ℕ) : World :=
  match w.find e with
  | none => w
  | some c =>
    if activeUnit c then
      match c.constructing, c.consumer with
      | some constructing, some consumer =>
        match w.damageOf constructing.target with
        | some target_damage =>
          if target_damage.health ≥ 1 then
            w.modifyEntity e (fun c => { c with constructing := none })
          else
            let mass_available := constructing.mass_requested * w.economy.mass_stall /
              constructing.mass_consumption_multiplier
            let energy_available := constructing.energy_requested * w.economy.energy_stall /
              constructing.energy_consumption_multiplier
            let min_portion := min (mass_available / target_damage.mass_total)
              (energy_available / target_damage.energy_total)
            let mass_used := min_portion * target_damage.mass_total *
              constructing.mass_consumption_multiplier
            let energy_used := min_portion * target_damage.energy_total *
              constructing.energy_consumption_multiplier
            if target_damage.health + min_portion ≥ 1 then
              let mass_remaining := (1 - target_damage.health) * target_damage.mass_total
              let energy_remaining := (1 - target_damage.health) * target_damage.energy_total
              ((w.modifyEntity e (fun c => { c with
                  consumer := some { consumer with
                    mass_consumed := consumer.mass_consumed +
                      mass_remaining * constructing.mass_consumption_multiplier,
                    energy_consumed := consumer.energy_consumed +
                      energy_remaining * constructing.energy_consumption_multiplier },
                  constructing := none })).modifyEntity constructing.target
                (fun tc => { tc with damage := some { target_damage with health := 1 } }))
            else
              ((w.modifyEntity e (fun c => { c with
                  consumer := some { consumer with
                    mass_consumed := consumer.mass_consumed + mass_used,
                    energy_consumed := consumer.energy_consumed + energy_used } })).modifyEntity
                constructing.target
                (fun tc => { tc with damage := some { target_damage with
                  health := target_damage.health + min_portion } }))
        | none => w
      | _, _ => w
    else w

/-- Embeds the system `do_construct` from `simulation.rs` as a fold of
its loop body over the entity list. -/
def do_construct (w : World) : World :=
  (w.entities.map (fun p => p.1)).foldl do_construct_step w

/-- Embeds the struct `SacrificeInfo` local to `construct_sacrifice`. -/
structure SacrificeInfo where
  source_entity : ℕ
  mass_available : ℚ
  energy_available : ℚ
  target_entity : ℕ

/-- Embeds the first loop of `construct_sacrifice` from `main.rs`: the
snapshot of every eligible source's contribution, taken before any
target is mutated. -/
def sacrifice_snapshot (w : World) : List SacrificeInfo :=
  w.entities.filterMap (fun p =>
    if activeUnit p.2 then
      match p.2.damage, p.2.sacrificing, p.2.sacrificeCapable with
      | some damage, some sacrificing, some capability =>
        some { source_entity := p.1,
               mass_available := damage.mass_total * damage.health *
                 capability.mass_efficiency,
               energy_available := damage.energy_total * damage.health *
                 capability.energy_efficiency,
               target_entity := sacrificing.target }
      | _, _, _ => none
    else none)

/-- The deferred structural commands issued by `construct_sacrifice`
(`remove::<Sacrificing>()` and `despawn()`), which bevy applies at the
end of the stage. -/
inductive SacrificeCommand where
  | removeSacrificing (e : ℕ)
  | despawnSource (e : ℕ)

/-- Embeds one iteration of the second loop of `construct_sacrifice`:
target health writes are immediate, structural commands are queued. -/
def sacrifice_resolve_step (acc : World × List SacrificeCommand) (info : SacrificeInfo) :
    World × List SacrificeCommand :=
  match acc.1.damageOf info.target_entity with
  | some target_damage =>
    if target_damage.health ≥ 1 then
      (acc.1, acc.2 ++ [SacrificeCommand.removeSacrificing info.source_entity])
    else
      (acc.1.modifyEntity info.target_entity (fun tc =>
        { tc with damage := some { target_damage with
            health := min (target_damage.health +
              min (info.mass_available / target_damage.mass_total)
                (info.energy_available / target_damage.energy_total)) 1 } }),
       acc.2 ++ [SacrificeCommand.despawnSource info.source_entity])
  | none =>
    (acc.1, acc.2 ++ [SacrificeCommand.removeSacrificing info.source_entity])

/-- Applies the deferred structural commands of `construct_sacrifice`. -/
def apply_sacrifice_command (w : World) (cmd : SacrificeCommand) : World :=
  match cmd with
  | SacrificeCommand.removeSacrificing e =>
    w.modifyEntity e (fun c => { c with sacrificing := none })
  | SacrificeCommand.despawnSource e => w.despawn e

/-- Embeds the system `construct_sacrifice` from `main.rs`: snapshot of
all eligible sources, then resolution against targets, then the queued
structural commands. -/
def construct_sacrifice (w : World) : World :=
  let resolved := (sacrifice_snapshot w).foldl sacrifice_resolve_step (w, [])
  resolved.2.foldl apply_sacrifice_command resolved.1

/-- Embeds the constant `RAS_SACU_DAMAGE` from `main.rs`. -/
def RAS_SACU_DAMAGE : Damage where
  health := 0
  health_points := 15000
  mass_total := 6450
  energy_total := 117100
  build_time := 22800

/-- Embeds the constant `RAS_SACU_RESOURCE_PRODUCTION` from `main.rs`. -/
def RAS_SACU_RESOURCE_PRODUCTION : ResourceProducer where
  mass_yield := 11 / TICK_RATE
  energy_yield := 1020 / TICK_RATE
  total_mass := 0
  total_energy := 0

/-- Embeds the constant `RAS_SACU_SACRIFICE` from `main.rs`. -/
def RAS_SACU_SACRIFICE : SacrificeCapable where
  mass_efficiency := 9 / 10
  energy_efficiency := 9 / 10

/-- Embeds the constant `RAS_SACU_ENGINEERING` from `main.rs`. -/
def RAS_SACU_ENGINEERING : Engineering where
  build_rate := 56 / TICK_RATE

/-- The component bundle spawned by `quantum_gate_spawn_construct` for a
new RAS SACU. -/
def rasSacuBundle : EntityComponents :=
  { EntityComponents.empty with
    rasSupportCommander := true,
    damage := some RAS_SACU_DAMAGE,
    engineering := some RAS_SACU_ENGINEERING,
    willExecuteOnConstruct := true,
    producer := some RAS_SACU_RESOURCE_PRODUCTION,
    consumer := some { mass_request := 0, mass_consumed := 0,
                       energy_request := 0, energy_consumed := 0 },
    sacrificeCapable := some RAS_SACU_SACRIFICE }

/-- Embeds one iteration of the loop in `quantum_gate_spawn_construct`
from `main.rs`, for a gate entity of the query
`(Entity, &mut QuantumGate)` with
`(With<Executing>, Without<ConstructionPaused>, Without<Constructing>)`. -/
def quantum_gate_step (w : World) (e : ℕ) : World :=
  match w.find e with
  | none => w
  | some c =>
    if activeUnit c && c.constructing.isNone then
      match c.quantumGate with
      | none => w
      | some gate =>
        if gate.rolloff_current > 0 then
          w.modifyEntity e (fun c => { c with
            quantumGate := some { gate with
              rolloff_current := gate.rolloff_current - 1 } })
        else if gate.rolloff_current = 0 then
          let target := w.nextId
          (w.spawn rasSacuBundle).modifyEntity e (fun c => { c with
            quantumGate := some { gate with rolloff_current := -1 },
            constructing := some {
              target := target,
              build_amount := 0,
              mass_requested := 0,
              energy_requested := 0,
              mass_consumption_multiplier := 1,
              energy_consumption_multiplier := 1 } })
        else
          w.modifyEntity e (fun c => { c with
            quantumGate := some { gate with
              rolloff_current := gate.rolloff_time } })
    else w

/-- Embeds the system `quantum_gate_spawn_construct` from `main.rs` as a
fold of its loop body over the entity list. -/
def quantum_gate_spawn_construct (w : World) : World :=
  (w.entities.map (fun p => p.1)).foldl quantum_gate_step w

/-- The `update` stage of `FASimulation`: `execute_on_finished_construction`
and `do_construct_resources_request` run in the same parallel stage; the
former only issues deferred tag commands, applied at the stage boundary. -/
def fa_update_stage (w : World) : World :=
  apply_executing_promotions (do_construct_resources_request w)
    (execute_on_finished_construction_pending w)

/-- One tick of `FASimulation` from `simulation.rs`: tick count, update,
economy request (production then stall computation), resource usage
(settlement), economy accounting. -/
def fa_tick (w : World) : World :=
  economy_process_resource_consumption
    (do_construct
      (economy_process_resource_requests
        (economy_resource_producers
          (fa_update_stage (count_tick w)))))

/-- The `update` stage of `RASSimulation` in `main.rs`, which also runs
`construct_sacrifice`; all three systems' structural effects are
deferred to the stage boundary, and the listed order is the schedule
order (the systems' visible effects commute, since the sacrifice
resolver only writes `Damage` fields no other system of the stage
reads). -/
def ras_update_stage (w : World) : World :=
  apply_executing_promotions
    (construct_sacrifice (do_construct_resources_request w))
    (execute_on_finished_construction_pending w)

/-- One tick of `RASSimulation` from `main.rs`: tick count, unit
spawning, update, economy request, resource usage, economy accounting. -/
def ras_tick (w : World) : World :=
  economy_process_resource_consumption
    (do_construct
      (economy_process_resource_requests
        (economy_resource_producers
          (ras_update_stage
            (quantum_gate_spawn_construct (count_tick w))))))

/-! Entity-local well-formedness predicates.  Every configuration the
driver in `main.rs` builds satisfies all of them; they isolate exactly
the facts the theorems need about component values. -/

/-- A predicate holding of every entity's component record. -/
def AllEnts (Q : EntityComponents → Prop) (w : World) : Prop :=
  ∀ p ∈ w.entities, Q p.2

/-- Every health value lies in `[0, 1]`. -/
def HealthBounds (w : World) : Prop :=
  AllEnts (fun c => ∀ d, c.damage = some d → 0 ≤ d.health ∧ d.health ≤ 1) w

/-- Every Build Cost component has positive totals and build time. -/
def PositiveTotals (w : World) : Prop :=
  AllEnts (fun c => ∀ d, c.damage = some d →
    0 < d.mass_total ∧ 0 < d.energy_total ∧ 0 < d.build_time) w

/-- Every Constructing edge has positive consumption multipliers and
non-negative requested amounts. -/
def EdgeNonneg (w : World) : Prop :=
  AllEnts (fun c => ∀ k, c.constructing = some k →
    0 < k.mass_consumption_multiplier ∧ 0 < k.energy_consumption_multiplier ∧
    0 ≤ k.mass_requested ∧ 0 ≤ k.energy_requested) w

/-- Every consumer's pending requests are non-negative. -/
def ConsumerReqNonneg (w : World) : Prop :=
  AllEnts (fun c => ∀ r, c.consumer = some r →
    0 ≤ r.mass_request ∧ 0 ≤ r.energy_request) w

/-- Every consumer's counters are reset, as the consumption-accounting
stage leaves them at the end of every tick. -/
def ConsumersZeroed (w : World) : Prop :=
  AllEnts (fun c => ∀ r, c.consumer = some r →
    r.mass_request = 0 ∧ r.energy_request = 0 ∧
    r.mass_consumed = 0 ∧ r.energy_consumed = 0) w

/-- Every producer's per-tick yields are non-negative. -/
def YieldsNonneg (w : World) : Prop :=
  AllEnts (fun c => ∀ pr, c.producer = some pr →
    0 ≤ pr.mass_yield ∧ 0 ≤ pr.energy_yield) w

/-- Every engineering suite has a non-negative build rate. -/
def BuildRatesNonneg (w : World) : Prop :=
  AllEnts (fun c => ∀ g, c.engineering = some g → 0 ≤ g.build_rate) w

/-- Every sacrifice capability has non-negative efficiencies. -/
def EffNonneg (w : World) : Prop :=
  AllEnts (fun c => ∀ cap, c.sacrificeCapable = some cap →
    0 ≤ cap.mass_efficiency ∧ 0 ≤ cap.energy_efficiency) w

/-- Every active entity that has a Constructing edge and a consumer also
has an engineering suite (true of every builder the program creates), so
the request phase overwrites the edge's requested amounts before the
settlement phase reads them. -/
def EdgeHasEngineering (w : World) : Prop :=
  AllEnts (fun c => activeUnit c = true → c.constructing.isSome = true →
    c.consumer.isSome = true → c.engineering.isSome = true) w

/-- Every entity that is not executing carries no pending requested
amounts on its Constructing edge (true of every configuration the
program builds: edges are attached with requested amounts 0 and only
the request phase, which requires `Executing`, writes them). -/
def PassiveEdgesZero (w : World) : Prop :=
  AllEnts (fun c => c.executing = false → ∀ k, c.constructing = some k →
    k.mass_requested = 0 ∧ k.energy_requested = 0) w

/-- The state the request-aggregation phase leaves each consumer in:
nothing consumed yet, non-negative pending requests, and, for an active
builder, the edge's requested amounts are covered by the consumer's
pending requests (the request phase adds exactly the edge's requested
amounts to the consumer). -/
def ReqCovers (w : World) : Prop :=
  AllEnts (fun c => ∀ r, c.consumer = some r →
    r.mass_consumed = 0 ∧ r.energy_consumed = 0 ∧
    0 ≤ r.mass_request ∧ 0 ≤ r.energy_request ∧
    (activeUnit c = true → ∀ k, c.constructing = some k →
      k.mass_requested ≤ r.mass_request ∧
      k.energy_requested ≤ r.energy_request)) w

/-- The components of one entity that the settlement fold of
`do_construct` can only change when processing that same entity: its
consumer, its Constructing edge, and its query flags (every other write
of the fold only touches a target's Damage). -/
def settleObs (w : World) (e : ℕ) :
    Option ResourceConsumer × Option Constructing × Option (Bool × Bool) :=
  (w.consumerOf e, w.constructingOf e,
    (w.find e).map (fun c => (c.executing, c.constructionPaused)))

/-- Both ledger stocks are non-negative. -/
def StocksNonneg (w : World) : Prop :=
  0 ≤ w.economy.mass ∧ 0 ≤ w.economy.energy

/-- The conjunction of the entity-local predicates that every
configuration built by `main.rs` satisfies and that a tick preserves. -/
def TickWF (w : World) : Prop :=
  HealthBounds w ∧ PositiveTotals w ∧ EdgeNonneg w ∧ ConsumerReqNonneg w ∧
    YieldsNonneg w ∧ BuildRatesNonneg w ∧ EffNonneg w

/-- The entity ids of the store are distinct. -/
def KeysNodup (w : World) : Prop :=
  (w.entities.map (fun p => p.1)).Nodup

/-- Every entity id is below the fresh-id counter. -/
def IdsBounded (w : World) : Prop :=
  ∀ id ∈ w.entities.map (fun p => p.1), id < w.nextId

/-- Store well-formedness: distinct keys with a fresh id counter. -/
def WFStore (w : World) : Prop :=
  KeysNodup w ∧ IdsBounded w

/-- The Constructing components attached to one entity (those of the
store entries carrying its id). -/
def constructingComponents (w : World) (e : ℕ) : List Constructing :=
  (w.entities.filter (fun p => p.1 == e)).filterMap (fun p => p.2.constructing)

/-- The Sacrificing components attached to one entity. -/
def sacrificingComponents (w : World) (e : ℕ) : List Sacrificing :=
  (w.entities.filter (fun p => p.1 == e)).filterMap (fun p => p.2.sacrificing)

/-- Embeds bevy's `insert(Constructing { .. })` as used by
`quantum_gate_spawn_construct` and the driver: attaching a Constructing
component replaces any existing one on that entity. -/
def attachConstructing (w : World) (e : ℕ) (k : Constructing) : World :=
  w.modifyEntity e (fun c => { c with constructing := some k })

/-! Concrete worlds used to evaluate the definitions on explicit inputs. -/

/-- A world with no entities, default economy, tick 0. -/
def emptyWorld : World where
  nextId := 0
  entities := []
  economy := Economy.default
  current_tick := 0

/-- A consumer sitting at zero counters. -/
def zeroConsumer : ResourceConsumer where
  mass_request := 0
  energy_request := 0
  mass_consumed := 0
  energy_consumed := 0

/-- One executing consumer with pending requests of 5 mass and 5 energy,
against a ledger whose stock has dipped to −10 of each resource. -/
def negativeStockWorld : World where
  nextId := 1
  entities := [(0, { EntityComponents.empty with
    executing := true,
    consumer := some { mass_request := 5, energy_request := 5,
                       mass_consumed := 0, energy_consumed := 0 } })]
  economy := { Economy.default with mass := -10, energy := -10 }
  current_tick := 0

/-- One executing consumer requesting 20 mass and no energy, against a
ledger holding 10 mass: mass stalls at 1/2, energy has no demand. -/
def smallDemandWorld : World where
  nextId := 1
  entities := [(0, { EntityComponents.empty with
    executing := true,
    consumer := some { mass_request := 20, energy_request := 0,
                       mass_consumed := 0, energy_consumed := 0 } })]
  economy := { Economy.default with mass := 10, energy := 0 }
  current_tick := 0

/-- One executing producer yielding 10 mass per tick while the ledger
already sits exactly at its 4000 mass capacity. -/
def fullStorageWorld : World where
  nextId := 1
  entities := [(0, { EntityComponents.empty with
    executing := true,
    producer := some { mass_yield := 10, energy_yield := 0,
                       total_mass := 0, total_energy := 0 } })]
  economy := { Economy.default with mass := 4000, energy := 0 }
  current_tick := 0

/-- A Build Cost component with `build_time = 0`: the configuration §7
of the spec calls invalid.  `Damage` is a plain record and the entity
creation path is a plain `spawn`/`insert` chain, so nothing rejects
it. -/
def invalidDamage : Damage where
  health := 0
  health_points := 1
  mass_total := 100
  energy_total := 100
  build_time := 0

/-- The world obtained by spawning an entity carrying `invalidDamage`
(together with an engineering suite, as a builder target setup would):
creation succeeds unconditionally. -/
def invalidConfigWorld : World :=
  emptyWorld.spawn { EntityComponents.empty with
    damage := some invalidDamage,
    engineering := some { build_rate := 10 } }

/-- A builder (id 0) nine-tenths of the way through a 100/100-cost
target (id 1), with stall ratios 1: one more settlement step completes
the target. -/
def settleWorld : World where
  nextId := 2
  entities := [
    (0, { EntityComponents.empty with
      executing := true,
      constructing := some {
        target := 1, mass_requested := 10,
        energy_requested := 10, mass_consumption_multiplier := 1,
        energy_consumption_multiplier := 1, build_amount := 1/10 },
      consumer := some zeroConsumer }),
    (1, { EntityComponents.empty with
      damage := some {
        health := 19/20, health_points := 100,
        mass_total := 100, energy_total := 100, build_time := 10 } })]
  economy := Economy.default
  current_tick := 0

/-- An executing quantum gate (id 0) with its rolloff counter at 0 and
no Constructing edge: the next gate step spawns a unit. -/
def gateWorld : World where
  nextId := 1
  entities := [(0, { EntityComponents.empty with
    executing := true,
    quantumGate := some { rolloff_time := 15, rolloff_current := 0 } })]
  economy := Economy.default
  current_tick := 0

/-- A sacrifice source (id 0, half built) whose target (id 1) is
already complete: resolution drops the edge and the source survives. -/
def sacrificeCompleteWorld : World where
  nextId := 2
  entities := [
    (0, { EntityComponents.empty with
      executing := true,
      damage := some {
        health := 1/2, health_points := 100, mass_total := 100,
        energy_total := 100, build_time := 10 },
      sacrificing := some { target := 1 },
      sacrificeCapable := some { mass_efficiency := 9/10, energy_efficiency := 9/10 } }),
    (1, { EntityComponents.empty with
      damage := some {
        health := 1, health_points := 100, mass_total := 100,
        energy_total := 100, build_time := 10 } })]
  economy := Economy.default
  current_tick := 0

/-- A sacrifice source (id 0, half built) whose target (id 1) is still
incomplete: resolution contributes and destroys the source. -/
def sacrificeWorld : World where
  nextId := 2
  entities := [
    (0, { EntityComponents.empty with
      executing := true,
      damage := some {
        health := 1/2, health_points := 100, mass_total := 100,
        energy_total := 100, build_time := 10 },
      sacrificing := some { target := 1 },
      sacrificeCapable := some { mass_efficiency := 9/10, energy_efficiency := 9/10 } }),
    (1, { EntityComponents.empty with
      damage := some {
        health := 1/2, health_points := 100, mass_total := 100,
        energy_total := 100, build_time := 10 } })]
  economy := Economy.default
  current_tick := 0

/-- Scenario A of the spec: a producer (id 0) yielding 10 mass and 10
energy per tick, a builder (id 1) with `build_rate = 1` constructing
target (id 2) with `build_time = 10` (so `build_amount = 1/10` per
tick), target costing 100 mass and 100 energy, 0 initial stock. -/
def scenarioAWorld : World where
  nextId := 3
  entities := [
    (0, { EntityComponents.empty with
      executing := true,
      producer := some {
        mass_yield := 10, energy_yield := 10,
        total_mass := 0, total_energy := 0 } }),
    (1, { EntityComponents.empty with
      executing := true,
      engineering := some { build_rate := 1 },
      consumer := some zeroConsumer,
      constructing := some {
        target := 2, mass_requested := 0, energy_requested := 0,
        mass_consumption_multiplier := 1, energy_consumption_multiplier := 1,
        build_amount := 0 } }),
    (2, { EntityComponents.empty with
      damage := some {
        health := 0, health_points := 100, mass_total := 100,
        energy_total := 100, build_time := 10 } })]
  economy := Economy.default
  current_tick := 0

/-- The state Scenario A reaches after `k` ticks, for `1 ≤ k ≤ 9`:
health `k/10`, stock drained back to 0, per-tick produced, requested and
consumed totals all 10, stall ratios 1. -/
def scenarioAState (k : ℕ) : World where
  nextId := 3
  entities := [
    (0, { EntityComponents.empty with
      executing := true,
      producer := some {
        mass_yield := 10, energy_yield := 10,
        total_mass := 10 * (k : ℚ), total_energy := 10 * (k : ℚ) } }),
    (1, { EntityComponents.empty with
      executing := true,
      engineering := some { build_rate := 1 },
      consumer := some zeroConsumer,
      constructing := some {
        target := 2, mass_requested := 10, energy_requested := 10,
        mass_consumption_multiplier := 1, energy_consumption_multiplier := 1,
        build_amount := 1/10 } }),
    (2, { EntityComponents.empty with
      damage := some {
        health := (k : ℚ) / 10, health_points := 100, mass_total := 100,
        energy_total := 100, build_time := 10 } })]
  economy := { Economy.default with
    mass := 0, energy := 0,
    mass_produced := 10, energy_produced := 10,
    mass_requested := 10, energy_requested := 10,
    mass_consumed := 10, energy_consumed := 10 }
  current_tick := k

/-- The state Scenario A reaches after the 10th tick: the target
completed at exactly health 1, the Constructing edge dropped, exactly
10 mass and 10 energy consumed on that tick as on every other. -/
def scenarioAFinal : World where
  nextId := 3
  entities := [
    (0, { EntityComponents.empty with
      executing := true,
      producer := some {
        mass_yield := 10, energy_yield := 10,
        total_mass := 100, total_energy := 100 } }),
    (1, { EntityComponents.empty with
      executing := true,
      engineering := some { build_rate := 1 },
      consumer := some zeroConsumer }),
    (2, { EntityComponents.empty with
      damage := some {
        health := 1, health_points := 100, mass_total := 100,
        energy_total := 100, build_time := 10 } })]
  economy := { Economy.default with
    mass := 0, energy := 0,
    mass_produced := 10, energy_produced := 10,
    mass_requested := 10, energy_requested := 10,
    mass_consumed := 10, energy_consumed := 10 }
  current_tick := 10

/-! Store lemmas: how `find` interacts with the store operations. -/

theorem find?_map_keyed (l : List (ℕ × EntityComponents)) (e e' : ℕ)
    (f : EntityComponents → EntityComponents) :
    ((l.map (fun p => if p.1 = e then (p.1, f p.2) else p)).find? (fun p => p.1 == e'))
      = if e' = e then (l.find? (fun p => p.1 == e)).map (fun p => (p.1, f p.2))
        else l.find? (fun p => p.1 == e') := by
  induction l with
  | nil => by_cases h : e' = e <;> simp [h]
  | cons a l ih =>
    by_cases ha : a.1 = e
    · by_cases he : e' = e
      · simp [ha, he, List.find?_cons]
      · have : ¬ (a.1 == e') = true := by simp [ha]; omega
        simp only [List.map_cons, List.find?_cons, if_pos ha, this]
        simpa [ha, he, List.find?_cons] using ih
    · by_cases he : e' = e
      · have : ¬ (a.1 == e) = true := by simp [ha]
        simp only [List.map_cons, List.find?_cons, if_neg ha, if_pos he, he, this]
        simpa [he, List.find?_cons, this] using ih
      · by_cases hae : a.1 = e'
        · simp [List.find?_cons, hae, he, if_neg ha]
        · have h1 : ¬ (a.1 == e') = true := by simp [hae]
          simp only [List.map_cons, List.find?_cons, if_neg ha, h1]
          simpa [he, h1] using ih

theorem World.find_modifyEntity (w : World) (e : ℕ)
    (f : EntityComponents → EntityComponents) (e' : ℕ) :
    (w.modifyEntity e f).find e'
      = if e' = e then (w.find e).map f else w.find e' := by
  unfold World.find World.modifyEntity
  rw [find?_map_keyed]
  by_cases h : e' = e <;> simp [h, Option.map_map, Function.comp_def]

theorem World.find_modifyEntity_self (w : World) (e : ℕ)
    (f : EntityComponents → EntityComponents) :
    (w.modifyEntity e f).find e = (w.find e).map f := by
  simp [World.find_modifyEntity]

theorem World.find_modifyEntity_ne (w : World) (e : ℕ)
    (f : EntityComponents → EntityComponents) (e' : ℕ) (h : e' ≠ e) :
    (w.modifyEntity e f).find e' = w.find e' := by
  simp [World.find_modifyEntity, h]

theorem World.modifyEntity_economy (w : World) (e : ℕ)
    (f : EntityComponents → EntityComponents) :
    (w.modifyEntity e f).economy = w.economy := rfl

theorem World.modifyEntity_nextId (w : World) (e : ℕ)
    (f : EntityComponents → EntityComponents) :
    (w.modifyEntity e f).nextId = w.nextId := rfl

theorem World.modifyEntity_keys (w : World) (e : ℕ)
    (f : EntityComponents → EntityComponents) :
    (w.modifyEntity e f).entities.map (fun p => p.1)
      = w.entities.map (fun p => p.1) := by
  unfold World.modifyEntity
  simp only [List.map_map]
  apply List.map_congr_left
  intro p _
  by_cases h : p.1 = e <;> simp [h]

theorem find?_filter_ne (l : List (ℕ × EntityComponents)) (e e' : ℕ) (h : e' ≠ e) :
    ((l.filter (fun p => p.1 != e)).find? (fun p => p.1 == e'))
      = l.find? (fun p => p.1 == e') := by
  induction l with
  | nil => rfl
  | cons a l ih =>
    by_cases ha : a.1 = e
    · have h1 : ¬ ((fun p => p.1 == e') a) = true := by
        simp only [beq_iff_eq, ha]
        exact fun hc => h hc.symm
      have h2 : ¬ ((fun p => p.1 != e) a) = true := by simp [ha]
      rw [show List.filter (fun p => p.1 != e) (a :: l)
            = List.filter (fun p => p.1 != e) l from List.filter_cons_of_neg h2,
          show List.find? (fun p => p.1 == e') (a :: l)
            = List.find? (fun p => p.1 == e') l from List.find?_cons_of_neg _ h1, ih]
    · have h2 : ((fun p => p.1 != e) a) = true := by simp [ha]
      rw [show List.filter (fun p => p.1 != e) (a :: l)
            = a :: List.filter (fun p => p.1 != e) l from List.filter_cons_of_pos h2]
      by_cases ha' : a.1 = e'
      · have h1 : ((fun p => p.1 == e') a) = true := by simp [ha']
        rw [show List.find? (fun p => p.1 == e') (a :: List.filter (fun p => p.1 != e) l)
              = some a from List.find?_cons_of_pos _ h1,
            show List.find? (fun p => p.1 == e') (a :: l)
              = some a from List.find?_cons_of_pos _ h1]
      · have h1 : ¬ ((fun p => p.1 == e') a) = true := by simp [ha']
        rw [show List.find? (fun p => p.1 == e') (a :: List.filter (fun p => p.1 != e) l)
              = List.find? (fun p => p.1 == e') (List.filter (fun p => p.1 != e) l) from
              List.find?_cons_of_neg _ h1,
            show List.find? (fun p => p.1 == e') (a :: l)
              = List.find? (fun p => p.1 == e') l from List.find?_cons_of_neg _ h1, ih]

theorem find?_filter_self (l : List (ℕ × EntityComponents)) (e : ℕ) :
    ((l.filter (fun p => p.1 != e)).find? (fun p => p.1 == e)) = none := by
  rw [List.find?_eq_none]
  intro p hp
  have := (List.mem_filter.mp hp).2
  simp only [bne_iff_ne, ne_eq] at this
  simp [this]

theorem World.find_despawn (w : World) (e e' : ℕ) :
    (w.despawn e).find e' = if e' = e then none else w.find e' := by
  unfold World.find World.despawn
  by_cases h : e' = e
  · subst h
    simp [find?_filter_self]
  · simp only [if_neg h]
    rw [show (w.entities.filter (fun p => p.1 != e)).find? (fun p => p.1 == e')
          = w.entities.find? (fun p => p.1 == e') from find?_filter_ne w.entities e e' h]

theorem World.find_spawn_ne (w : World) (c : EntityComponents) (e' : ℕ)
    (h : e' ≠ w.nextId) :
    (w.spawn c).find e' = w.find e' := by
  unfold World.find World.spawn
  simp only [List.find?_append]
  have h1 : ¬ (w.nextId == e') = true := by simp; exact fun hc => h hc.symm
  cases hf : w.entities.find? (fun p => p.1 == e') <;>
    simp [hf, List.find?_cons, h1]

theorem World.find_spawn_self (w : World) (c : EntityComponents)
    (hfresh : w.find w.nextId = none) :
    (w.spawn c).find w.nextId = some c := by
  unfold World.find World.spawn
  unfold World.find at hfresh
  simp only [Option.map_eq_none'] at hfresh
  simp [List.find?_append, hfresh]

theorem World.spawn_economy (w : World) (c : EntityComponents) :
    (w.spawn c).economy = w.economy := rfl

theorem World.despawn_economy (w : World) (e : ℕ) :
    (w.despawn e).economy = w.economy := rfl

theorem World.find_spawn_of_found (w : World) (c : EntityComponents) (e : ℕ)
    (cc : EntityComponents) (h : w.find e = some cc) :
    (w.spawn c).find e = some cc := by
  unfold World.find at h
  unfold World.find World.spawn
  simp only [Option.map_eq_some'] at h
  obtain ⟨p, hp, rfl⟩ := h
  simp [List.find?_append, hp]

/-! Generic fold lemmas. -/

theorem foldl_inv_mem {β α : Type _} (step : β → α → β) (P : β → Prop)
    (q : α → Prop) :
    ∀ (L : List α), (∀ a ∈ L, q a) →
      (∀ b a, q a → P b → P (step b a)) →
      ∀ b, P b → P (L.foldl step b) := by
  intro L
  induction L with
  | nil => intro _ _ b hb; exact hb
  | cons a L ih =>
    intro hq hstep b hb
    exact ih (fun x hx => hq x (List.mem_cons_of_mem a hx)) hstep
      (step b a) (hstep b a (hq a (List.mem_cons_self a L)) hb)

theorem foldl_obs_frozen {β : Type _} (step : World → ℕ → World)
    (obs : World → ℕ → β)
    (hother : ∀ w a e, e ≠ a → obs (step w a) e = obs w e) :
    ∀ (L : List ℕ) (w : World) (e : ℕ), e ∉ L →
      obs (L.foldl step w) e = obs w e := by
  intro L
  induction L with
  | nil => intro w e _; rfl
  | cons a L ih =>
    intro w e he
    have hea : e ≠ a := fun h => he (h ▸ List.mem_cons_self a L)
    have heL : e ∉ L := fun h => he (List.mem_cons_of_mem a h)
    rw [List.foldl_cons, ih (step w a) e heL, hother w a e hea]

theorem foldl_obs_decomp {β : Type _} (step : World → ℕ → World)
    (obs : World → ℕ → β) (P : World → Prop)
    (hother : ∀ w a e, e ≠ a → obs (step w a) e = obs w e)
    (hP : ∀ w a, P w → P (step w a)) :
    ∀ (L : List ℕ) (w : World) (e : ℕ), e ∈ L → L.Nodup → P w →
      ∃ w₁, P w₁ ∧ obs w₁ e = obs w e ∧
        obs (L.foldl step w) e = obs (step w₁ e) e := by
  intro L
  induction L with
  | nil => intro w e he; exact absurd he (List.not_mem_nil e)
  | cons a L ih =>
    intro w e he hnd hw
    by_cases hea : e = a
    · subst hea
      have heL : e ∉ L := (List.nodup_cons.mp hnd).1
      refine ⟨w, hw, rfl, ?_⟩
      rw [List.foldl_cons, foldl_obs_frozen step obs hother L (step w e) e heL]
    · have heL : e ∈ L := (List.mem_cons.mp he).resolve_left hea
      obtain ⟨w₁, hw₁, hobs, hfold⟩ :=
        ih (step w a) e heL (List.nodup_cons.mp hnd).2 (hP w a hw)
      exact ⟨w₁, hw₁, hobs.trans (hother w a e hea), hfold⟩

/-! Preservation of entity-local predicates by the store operations. -/

theorem AllEnts_modifyEntity {Q : EntityComponents → Prop} (w : World) (e : ℕ)
    (f : EntityComponents → EntityComponents)
    (hw : AllEnts Q w) (hf : ∀ c, Q c → Q (f c)) :
    AllEnts Q (w.modifyEntity e f) := by
  intro p hp
  obtain ⟨p₀, hp₀, hpe⟩ := List.mem_map.mp hp
  by_cases h : p₀.1 = e
  · rw [if_pos h] at hpe
    subst hpe
    exact hf p₀.2 (hw p₀ hp₀)
  · rw [if_neg h] at hpe
    subst hpe
    exact hw p₀ hp₀

theorem AllEnts_despawn {Q : EntityComponents → Prop} (w : World) (e : ℕ)
    (hw : AllEnts Q w) : AllEnts Q (w.despawn e) := by
  intro p hp
  exact hw p (List.mem_filter.mp hp).1

theorem AllEnts_spawn {Q : EntityComponents → Prop} (w : World)
    (c : EntityComponents) (hw : AllEnts Q w) (hc : Q c) :
    AllEnts Q (w.spawn c) := by
  intro p hp
  rcases List.mem_append.mp hp with h | h
  · exact hw p h
  · rw [List.mem_singleton.mp h]
    exact hc

theorem AllEnts_map_pointwise {Q : EntityComponents → Prop} (w : World)
    (F : EntityComponents → EntityComponents) (eco : Economy) (n t : ℕ)
    (hw : AllEnts Q w) (hF : ∀ c, Q c → Q (F c)) :
    AllEnts Q { nextId := n, entities := w.entities.map (fun p => (p.1, F p.2)),
                economy := eco, current_tick := t } := by
  intro p hp
  obtain ⟨p₀, hp₀, hpe⟩ := List.mem_map.mp hp
  subst hpe
  exact hF p₀.2 (hw p₀ hp₀)

/-! Pointwise frame lemmas for the mapping stages. -/

theorem find_economy_resource_producers (w : World) (e : ℕ) :
    (economy_resource_producers w).find e = (w.find e).map producerAccumulate := by
  unfold economy_resource_producers World.find
  simp only [List.find?_map]
  have : ((fun p : ℕ × EntityComponents => p.1 == e) ∘
      (fun p : ℕ × EntityComponents => (p.1, producerAccumulate p.2)))
      = (fun p : ℕ × EntityComponents => p.1 == e) := rfl
  rw [this, Option.map_map]
  simp [Function.comp_def]

theorem find_economy_process_resource_consumption (w : World) (e : ℕ) :
    (economy_process_resource_consumption w).find e = (w.find e).map consumerReset := by
  unfold economy_process_resource_consumption World.find
  simp only [List.find?_map]
  have : ((fun p : ℕ × EntityComponents => p.1 == e) ∘
      (fun p : ℕ × EntityComponents => (p.1, consumerReset p.2)))
      = (fun p : ℕ × EntityComponents => p.1 == e) := rfl
  rw [this, Option.map_map]
  simp [Function.comp_def]

theorem producerAccumulate_damage (c : EntityComponents) :
    (producerAccumulate c).damage = c.damage := by
  unfold producerAccumulate
  by_cases h : c.executing <;> cases hc : c.producer <;> simp [h, hc]

theorem producerAccumulate_consumer (c : EntityComponents) :
    (producerAccumulate c).consumer = c.consumer := by
  unfold producerAccumulate
  by_cases h : c.executing <;> cases hc : c.producer <;> simp [h, hc]

theorem producerAccumulate_constructing (c : EntityComponents) :
    (producerAccumulate c).constructing = c.constructing := by
  unfold producerAccumulate
  by_cases h : c.executing <;> cases hc : c.producer <;> simp [h, hc]

theorem consumerReset_damage (c : EntityComponents) :
    (consumerReset c).damage = c.damage := by
  unfold consumerReset
  by_cases h : c.executing <;> cases hc : c.consumer <;> simp [h, hc]

theorem damageOf_economy_resource_producers (w : World) (e : ℕ) :
    (economy_resource_producers w).damageOf e = w.damageOf e := by
  unfold World.damageOf
  rw [find_economy_resource_producers]
  cases w.find e <;> simp [producerAccumulate_damage]

theorem consumerOf_economy_resource_producers (w : World) (e : ℕ) :
    (economy_resource_producers w).consumerOf e = w.consumerOf e := by
  unfold World.consumerOf
  rw [find_economy_resource_producers]
  cases w.find e <;> simp [producerAccumulate_consumer]

theorem constructingOf_economy_resource_producers (w : World) (e : ℕ) :
    (economy_resource_producers w).constructingOf e = w.constructingOf e := by
  unfold World.constructingOf
  rw [find_economy_resource_producers]
  cases w.find e <;> simp [producerAccumulate_constructing]

theorem damageOf_economy_process_resource_consumption (w : World) (e : ℕ) :
    (economy_process_resource_consumption w).damageOf e = w.damageOf e := by
  unfold World.damageOf
  rw [find_economy_process_resource_consumption]
  cases w.find e <;> simp [consumerReset_damage]

theorem find_economy_process_resource_requests (w : World) (e : ℕ) :
    (economy_process_resource_requests w).find e = w.find e := rfl

theorem find_count_tick (w : World) (e : ℕ) :
    (count_tick w).find e = w.find e := rfl

/-! Stall arithmetic lemmas. -/

theorem calc_stall_le_one (stock requested : ℚ) : calc_stall stock requested ≤ 1 := by
  unfold calc_stall
  by_cases h : requested = 0
  · simp [h]
  · simp [h, min_le_left]

theorem calc_stall_nonneg (stock requested : ℚ) (hs : 0 ≤ stock) (hr : 0 ≤ requested) :
    0 ≤ calc_stall stock requested := by
  unfold calc_stall
  by_cases h : requested = 0
  · simp [h]
  · have hrpos : 0 < requested := lt_of_le_of_ne hr (Ne.symm h)
    simp only [h, if_false]
    exact le_min one_pos.le (div_nonneg hs hrpos.le)

theorem calc_stall_of_no_demand (stock : ℚ) : calc_stall stock 0 = 1 := by
  unfold calc_stall
  simp

/-- Sum of one request field over the executing consumers is
non-negative when each executing consumer's field is. -/
theorem sum_consumer_field_nonneg (l : List (ℕ × EntityComponents))
    (g : ResourceConsumer → ℚ)
    (hreq : ∀ p ∈ l, ∀ r, consumerOfEntry p = some r → 0 ≤ g r) :
    0 ≤ ((l.filterMap consumerOfEntry).map g).sum := by
  apply List.sum_nonneg
  intro x hx
  obtain ⟨r, hr, rfl⟩ := List.mem_map.mp hx
  obtain ⟨p, hp, hpr⟩ := List.mem_filterMap.mp hr
  exact hreq p hp r hpr

/-- C1 (counterexample): with a negative mass stock of −10 and a single
executing consumer requesting 5 mass, the request-aggregation stage
computes `mass_stall = min(1, −10/5) = −2`, which lies outside `[0, 1]`;
so the claim that the stall ratios always lie in `[0, 1]` even when
stock is negative is false of the code. -/
theorem c1_stall_negative_counterexample :
    (economy_process_resource_requests negativeStockWorld).economy.mass_stall = -2 ∧
    ¬ (0 ≤ (economy_process_resource_requests negativeStockWorld).economy.mass_stall) := by
  have h : (economy_process_resource_requests negativeStockWorld).economy.mass_stall = -2 := by
    simp only [economy_process_resource_requests, negativeStockWorld, consumerOfEntry,
      EntityComponents.empty, calc_stall, List.filterMap, List.map, List.sum_cons,
      List.sum_nil]
    norm_num
  exact ⟨h, by rw [h]; norm_num⟩

/-- C1 (amended): after the request-aggregation stage, both stall ratios
lie in `[0, 1]` and a stall ratio equals exactly 1 when the
corresponding requested total is 0 — provided the stock the stage reads
is non-negative and every executing consumer's pending requests are
non-negative (as established by the request phase); with a negative
stock the ratio `min(1, stock/requested)` is negative. -/
theorem c1_stall_bounds_amended (w : World)
    (hm : 0 ≤ w.economy.mass) (he : 0 ≤ w.economy.energy)
    (hreq : ∀ p ∈ w.entities, ∀ r, consumerOfEntry p = some r →
      0 ≤ r.mass_request ∧ 0 ≤ r.energy_request) :
    (0 ≤ (economy_process_resource_requests w).economy.mass_stall ∧
      (economy_process_resource_requests w).economy.mass_stall ≤ 1) ∧
    (0 ≤ (economy_process_resource_requests w).economy.energy_stall ∧
      (economy_process_resource_requests w).economy.energy_stall ≤ 1) ∧
    ((economy_process_resource_requests w).economy.mass_requested = 0 →
      (economy_process_resource_requests w).economy.mass_stall = 1) ∧
    ((economy_process_resource_requests w).economy.energy_requested = 0 →
      (economy_process_resource_requests w).economy.energy_stall = 1) := by
  have hmr : 0 ≤ ((w.entities.filterMap consumerOfEntry).map
      (fun c => c.mass_request)).sum :=
    sum_consumer_field_nonneg w.entities (fun c => c.mass_request)
      (fun p hp r hr => (hreq p hp r hr).1)
  have her : 0 ≤ ((w.entities.filterMap consumerOfEntry).map
      (fun c => c.energy_request)).sum :=
    sum_consumer_field_nonneg w.entities (fun c => c.energy_request)
      (fun p hp r hr => (hreq p hp r hr).2)
  unfold economy_process_resource_requests
  refine ⟨⟨calc_stall_nonneg _ _ hm hmr, calc_stall_le_one _ _⟩,
    ⟨calc_stall_nonneg _ _ he her, calc_stall_le_one _ _⟩, ?_, ?_⟩ <;>
    · intro h0
      simp only at h0 ⊢
      rw [h0, calc_stall_of_no_demand]

/-- C1 (witness for the amended theorem): in `smallDemandWorld` the
stage computes mass stall 1/2 ∈ [0,1] and energy stall 1 with zero
energy demand. -/
theorem c1_stall_bounds_amended_witness :
    (0 ≤ (economy_process_resource_requests smallDemandWorld).economy.mass_stall ∧
      (economy_process_resource_requests smallDemandWorld).economy.mass_stall ≤ 1) ∧
    (0 ≤ (economy_process_resource_requests smallDemandWorld).economy.energy_stall ∧
      (economy_process_resource_requests smallDemandWorld).economy.energy_stall ≤ 1) ∧
    ((economy_process_resource_requests smallDemandWorld).economy.mass_requested = 0 →
      (economy_process_resource_requests smallDemandWorld).economy.mass_stall = 1) ∧
    ((economy_process_resource_requests smallDemandWorld).economy.energy_requested = 0 →
      (economy_process_resource_requests smallDemandWorld).economy.energy_stall = 1) := by
  apply c1_stall_bounds_amended smallDemandWorld
  · norm_num [smallDemandWorld, Economy.default]
  · norm_num [smallDemandWorld, Economy.default]
  · intro p hp r hr
    simp only [smallDemandWorld, List.mem_singleton] at hp
    subst hp
    rw [show consumerOfEntry (0, { EntityComponents.empty with
          executing := true,
          consumer := some { mass_request := 20, energy_request := 0,
                             mass_consumed := 0, energy_consumed := 0 } })
        = some { mass_request := 20, energy_request := 0,
                 mass_consumed := 0, energy_consumed := 0 } from rfl] at hr
    cases hr
    norm_num

/-- C7 (counterexample): with the ledger already at its 4000 mass
capacity and one executing producer yielding 10 mass, the
production-accounting step raises the stock to 4010, which exceeds the
capacity that the claim says the stock read by the stall computation
never exceeds. -/
theorem c7_production_exceeds_capacity_counterexample :
    (economy_resource_producers fullStorageWorld).economy.mass = 4010 ∧
    (economy_resource_producers fullStorageWorld).economy.mass_capacity = 4000 ∧
    ¬ ((economy_resource_producers fullStorageWorld).economy.mass ≤
        (economy_resource_producers fullStorageWorld).economy.mass_capacity) := by
  refine ⟨?_, ?_, ?_⟩ <;>
    norm_num [economy_resource_producers, fullStorageWorld, producerYields,
      EntityComponents.empty, Economy.default, List.filterMap_cons, List.filterMap_nil]

/-- C7 (amended): the production-accounting step adds the executing
producers' per-tick yields to the ledger stock without any clamp, so the
stock read by the stall computation in the same tick may exceed the
capacity; the clamp to capacity happens at the consumption-accounting
step, so the stock at a tick boundary never exceeds capacity. -/
theorem c7_production_unclamped_amended (w w' : World) :
    (economy_resource_producers w).economy.mass
        = w.economy.mass +
          ((w.entities.filterMap producerYields).map (fun p => p.mass_yield)).sum ∧
    (economy_resource_producers w).economy.energy
        = w.economy.energy +
          ((w.entities.filterMap producerYields).map (fun p => p.energy_yield)).sum ∧
    (economy_process_resource_requests (economy_resource_producers w)).economy.mass
        = (economy_resource_producers w).economy.mass ∧
    (economy_process_resource_consumption w').economy.mass ≤ w'.economy.mass_capacity ∧
    (economy_process_resource_consumption w').economy.energy ≤ w'.economy.energy_capacity := by
  refine ⟨rfl, rfl, rfl, ?_, ?_⟩ <;>
    simp [economy_process_resource_consumption, min_le_left]

/-- C9: the claim says invalid configuration (zero or negative
`build_time`, `mass_total` or `energy_total`) is rejected with a
configuration error at entity-creation time.  The code has no such
check: `Damage` is a plain component and creation is a plain
`spawn`/`insert`, so a `Damage` with `build_time = 0` is accepted and
stored, and the request phase later divides by it.  This theorem
evaluates creation at the failing input: the spawn succeeds and the
invalid component is in the store. -/
theorem c9_no_creation_validation :
    invalidConfigWorld.damageOf 0 = some invalidDamage ∧
    invalidDamage.build_time = 0 := by
  constructor
  · rfl
  · rfl

theorem World.damageOf_eq_some (w : World) (t : ℕ) (d : Damage) :
    w.damageOf t = some d ↔ ∃ c, w.find t = some c ∧ c.damage = some d := by
  unfold World.damageOf
  cases h : w.find t <;> simp [h]

/-- C6: settlement of a Constructing edge never overshoots and is
idempotent at completion.  If the target's health already reads ≥ 1.0 at
entry, the edge is dropped, the builder's consumed fields are untouched
and the target is untouched; if `health + min_portion ≥ 1.0` (with
`min_portion` exactly the bottleneck expression of `do_construct`), the
builder consumes exactly the remaining cost times the consumption
multipliers, the target's health is set to exactly 1.0, and the edge is
dropped. -/
theorem c6_settlement_exact_completion (w : World) (b : ℕ) (cb : EntityComponents)
    (k : Constructing) (r : ResourceConsumer) (d : Damage)
    (hfb : w.find b = some cb) (hact : activeUnit cb = true)
    (hk : cb.constructing = some k) (hr : cb.consumer = some r)
    (hd : w.damageOf k.target = some d) (hbt : b ≠ k.target) :
    (d.health ≥ 1 →
      (do_construct_step w b).constructingOf b = none ∧
      (do_construct_step w b).consumerOf b = some r ∧
      (do_construct_step w b).damageOf k.target = some d) ∧
    (¬ d.health ≥ 1 →
      d.health + min
          (k.mass_requested * w.economy.mass_stall /
            k.mass_consumption_multiplier / d.mass_total)
          (k.energy_requested * w.economy.energy_stall /
            k.energy_consumption_multiplier / d.energy_total) ≥ 1 →
      (do_construct_step w b).damageOf k.target = some { d with health := 1 } ∧
      (do_construct_step w b).constructingOf b = none ∧
      (do_construct_step w b).consumerOf b = some { r with
        mass_consumed := r.mass_consumed +
          (1 - d.health) * d.mass_total * k.mass_consumption_multiplier,
        energy_consumed := r.energy_consumed +
          (1 - d.health) * d.energy_total * k.energy_consumption_multiplier }) := by
  obtain ⟨ct, hct, hctd⟩ := (World.damageOf_eq_some w k.target d).mp hd
  have htb : k.target ≠ b := fun h => hbt h.symm
  constructor
  · intro h1
    unfold do_construct_step
    simp only [hfb, hact, hk, hr, hd, if_true, ge_iff_le, h1, if_pos]
    refine ⟨?_, ?_, ?_⟩
    · unfold World.constructingOf
      rw [World.find_modifyEntity_self, hfb]
      rfl
    · unfold World.consumerOf
      rw [World.find_modifyEntity_self, hfb]
      simp [hr]
    · unfold World.damageOf
      rw [World.find_modifyEntity_ne _ _ _ _ htb, hct]
      simpa using hctd
  · intro h1 h2
    unfold do_construct_step
    rw [hfb]
    simp only [hact, if_true, hk, hr, hd]
    rw [if_neg h1, if_pos h2]
    refine ⟨?_, ?_, ?_⟩
    · unfold World.damageOf
      rw [World.find_modifyEntity_self, World.find_modifyEntity_ne _ _ _ _ htb, hct]
      simp
    · unfold World.constructingOf
      rw [World.find_modifyEntity_ne _ _ _ _ hbt, World.find_modifyEntity_self, hfb]
      rfl
    · unfold World.consumerOf
      rw [World.find_modifyEntity_ne _ _ _ _ hbt, World.find_modifyEntity_self, hfb]
      simp [hr]

/-- C6 (witness): in `settleWorld` the builder finds its target at
health 19/20 with a bottleneck portion of 1/10, so settlement completes
the target at exactly health 1 and consumes exactly the remaining 5 mass
and 5 energy. -/
theorem c6_settlement_exact_completion_witness :
    ((19/20 : ℚ) ≥ 1 →
      (do_construct_step settleWorld 0).constructingOf 0 = none ∧
      (do_construct_step settleWorld 0).consumerOf 0 = some zeroConsumer ∧
      (do_construct_step settleWorld 0).damageOf 1 = some {
        health := 19/20, health_points := 100, mass_total := 100,
        energy_total := 100, build_time := 10 }) ∧
    (¬ (19/20 : ℚ) ≥ 1 →
      (19/20 : ℚ) + min
          ((10 : ℚ) * settleWorld.economy.mass_stall / 1 / 100)
          ((10 : ℚ) * settleWorld.economy.energy_stall / 1 / 100) ≥ 1 →
      (do_construct_step settleWorld 0).damageOf 1 = some {
        health := 1, health_points := 100, mass_total := 100,
        energy_total := 100, build_time := 10 } ∧
      (do_construct_step settleWorld 0).constructingOf 0 = none ∧
      (do_construct_step settleWorld 0).consumerOf 0 = some { zeroConsumer with
        mass_consumed := zeroConsumer.mass_consumed + (1 - 19/20) * 100 * 1,
        energy_consumed := zeroConsumer.energy_consumed + (1 - 19/20) * 100 * 1 }) := by
  exact c6_settlement_exact_completion settleWorld 0
    ({ EntityComponents.empty with
      executing := true,
      constructing := some {
        target := 1, mass_requested := 10,
        energy_requested := 10, mass_consumption_multiplier := 1,
        energy_consumption_multiplier := 1, build_amount := 1/10 },
      consumer := some zeroConsumer })
    { target := 1, mass_requested := 10, energy_requested := 10,
      mass_consumption_multiplier := 1, energy_consumption_multiplier := 1,
      build_amount := 1/10 }
    zeroConsumer
    { health := 19/20, health_points := 100, mass_total := 100,
      energy_total := 100, build_time := 10 }
    rfl rfl rfl rfl rfl (by decide)

/-- C8: the spawn-controller cycle of `quantum_gate_spawn_construct`.
For an executing, unpaused gate: while it still has a Constructing edge
the step leaves the world unchanged (so no second spawn can start while
one is in flight); with no edge, a positive counter is decremented by 1
and nothing is spawned; at counter 0 a new fully-equipped RAS SACU is
spawned, a Constructing edge from the gate to it is attached, and the
counter is set to the sentinel −1; at a negative counter (the gate's
edge having been cleared) the counter is reset to `rolloff_time` and
nothing is spawned. -/
theorem c8_gate_spawn_cycle (w : World) (g : ℕ) (c : EntityComponents)
    (q : QuantumGate) (hfg : w.find g = some c) (hact : activeUnit c = true)
    (hq : c.quantumGate = some q) :
    (∀ k, c.constructing = some k → quantum_gate_step w g = w) ∧
    (c.constructing = none → q.rolloff_current > 0 →
      (quantum_gate_step w g).find g = some { c with
        quantumGate := some { q with rolloff_current := q.rolloff_current - 1 } } ∧
      (quantum_gate_step w g).entities.map (fun p => p.1)
        = w.entities.map (fun p => p.1)) ∧
    (c.constructing = none → q.rolloff_current = 0 → w.find w.nextId = none →
      (quantum_gate_step w g).find w.nextId = some rasSacuBundle ∧
      (quantum_gate_step w g).find g = some { c with
        quantumGate := some { q with rolloff_current := -1 },
        constructing := some {
          target := w.nextId, mass_requested := 0,
          energy_requested := 0, mass_consumption_multiplier := 1,
          energy_consumption_multiplier := 1, build_amount := 0 } } ∧
      (quantum_gate_step w g).nextId = w.nextId + 1) ∧
    (c.constructing = none → q.rolloff_current < 0 →
      (quantum_gate_step w g).find g = some { c with
        quantumGate := some { q with rolloff_current := q.rolloff_time } } ∧
      (quantum_gate_step w g).entities.map (fun p => p.1)
        = w.entities.map (fun p => p.1)) := by
  refine ⟨?_, ?_, ?_, ?_⟩
  · intro k hk
    unfold quantum_gate_step
    rw [hfg]
    simp [hk]
  · intro hnone hpos
    unfold quantum_gate_step
    rw [hfg]
    simp only [hnone, Option.isNone_none, hact, Bool.and_true, if_true, hq]
    rw [if_pos hpos]
    exact ⟨by rw [World.find_modifyEntity_self, hfg]; simp [hnone], World.modifyEntity_keys _ _ _⟩
  · intro hnone h0 hfresh
    have hgn : g ≠ w.nextId := by
      intro h
      rw [h, hfresh] at hfg
      cases hfg
    unfold quantum_gate_step
    rw [hfg]
    simp only [hnone, Option.isNone_none, hact, Bool.and_true, if_true, hq]
    rw [if_neg (by omega : ¬ q.rolloff_current > 0), if_pos h0]
    refine ⟨?_, ?_, rfl⟩
    · rw [World.find_modifyEntity_ne _ _ _ _ (fun h => hgn h.symm)]
      exact World.find_spawn_self w rasSacuBundle hfresh
    · rw [World.find_modifyEntity_self, World.find_spawn_of_found w _ g c hfg]
      rfl
  · intro hnone hneg
    unfold quantum_gate_step
    rw [hfg]
    simp only [hnone, Option.isNone_none, hact, Bool.and_true, if_true, hq]
    rw [if_neg (by omega : ¬ q.rolloff_current > 0),
      if_neg (by omega : ¬ q.rolloff_current = 0)]
    exact ⟨by rw [World.find_modifyEntity_self, hfg]; simp [hnone], World.modifyEntity_keys _ _ _⟩

/-- C8 (witness): in `gateWorld` the gate's counter reads 0, so the step
spawns the RAS SACU with id 1, attaches the edge and sets the sentinel. -/
theorem c8_gate_spawn_cycle_witness :
    (∀ k, ({ EntityComponents.empty with
        executing := true,
        quantumGate := some { rolloff_time := 15, rolloff_current := 0 }
        } : EntityComponents).constructing = some k →
      quantum_gate_step gateWorld 0 = gateWorld) ∧
    (({ EntityComponents.empty with
        executing := true,
        quantumGate := some { rolloff_time := 15, rolloff_current := 0 }
        } : EntityComponents).constructing = none → (0 : ℤ) > 0 →
      (quantum_gate_step gateWorld 0).find 0 = some { ({ EntityComponents.empty with
        executing := true,
        quantumGate := some { rolloff_time := 15, rolloff_current := 0 }
        } : EntityComponents) with
        quantumGate := some { rolloff_time := 15, rolloff_current := (0 : ℤ) - 1 } } ∧
      (quantum_gate_step gateWorld 0).entities.map (fun p => p.1)
        = gateWorld.entities.map (fun p => p.1)) ∧
    (({ EntityComponents.empty with
        executing := true,
        quantumGate := some { rolloff_time := 15, rolloff_current := 0 }
        } : EntityComponents).constructing = none → (0 : ℤ) = 0 →
      gateWorld.find gateWorld.nextId = none →
      (quantum_gate_step gateWorld 0).find gateWorld.nextId = some rasSacuBundle ∧
      (quantum_gate_step gateWorld 0).find 0 = some { ({ EntityComponents.empty with
        executing := true,
        quantumGate := some { rolloff_time := 15, rolloff_current := 0 }
        } : EntityComponents) with
        quantumGate := some { rolloff_time := 15, rolloff_current := -1 },
        constructing := some {
          target := gateWorld.nextId, mass_requested := 0,
          energy_requested := 0, mass_consumption_multiplier := 1,
          energy_consumption_multiplier := 1, build_amount := 0 } } ∧
      (quantum_gate_step gateWorld 0).nextId = gateWorld.nextId + 1) ∧
    (({ EntityComponents.empty with
        executing := true,
        quantumGate := some { rolloff_time := 15, rolloff_current := 0 }
        } : EntityComponents).constructing = none → (0 : ℤ) < 0 →
      (quantum_gate_step gateWorld 0).find 0 = some { ({ EntityComponents.empty with
        executing := true,
        quantumGate := some { rolloff_time := 15, rolloff_current := 0 }
        } : EntityComponents) with
        quantumGate := some { rolloff_time := 15, rolloff_current := 15 } } ∧
      (quantum_gate_step gateWorld 0).entities.map (fun p => p.1)
        = gateWorld.entities.map (fun p => p.1)) :=
  c8_gate_spawn_cycle gateWorld 0
    { EntityComponents.empty with
      executing := true,
      quantumGate := some { rolloff_time := 15, rolloff_current := 0 } }
    { rolloff_time := 15, rolloff_current := 0 }
    rfl rfl rfl

/-! Store multiplicity lemmas and well-formedness preservation. -/

theorem filter_key_length_le_one (l : List (ℕ × EntityComponents)) (e : ℕ)
    (hnd : (l.map (fun p => p.1)).Nodup) :
    (l.filter (fun p => p.1 == e)).length ≤ 1 := by
  induction l with
  | nil => simp
  | cons a l ih =>
    simp only [List.map_cons, List.nodup_cons] at hnd
    by_cases ha : a.1 = e
    · have hrest : l.filter (fun p => p.1 == e) = [] := by
        rw [List.filter_eq_nil_iff]
        intro p hp
        have : p.1 ≠ a.1 := fun hc => hnd.1 (hc ▸ List.mem_map_of_mem _ hp)
        simp only [beq_iff_eq]
        rw [ha] at this
        exact this
      have h1 : (a.1 == e) = true := by simp [ha]
      simp [List.filter_cons, h1, hrest]
    · have h1 : (a.1 == e) = false := by simp [ha]
      simp only [List.filter_cons, h1, cond_false]
      exact ih hnd.2

theorem filter_key_eq_of_find (l : List (ℕ × EntityComponents)) (e : ℕ)
    (pe : ℕ × EntityComponents)
    (hnd : (l.map (fun p => p.1)).Nodup)
    (hf : l.find? (fun p => p.1 == e) = some pe) :
    l.filter (fun p => p.1 == e) = [pe] := by
  induction l with
  | nil => cases hf
  | cons a l ih =>
    simp only [List.map_cons, List.nodup_cons] at hnd
    by_cases ha : a.1 = e
    · have h1 : (a.1 == e) = true := by simp [ha]
      rw [List.find?_cons] at hf
      simp only [h1, cond_true] at hf
      cases hf
      have hrest : l.filter (fun p => p.1 == e) = [] := by
        rw [List.filter_eq_nil_iff]
        intro p hp
        have hne : p.1 ≠ pe.1 := fun hc => hnd.1 (hc ▸ List.mem_map_of_mem _ hp)
        simp only [beq_iff_eq]
        rw [ha] at hne
        exact hne
      simp [List.filter_cons, h1, hrest]
    · have h1 : (a.1 == e) = false := by simp [ha]
      rw [List.find?_cons] at hf
      simp only [h1, cond_false] at hf
      simp only [List.filter_cons, h1, cond_false]
      exact ih hnd.2 hf

theorem WFStore_modifyEntity (w : World) (e : ℕ)
    (f : EntityComponents → EntityComponents) (h : WFStore w) :
    WFStore (w.modifyEntity e f) := by
  refine ⟨?_, ?_⟩
  · unfold KeysNodup
    rw [World.modifyEntity_keys]
    exact h.1
  · unfold IdsBounded
    rw [World.modifyEntity_keys, World.modifyEntity_nextId]
    exact h.2

theorem WFStore_despawn (w : World) (e : ℕ) (h : WFStore w) :
    WFStore (w.despawn e) := by
  have hsub : ((w.despawn e).entities.map (fun p => p.1)).Sublist
      (w.entities.map (fun p => p.1)) :=
    (List.filter_sublist w.entities).map (fun p => p.1)
  exact ⟨h.1.sublist hsub, fun id hid => h.2 id (hsub.mem hid)⟩

theorem WFStore_spawn (w : World) (c : EntityComponents) (h : WFStore w) :
    WFStore (w.spawn c) := by
  have hnew : w.nextId ∉ w.entities.map (fun p => p.1) := fun hmem =>
    lt_irrefl _ (h.2 _ hmem)
  constructor
  · unfold KeysNodup World.spawn
    simp only [List.map_append, List.map_cons, List.map_nil]
    rw [List.nodup_append]
    exact ⟨h.1, List.nodup_singleton _, by simpa using fun hmem => hnew hmem⟩
  · intro id hid
    unfold World.spawn at hid
    simp only [List.map_append, List.map_cons, List.map_nil,
      List.mem_append, List.mem_singleton] at hid
    rcases hid with hid | hid
    · exact Nat.lt_succ_of_lt (h.2 id hid)
    · subst hid
      exact Nat.lt_succ_self _

theorem keys_economy_resource_producers (w : World) :
    (economy_resource_producers w).entities.map (fun p => p.1)
      = w.entities.map (fun p => p.1) := by
  unfold economy_resource_producers
  simp only [List.map_map]
  rfl

theorem keys_economy_process_resource_consumption (w : World) :
    (economy_process_resource_consumption w).entities.map (fun p => p.1)
      = w.entities.map (fun p => p.1) := by
  unfold economy_process_resource_consumption
  simp only [List.map_map]
  rfl

theorem WFStore_economy_resource_producers (w : World) (h : WFStore w) :
    WFStore (economy_resource_producers w) := by
  constructor
  · unfold KeysNodup
    rw [keys_economy_resource_producers]
    exact h.1
  · unfold IdsBounded
    rw [keys_economy_resource_producers]
    exact h.2

theorem WFStore_economy_process_resource_consumption (w : World) (h : WFStore w) :
    WFStore (economy_process_resource_consumption w) := by
  constructor
  · unfold KeysNodup
    rw [keys_economy_process_resource_consumption]
    exact h.1
  · unfold IdsBounded
    rw [keys_economy_process_resource_consumption]
    exact h.2

theorem WFStore_quantum_gate_step (w : World) (e : ℕ) (h : WFStore w) :
    WFStore (quantum_gate_step w e) := by
  unfold quantum_gate_step
  repeat' split
  all_goals first
    | exact h
    | exact WFStore_modifyEntity _ _ _ h
    | exact WFStore_modifyEntity _ _ _ (WFStore_spawn _ _ h)

theorem WFStore_do_construct_step (w : World) (e : ℕ) (h : WFStore w) :
    WFStore (do_construct_step w e) := by
  unfold do_construct_step
  repeat' split
  all_goals try (dsimp only; repeat' split)
  all_goals first
    | exact h
    | exact WFStore_modifyEntity _ _ _ h
    | exact WFStore_modifyEntity _ _ _ (WFStore_modifyEntity _ _ _ h)

theorem WFStore_do_construct_resources_request_step (w : World) (e : ℕ)
    (h : WFStore w) : WFStore (do_construct_resources_request_step w e) := by
  unfold do_construct_resources_request_step
  repeat' split
  all_goals first
    | exact h
    | exact WFStore_modifyEntity _ _ _ h

theorem WFStore_sacrifice_resolve_step (acc : World × List SacrificeCommand)
    (info : SacrificeInfo) (h : WFStore acc.1) :
    WFStore (sacrifice_resolve_step acc info).1 := by
  unfold sacrifice_resolve_step
  repeat' split
  all_goals first
    | exact h
    | exact WFStore_modifyEntity _ _ _ h

theorem WFStore_apply_sacrifice_command (w : World) (cmd : SacrificeCommand)
    (h : WFStore w) : WFStore (apply_sacrifice_command w cmd) := by
  unfold apply_sacrifice_command
  cases cmd with
  | removeSacrificing e => exact WFStore_modifyEntity _ _ _ h
  | despawnSource e => exact WFStore_despawn _ _ h

theorem WFStore_construct_sacrifice (w : World) (h : WFStore w) :
    WFStore (construct_sacrifice w) := by
  unfold construct_sacrifice
  have h1 : WFStore ((sacrifice_snapshot w).foldl sacrifice_resolve_step (w, [])).1 :=
    foldl_inv_mem sacrifice_resolve_step (fun acc => WFStore acc.1)
      (fun _ => True) (sacrifice_snapshot w) (fun _ _ => trivial)
      (fun b a _ hb => WFStore_sacrifice_resolve_step b a hb) (w, []) h
  exact foldl_inv_mem apply_sacrifice_command WFStore (fun _ => True) _
    (fun _ _ => trivial) (fun b a _ hb => WFStore_apply_sacrifice_command b a hb) _ h1

theorem WFStore_apply_executing_promotions (w : World) (ids : List ℕ)
    (h : WFStore w) : WFStore (apply_executing_promotions w ids) :=
  foldl_inv_mem _ WFStore (fun _ => True) ids (fun _ _ => trivial)
    (fun b a _ hb => WFStore_modifyEntity b a _ hb) w h

theorem WFStore_ras_tick (w : World) (h : WFStore w) : WFStore (ras_tick w) := by
  unfold ras_tick ras_update_stage quantum_gate_spawn_construct
    do_construct_resources_request do_construct
  apply WFStore_economy_process_resource_consumption
  apply foldl_inv_mem do_construct_step WFStore (fun _ => True) _
    (fun _ _ => trivial) (fun b a _ hb => WFStore_do_construct_step b a hb)
  refine ?_
  apply WFStore_economy_resource_producers
  apply WFStore_apply_executing_promotions
  apply WFStore_construct_sacrifice
  apply foldl_inv_mem do_construct_resources_request_step WFStore (fun _ => True) _
    (fun _ _ => trivial)
    (fun b a _ hb => WFStore_do_construct_resources_request_step b a hb)
  apply foldl_inv_mem quantum_gate_step WFStore (fun _ => True) _
    (fun _ _ => trivial) (fun b a _ hb => WFStore_quantum_gate_step b a hb)
  exact h

/-- C10: the component store keys components by type per entity, so at
every well-formed state each entity carries at most one Constructing and
at most one Sacrificing component; attaching a new Constructing edge
replaces any existing one; and store well-formedness (distinct ids,
fresh id counter) is preserved by a full tick, so it holds at every
reachable state. -/
theorem c10_single_edge_per_entity (w : World) (hwf : WFStore w) :
    (∀ e, (constructingComponents w e).length ≤ 1 ∧
      (sacrificingComponents w e).length ≤ 1) ∧
    (∀ e c k, w.find e = some c →
      constructingComponents (attachConstructing w e k) e = [k]) ∧
    WFStore (ras_tick w) := by
  refine ⟨?_, ?_, WFStore_ras_tick w hwf⟩
  · intro e
    constructor
    · exact le_trans (List.length_filterMap_le _ _)
        (filter_key_length_le_one w.entities e hwf.1)
    · exact le_trans (List.length_filterMap_le _ _)
        (filter_key_length_le_one w.entities e hwf.1)
  · intro e c k hfe
    unfold World.find at hfe
    simp only [Option.map_eq_some'] at hfe
    obtain ⟨pe, hpe, hpec⟩ := hfe
    have hkey : pe.1 = e := by
      have := List.find?_some hpe
      simpa using this
    unfold constructingComponents attachConstructing World.modifyEntity
    simp only [List.filter_map]
    have hcomp : ((fun p : ℕ × EntityComponents => p.1 == e) ∘
        (fun p : ℕ × EntityComponents => if p.1 = e then (p.1, (fun c =>
          { c with constructing := some k }) p.2) else p))
        = (fun p : ℕ × EntityComponents => p.1 == e) := by
      funext p
      by_cases h : p.1 = e <;> simp [h]
    rw [hcomp, filter_key_eq_of_find w.entities e pe hwf.1 hpe]
    simp [hkey, hpec]

/-- C10 (witness): `gateWorld` is well-formed, its single entity carries
at most one edge of each kind, attachment replaces, and the tick
preserves well-formedness. -/
theorem c10_single_edge_per_entity_witness :
    (∀ e, (constructingComponents gateWorld e).length ≤ 1 ∧
      (sacrificingComponents gateWorld e).length ≤ 1) ∧
    (∀ e c k, gateWorld.find e = some c →
      constructingComponents (attachConstructing gateWorld e k) e = [k]) ∧
    WFStore (ras_tick gateWorld) :=
  c10_single_edge_per_entity gateWorld
    ⟨by unfold KeysNodup; decide, by unfold IdsBounded; decide⟩

/-! Sacrifice-resolution lemmas. -/

theorem World.damageOf_modifyEntity_ne (w : World) (e : ℕ)
    (f : EntityComponents → EntityComponents) (e' : ℕ) (h : e' ≠ e) :
    (w.modifyEntity e f).damageOf e' = w.damageOf e' := by
  unfold World.damageOf
  rw [World.find_modifyEntity_ne _ _ _ _ h]

theorem sacrifice_resolve_step_cmds (acc : World × List SacrificeCommand)
    (info : SacrificeInfo) :
    ∃ cmd, (sacrifice_resolve_step acc info).2 = acc.2 ++ [cmd] := by
  unfold sacrifice_resolve_step
  repeat' split
  all_goals exact ⟨_, rfl⟩

theorem sacrifice_cmds_monotone (L : List SacrificeInfo) :
    ∀ (acc : World × List SacrificeCommand) (c : SacrificeCommand),
      c ∈ acc.2 → c ∈ (L.foldl sacrifice_resolve_step acc).2 := by
  induction L with
  | nil => intro acc c hc; exact hc
  | cons i L ih =>
    intro acc c hc
    rw [List.foldl_cons]
    apply ih
    obtain ⟨cmd, hcmd⟩ := sacrifice_resolve_step_cmds acc i
    rw [hcmd]
    exact List.mem_append_left _ hc

theorem sacrifice_resolve_step_damageOf_ne (acc : World × List SacrificeCommand)
    (info : SacrificeInfo) (t : ℕ) (h : t ≠ info.target_entity) :
    (sacrifice_resolve_step acc info).1.damageOf t = acc.1.damageOf t := by
  unfold sacrifice_resolve_step
  repeat' split
  all_goals first
    | rfl
    | exact World.damageOf_modifyEntity_ne _ _ _ _ h

theorem sacrifice_fold_reaches_despawn (s t : ℕ) (L : List SacrificeInfo) :
    ∀ (acc : World × List SacrificeCommand) (dt : Damage),
      (∃ i ∈ L, i.source_entity = s ∧ i.target_entity = t) →
      (∀ i ∈ L, i.source_entity ≠ s → i.target_entity ≠ t) →
      acc.1.damageOf t = some dt → dt.health < 1 →
      SacrificeCommand.despawnSource s ∈ (L.foldl sacrifice_resolve_step acc).2 := by
  induction L with
  | nil => intro acc dt hex; exact absurd hex (by simp)
  | cons i L ih =>
    intro acc dt hex huniq hd hlt
    rw [List.foldl_cons]
    by_cases hit : i.target_entity = t
    · have his : i.source_entity = s := by
        by_contra hns
        exact huniq i (List.mem_cons_self i L) hns hit
      apply sacrifice_cmds_monotone
      unfold sacrifice_resolve_step
      rw [hit, hd]
      dsimp only
      rw [if_neg (not_le.mpr hlt), his]
      simp
    · have hd' : (sacrifice_resolve_step acc i).1.damageOf t = some dt := by
        rw [sacrifice_resolve_step_damageOf_ne acc i t (fun h => hit h.symm), hd]
      obtain ⟨j, hj, hjs, hjt⟩ := hex
      have hjL : j ∈ L := by
        rcases List.mem_cons.mp hj with h | h
        · exact absurd (h ▸ hjt) hit
        · exact h
      exact ih (sacrifice_resolve_step acc i) dt ⟨j, hjL, hjs, hjt⟩
        (fun i' hi' => huniq i' (List.mem_cons_of_mem i hi')) hd' hlt

theorem apply_sacrifice_command_preserves_none (w : World) (cmd : SacrificeCommand)
    (s : ℕ) (h : w.find s = none) : (apply_sacrifice_command w cmd).find s = none := by
  unfold apply_sacrifice_command
  cases cmd with
  | removeSacrificing e =>
    rw [World.find_modifyEntity]
    by_cases he : s = e
    · subst he
      simp [h]
    · simp [he, h]
  | despawnSource e =>
    rw [World.find_despawn]
    by_cases he : s = e <;> simp [he, h]

theorem find_none_after_commands (cmds : List SacrificeCommand) :
    ∀ (w : World) (s : ℕ),
      (SacrificeCommand.despawnSource s ∈ cmds ∨ w.find s = none) →
      (cmds.foldl apply_sacrifice_command w).find s = none := by
  induction cmds with
  | nil =>
    intro w s h
    exact h.resolve_left (by simp)
  | cons c cmds ih =>
    intro w s h
    rw [List.foldl_cons]
    rcases h with h | h
    · rcases List.mem_cons.mp h with h | h
      · apply ih
        right
        rw [← h]
        unfold apply_sacrifice_command
        rw [World.find_despawn]
        simp
      · exact ih _ s (Or.inl h)
    · exact ih _ s (Or.inr (apply_sacrifice_command_preserves_none w c s h))

/-- C4 (counterexample): source 0 carries a Sacrificing edge to target 1,
which still exists in the store at resolution time but is already
complete (health 1); after `construct_sacrifice` the source still
exists (the resolver only drops the edge), so sacrifice does not destroy
the source for every existing target. -/
theorem c4_sacrifice_source_survives_counterexample :
    ((sacrificeCompleteWorld.find 0).map (fun c => c.sacrificing))
        = some (some { target := 1 }) ∧
    (sacrificeCompleteWorld.find 1).isSome = true ∧
    ((construct_sacrifice sacrificeCompleteWorld).find 0).isSome = true := by
  refine ⟨rfl, rfl, ?_⟩
  have h1 : sacrifice_snapshot sacrificeCompleteWorld
      = [{ source_entity := 0,
           mass_available := 100 * (1/2) * (9/10),
           energy_available := 100 * (1/2) * (9/10),
           target_entity := 1 }] := rfl
  unfold construct_sacrifice
  rw [h1, List.foldl_cons, List.foldl_nil]
  have hstep : sacrifice_resolve_step (sacrificeCompleteWorld, ([] : List SacrificeCommand))
      { source_entity := 0, mass_available := 100 * (1/2) * (9/10),
        energy_available := 100 * (1/2) * (9/10), target_entity := 1 }
      = (sacrificeCompleteWorld, [SacrificeCommand.removeSacrificing 0]) := by
    unfold sacrifice_resolve_step
    rw [show (sacrificeCompleteWorld, ([] : List SacrificeCommand)).1.damageOf 1
        = some { health := 1, health_points := 100, mass_total := 100,
                 energy_total := 100, build_time := 10 } from rfl]
    dsimp only
    rw [if_pos (by norm_num)]
    simp
  rw [hstep]
  show ((apply_sacrifice_command sacrificeCompleteWorld
    (SacrificeCommand.removeSacrificing 0)).find 0).isSome = true
  unfold apply_sacrifice_command
  rw [World.find_modifyEntity_self]
  rfl

/-- C4 (amended): for every eligible Sacrificing source (executing, not
paused, with Damage, Sacrificing and SacrificeCapable components) whose
target still exists in the store with a Damage component whose health is
below 1.0 when the edge is resolved — in particular whenever no other
eligible sacrifice targets the same entity that tick — the source entity
no longer exists in the store after `construct_sacrifice`.  When the
target is already complete the resolver instead drops the edge and the
source survives (see the counterexample). -/
theorem c4_sacrifice_destroys_source_amended (w : World) (s t : ℕ)
    (cs : EntityComponents) (ds dt : Damage) (cap : SacrificeCapable)
    (hfs : w.find s = some cs) (hact : activeUnit cs = true)
    (hds : cs.damage = some ds) (hsac : cs.sacrificing = some { target := t })
    (hcap : cs.sacrificeCapable = some cap)
    (hdt : w.damageOf t = some dt) (hlt : dt.health < 1)
    (huniq : ∀ info ∈ sacrifice_snapshot w,
      info.source_entity ≠ s → info.target_entity ≠ t) :
    (construct_sacrifice w).find s = none := by
  have hmem : (s, cs) ∈ w.entities := by
    unfold World.find at hfs
    simp only [Option.map_eq_some'] at hfs
    obtain ⟨pe, hpe, hpec⟩ := hfs
    have hkey : pe.1 = s := by simpa using List.find?_some hpe
    have hm := List.mem_of_find?_eq_some hpe
    rwa [show pe = (s, cs) from Prod.ext hkey hpec] at hm
  have hsnap : ({
      source_entity := s,
      mass_available := ds.mass_total * ds.health * cap.mass_efficiency,
      energy_available := ds.energy_total * ds.health * cap.energy_efficiency,
      target_entity := t } : SacrificeInfo) ∈ sacrifice_snapshot w := by
    unfold sacrifice_snapshot
    apply List.mem_filterMap.mpr
    refine ⟨(s, cs), hmem, ?_⟩
    simp only [hact, if_true, hds, hsac, hcap]
  unfold construct_sacrifice
  apply find_none_after_commands
  left
  exact sacrifice_fold_reaches_despawn s t (sacrifice_snapshot w) (w, []) dt
    ⟨_, hsnap, rfl, rfl⟩ huniq hdt hlt

/-- C4 (witness for the amended theorem): in `sacrificeWorld` the source
(id 0) sacrifices into the incomplete target (id 1) and is destroyed. -/
theorem c4_sacrifice_destroys_source_amended_witness :
    (construct_sacrifice sacrificeWorld).find 0 = none := by
  apply c4_sacrifice_destroys_source_amended sacrificeWorld 0 1
    ({ EntityComponents.empty with
      executing := true,
      damage := some {
        health := 1/2, health_points := 100, mass_total := 100,
        energy_total := 100, build_time := 10 },
      sacrificing := some { target := 1 },
      sacrificeCapable := some {
        mass_efficiency := 9/10, energy_efficiency := 9/10 } })
    { health := 1/2, health_points := 100, mass_total := 100,
      energy_total := 100, build_time := 10 }
    { health := 1/2, health_points := 100, mass_total := 100,
      energy_total := 100, build_time := 10 }
    { mass_efficiency := 9/10, energy_efficiency := 9/10 }
    rfl rfl rfl rfl rfl rfl (by norm_num)
  intro info hinfo
  have h1 : sacrifice_snapshot sacrificeWorld
      = [{ source_entity := 0,
           mass_available := 100 * (1/2) * (9/10),
           energy_available := 100 * (1/2) * (9/10),
           target_entity := 1 }] := rfl
  rw [h1, List.mem_singleton] at hinfo
  subst hinfo
  intro hns
  exact absurd rfl hns

/-! Scenario A: tick-by-tick evaluation lemmas. -/

theorem scenarioA_tick0 : fa_tick scenarioAWorld = scenarioAState 1 := by
  norm_num [fa_tick, count_tick, fa_update_stage, execute_on_finished_construction_pending,
    apply_executing_promotions, do_construct_resources_request, do_construct_resources_request_step,
    do_construct, do_construct_step, economy_resource_producers, economy_process_resource_requests,
    economy_process_resource_consumption, producerYields, producerAccumulate, consumerOfEntry,
    consumerReset, calc_stall, activeUnit, World.find, World.modifyEntity, World.damageOf,
    World.despawn, World.spawn, scenarioAWorld, scenarioAState, EntityComponents.empty,
    Economy.default, zeroConsumer, List.filterMap_cons, List.find?_cons]

theorem scenarioA_step (k : ℕ) (h1 : 1 ≤ k) (h2 : k ≤ 8) :
    fa_tick (scenarioAState k) = scenarioAState (k+1) := by
  interval_cases k <;>
    norm_num [fa_tick, count_tick, fa_update_stage, execute_on_finished_construction_pending,
      apply_executing_promotions, do_construct_resources_request, do_construct_resources_request_step,
      do_construct, do_construct_step, economy_resource_producers, economy_process_resource_requests,
      economy_process_resource_consumption, producerYields, producerAccumulate, consumerOfEntry,
      consumerReset, calc_stall, activeUnit, World.find, World.modifyEntity, World.damageOf,
      World.despawn, World.spawn, scenarioAState, EntityComponents.empty,
      Economy.default, zeroConsumer, List.filterMap_cons, List.find?_cons]

theorem scenarioA_tick9 : fa_tick (scenarioAState 9) = scenarioAFinal := by
  norm_num [fa_tick, count_tick, fa_update_stage, execute_on_finished_construction_pending,
    apply_executing_promotions, do_construct_resources_request, do_construct_resources_request_step,
    do_construct, do_construct_step, economy_resource_producers, economy_process_resource_requests,
    economy_process_resource_consumption, producerYields, producerAccumulate, consumerOfEntry,
    consumerReset, calc_stall, activeUnit, World.find, World.modifyEntity, World.damageOf,
    World.despawn, World.spawn, scenarioAState, scenarioAFinal, EntityComponents.empty,
    Economy.default, zeroConsumer, List.filterMap_cons, List.find?_cons]

theorem scenarioA_iterate (k : ℕ) (h1 : 1 ≤ k) (h2 : k ≤ 9) :
    fa_tick^[k] scenarioAWorld = scenarioAState k := by
  induction k with
  | zero => omega
  | succ n ih =>
    by_cases hn : n = 0
    · subst hn
      rw [Function.iterate_one]
      exact scenarioA_tick0
    · have hn1 : 1 ≤ n := Nat.one_le_iff_ne_zero.mpr hn
      have hn8 : n ≤ 8 := by omega
      rw [Function.iterate_succ_apply', ih hn1 (by omega), scenarioA_step n hn1 hn8]

theorem scenarioA_ten : fa_tick^[10] scenarioAWorld = scenarioAFinal := by
  rw [show (10:ℕ) = 9+1 from rfl, Function.iterate_succ_apply',
    scenarioA_iterate 9 (by norm_num) (by norm_num), scenarioA_tick9]

/-- C5: in Scenario A (one executing producer yielding 10 mass and 10
energy per tick, one executing builder with `build_amount = 0.1` per
tick and consumption multipliers 1, a target costing 100 mass and 100
energy, zero initial stock) the target's health reads 9/10 after 9 ticks
and exactly 1.0 after the 10th tick, and the per-tick consumed totals
recorded by the ledger sum to exactly 100 mass and 100 energy over those
10 ticks. -/
theorem c5_scenario_a :
    ((fa_tick^[9] scenarioAWorld).damageOf 2).map (fun d => d.health) = some (9/10) ∧
    ((fa_tick^[10] scenarioAWorld).damageOf 2).map (fun d => d.health) = some 1 ∧
    ((List.range 10).map (fun k =>
      (fa_tick^[k+1] scenarioAWorld).economy.mass_consumed)).sum = 100 ∧
    ((List.range 10).map (fun k =>
      (fa_tick^[k+1] scenarioAWorld).economy.energy_consumed)).sum = 100 := by
  have hcons : ∀ k, k < 10 →
      (fa_tick^[k+1] scenarioAWorld).economy.mass_consumed = 10 ∧
      (fa_tick^[k+1] scenarioAWorld).economy.energy_consumed = 10 := by
    intro k hk
    rcases Nat.lt_or_ge k 9 with h | h
    · rw [scenarioA_iterate (k+1) (by omega) (by omega)]
      exact ⟨rfl, rfl⟩
    · have hk9 : k = 9 := by omega
      subst hk9
      rw [show (9:ℕ)+1 = 10 from rfl, scenarioA_ten]
      exact ⟨rfl, rfl⟩
  refine ⟨?_, ?_, ?_, ?_⟩
  · rw [scenarioA_iterate 9 (by norm_num) (by norm_num)]
    norm_num [scenarioAState, World.damageOf, World.find, EntityComponents.empty,
      List.find?_cons]
  · rw [scenarioA_ten]
    norm_num [scenarioAFinal, World.damageOf, World.find, EntityComponents.empty,
      List.find?_cons]
  · have hmap : (List.range 10).map (fun k =>
        (fa_tick^[k+1] scenarioAWorld).economy.mass_consumed)
        = (List.range 10).map (fun _ => (10:ℚ)) :=
      List.map_congr_left (fun k hk => (hcons k (List.mem_range.mp hk)).1)
    rw [hmap]
    norm_num [List.range_succ]
  · have hmap : (List.range 10).map (fun k =>
        (fa_tick^[k+1] scenarioAWorld).economy.energy_consumed)
        = (List.range 10).map (fun _ => (10:ℚ)) :=
      List.map_congr_left (fun k hk => (hcons k (List.mem_range.mp hk)).2)
    rw [hmap]
    norm_num [List.range_succ]

/-! Generic observation helpers for the monotonicity arguments. -/

theorem World.mem_of_find (w : World) (e : ℕ) (c : EntityComponents)
    (h : w.find e = some c) : (e, c) ∈ w.entities := by
  unfold World.find at h
  simp only [Option.map_eq_some'] at h
  obtain ⟨pe, hpe, hpec⟩ := h
  have hkey : pe.1 = e := by simpa using List.find?_some hpe
  have hm := List.mem_of_find?_eq_some hpe
  rwa [show pe = (e, c) from Prod.ext hkey hpec] at hm

theorem AllEnts_find {Q : EntityComponents → Prop} (w : World) (e : ℕ)
    (c : EntityComponents) (hw : AllEnts Q w) (h : w.find e = some c) : Q c :=
  hw (e, c) (World.mem_of_find w e c h)

theorem damageOf_modifyEntity_dpres (w : World) (e : ℕ)
    (f : EntityComponents → EntityComponents)
    (hf : ∀ c, (f c).damage = c.damage) (e' : ℕ) :
    (w.modifyEntity e f).damageOf e' = w.damageOf e' := by
  unfold World.damageOf
  rw [World.find_modifyEntity]
  by_cases he : e' = e
  · rw [if_pos he, he]
    cases w.find e <;> simp [hf]
  · rw [if_neg he]

theorem presence_modifyEntity (w : World) (e : ℕ)
    (f : EntityComponents → EntityComponents) (e' : ℕ)
    (h : ∃ c, w.find e' = some c) : ∃ c, (w.modifyEntity e f).find e' = some c := by
  obtain ⟨c, hc⟩ := h
  rw [World.find_modifyEntity]
  by_cases he : e' = e
  · subst he
    rw [if_pos rfl, hc]
    exact ⟨f c, rfl⟩
  · rw [if_neg he]
    exact ⟨c, hc⟩

theorem World.damageOf_some_of_find (w : World) (e : ℕ) (c : EntityComponents)
    (h : w.find e = some c) : w.damageOf e = c.damage := by
  unfold World.damageOf
  rw [h]
  rfl

/-! Health evolution through `do_construct`. -/

/-- The invariant carried through the settlement fold: component
well-formedness, a fixed economy, and health domination over a base
world. -/
def SettleInv (w0 : World) (w : World) : Prop :=
  HealthBounds w ∧ PositiveTotals w ∧ EdgeNonneg w ∧ w.economy = w0.economy ∧
    (∀ e d, w0.damageOf e = some d →
      ∃ d', w.damageOf e = some d' ∧ d.health ≤ d'.health ∧
        d'.mass_total = d.mass_total ∧ d'.energy_total = d.energy_total)

theorem SettleInv_do_construct_step (w0 : World)
    (hms : 0 ≤ w0.economy.mass_stall) (hes : 0 ≤ w0.economy.energy_stall)
    (w : World) (a : ℕ) (h : SettleInv w0 w) : SettleInv w0 (do_construct_step w a) := by
  obtain ⟨hHB, hPT, hEN, hEco, hMono⟩ := h
  unfold do_construct_step
  cases hfa : w.find a with
  | none => exact ⟨hHB, hPT, hEN, hEco, hMono⟩
  | some c =>
    dsimp only
    by_cases hact : activeUnit c = true
    swap
    · simp only [hact, if_false]
      exact ⟨hHB, hPT, hEN, hEco, hMono⟩
    cases hk : c.constructing with
    | none => simp only [hact, if_true, hk]; exact ⟨hHB, hPT, hEN, hEco, hMono⟩
    | some k =>
    cases hr : c.consumer with
    | none => simp only [hact, if_true, hk, hr]; exact ⟨hHB, hPT, hEN, hEco, hMono⟩
    | some r =>
    simp only [hact, if_true, hk, hr]
    cases htd : w.damageOf k.target with
    | none => exact ⟨hHB, hPT, hEN, hEco, hMono⟩
    | some td =>
    dsimp only
    obtain ⟨ct, hct, hctd⟩ := (World.damageOf_eq_some w k.target td).mp htd
    have hPTt := hPT (k.target, ct) (World.mem_of_find w _ _ hct) td hctd
    have hHBt := hHB (k.target, ct) (World.mem_of_find w _ _ hct) td hctd
    have hENa := hEN (a, c) (World.mem_of_find w _ _ hfa) k hk
    have hmp : 0 ≤ min
        (k.mass_requested * w.economy.mass_stall /
          k.mass_consumption_multiplier / td.mass_total)
        (k.energy_requested * w.economy.energy_stall /
          k.energy_consumption_multiplier / td.energy_total) := by
      apply le_min
      · apply div_nonneg _ hPTt.1.le
        apply div_nonneg _ hENa.1.le
        exact mul_nonneg hENa.2.2.1 (hEco ▸ hms)
      · apply div_nonneg _ hPTt.2.1.le
        apply div_nonneg _ hENa.2.1.le
        exact mul_nonneg hENa.2.2.2 (hEco ▸ hes)
    by_cases h1 : td.health ≥ 1
    · rw [if_pos h1]
      refine ⟨?_, ?_, ?_, hEco, ?_⟩
      · apply AllEnts_modifyEntity _ _ _ hHB
        intro c' hc' d hd
        exact hc' d hd
      · apply AllEnts_modifyEntity _ _ _ hPT
        intro c' hc' d hd
        exact hc' d hd
      · apply AllEnts_modifyEntity _ _ _ hEN
        intro c' hc' k' hk'
        cases hk'
      · intro e d hd
        obtain ⟨d', hd', hh, hmt, het⟩ := hMono e d hd
        refine ⟨d', ?_, hh, hmt, het⟩
        by_cases hea : e = a
        · subst hea
          unfold World.damageOf
          rw [World.find_modifyEntity_self, hfa]
          show c.damage = some d'
          rw [← World.damageOf_some_of_find w e c hfa]
          exact hd'
        · exact (World.damageOf_modifyEntity_ne _ _ _ _ hea).trans hd'
    · rw [if_neg h1]
      by_cases h2 : td.health + min
          (k.mass_requested * w.economy.mass_stall /
            k.mass_consumption_multiplier / td.mass_total)
          (k.energy_requested * w.economy.energy_stall /
            k.energy_consumption_multiplier / td.energy_total) ≥ 1
      · rw [if_pos h2]
        refine ⟨?_, ?_, ?_, hEco, ?_⟩
        · apply AllEnts_modifyEntity
          swap
          · intro c' _ d hd
            cases hd
            exact ⟨zero_le_one, le_refl 1⟩
          apply AllEnts_modifyEntity _ _ _ hHB
          intro c' hc' d hd
          exact hc' d hd
        · apply AllEnts_modifyEntity
          swap
          · intro c' _ d hd
            cases hd
            exact hPTt
          apply AllEnts_modifyEntity _ _ _ hPT
          intro c' hc' d hd
          exact hc' d hd
        · apply AllEnts_modifyEntity
          swap
          · intro c' hc' k' hk'
            exact hc' k' hk'
          apply AllEnts_modifyEntity _ _ _ hEN
          intro c' hc' k' hk'
          cases hk'
        · intro e d hd
          obtain ⟨d', hd', hh, hmt, het⟩ := hMono e d hd
          by_cases het' : e = k.target
          · subst het'
            have hdtd : d' = td := by
              rw [hd'] at htd
              exact (Option.some.injEq _ _).mp htd
            subst hdtd
            refine ⟨{ d' with health := 1 }, ?_, ?_, hmt, het⟩
            · obtain ⟨x, hx⟩ := presence_modifyEntity w a _ k.target ⟨ct, hct⟩
              unfold World.damageOf
              rw [World.find_modifyEntity_self, hx]
              rfl
            · exact le_trans hh (le_of_lt (lt_of_not_le h1))
          · refine ⟨d', ?_, hh, hmt, het⟩
            rw [World.damageOf_modifyEntity_ne _ _ _ _ het']
            by_cases hea : e = a
            · subst hea
              unfold World.damageOf
              rw [World.find_modifyEntity_self, hfa]
              show c.damage = some d'
              rw [← World.damageOf_some_of_find w e c hfa]
              exact hd'
            · exact (World.damageOf_modifyEntity_ne _ _ _ _ hea).trans hd'
      · rw [if_neg h2]
        refine ⟨?_, ?_, ?_, hEco, ?_⟩
        · apply AllEnts_modifyEntity
          swap
          · intro c' _ d hd
            cases hd
            constructor
            · exact add_nonneg hHBt.1 hmp
            · exact le_of_lt (lt_of_not_le h2)
          apply AllEnts_modifyEntity _ _ _ hHB
          intro c' hc' d hd
          exact hc' d hd
        · apply AllEnts_modifyEntity
          swap
          · intro c' _ d hd
            cases hd
            exact hPTt
          apply AllEnts_modifyEntity _ _ _ hPT
          intro c' hc' d hd
          exact hc' d hd
        · apply AllEnts_modifyEntity
          swap
          · intro c' hc' k' hk'
            exact hc' k' hk'
          apply AllEnts_modifyEntity _ _ _ hEN
          intro c' hc' k' hk'
          exact hc' k' hk'
        · intro e d hd
          obtain ⟨d', hd', hh, hmt, het⟩ := hMono e d hd
          by_cases het' : e = k.target
          · subst het'
            have hdtd : d' = td := by
              rw [hd'] at htd
              exact (Option.some.injEq _ _).mp htd
            subst hdtd
            set mp := min
              (k.mass_requested * w.economy.mass_stall /
                k.mass_consumption_multiplier / d'.mass_total)
              (k.energy_requested * w.economy.energy_stall /
                k.energy_consumption_multiplier / d'.energy_total) with hmpe
            refine ⟨{ d' with health := d'.health + mp }, ?_, ?_, hmt, het⟩
            · obtain ⟨x, hx⟩ := presence_modifyEntity w a _ k.target ⟨ct, hct⟩
              unfold World.damageOf
              rw [World.find_modifyEntity_self, hx]
              rfl
            · exact le_trans hh (le_add_of_nonneg_right hmp)
          · refine ⟨d', ?_, hh, hmt, het⟩
            rw [World.damageOf_modifyEntity_ne _ _ _ _ het']
            by_cases hea : e = a
            · subst hea
              unfold World.damageOf
              rw [World.find_modifyEntity_self, hfa]
              show c.damage = some d'
              rw [← World.damageOf_some_of_find w e c hfa]
              exact hd'
            · exact (World.damageOf_modifyEntity_ne _ _ _ _ hea).trans hd'

/-! Economy frame lemmas: which stages leave the ledger untouched. -/

theorem quantum_gate_step_economy (w : World) (e : ℕ) :
    (quantum_gate_step w e).economy = w.economy := by
  unfold quantum_gate_step
  repeat' split
  all_goals rfl

theorem quantum_gate_spawn_construct_economy (w : World) :
    (quantum_gate_spawn_construct w).economy = w.economy := by
  unfold quantum_gate_spawn_construct
  exact foldl_inv_mem quantum_gate_step (fun w' => w'.economy = w.economy)
    (fun _ => True) _ (fun _ _ => trivial)
    (fun b a _ hb => (quantum_gate_step_economy b a).trans hb) w rfl

theorem do_construct_resources_request_step_economy (w : World) (e : ℕ) :
    (do_construct_resources_request_step w e).economy = w.economy := by
  unfold do_construct_resources_request_step
  repeat' split
  all_goals rfl

theorem do_construct_resources_request_economy (w : World) :
    (do_construct_resources_request w).economy = w.economy := by
  unfold do_construct_resources_request
  exact foldl_inv_mem do_construct_resources_request_step
    (fun w' => w'.economy = w.economy) (fun _ => True) _ (fun _ _ => trivial)
    (fun b a _ hb => (do_construct_resources_request_step_economy b a).trans hb) w rfl

theorem do_construct_step_economy (w : World) (e : ℕ) :
    (do_construct_step w e).economy = w.economy := by
  unfold do_construct_step
  repeat' split
  all_goals try (dsimp only; repeat' split)
  all_goals rfl

theorem do_construct_economy (w : World) :
    (do_construct w).economy = w.economy := by
  unfold do_construct
  exact foldl_inv_mem do_construct_step (fun w' => w'.economy = w.economy)
    (fun _ => True) _ (fun _ _ => trivial)
    (fun b a _ hb => (do_construct_step_economy b a).trans hb) w rfl

theorem sacrifice_resolve_step_economy (acc : World × List SacrificeCommand)
    (info : SacrificeInfo) :
    (sacrifice_resolve_step acc info).1.economy = acc.1.economy := by
  unfold sacrifice_resolve_step
  repeat' split
  all_goals rfl

theorem apply_sacrifice_command_economy (w : World) (cmd : SacrificeCommand) :
    (apply_sacrifice_command w cmd).economy = w.economy := by
  unfold apply_sacrifice_command
  cases cmd <;> rfl

theorem construct_sacrifice_economy (w : World) :
    (construct_sacrifice w).economy = w.economy := by
  unfold construct_sacrifice
  have h1 : ((sacrifice_snapshot w).foldl sacrifice_resolve_step (w, [])).1.economy
      = w.economy :=
    foldl_inv_mem sacrifice_resolve_step (fun acc => acc.1.economy = w.economy)
      (fun _ => True) _ (fun _ _ => trivial)
      (fun b a _ hb => (sacrifice_resolve_step_economy b a).trans hb) (w, []) rfl
  exact foldl_inv_mem apply_sacrifice_command (fun w' => w'.economy = w.economy)
    (fun _ => True) _ (fun _ _ => trivial)
    (fun b a _ hb => (apply_sacrifice_command_economy b a).trans hb) _ h1

theorem apply_executing_promotions_economy (w : World) (ids : List ℕ) :
    (apply_executing_promotions w ids).economy = w.economy := by
  unfold apply_executing_promotions
  exact foldl_inv_mem _ (fun w' => w'.economy = w.economy)
    (fun _ => True) ids (fun _ _ => trivial)
    (fun b a _ hb => (World.modifyEntity_economy b a _).trans hb) w rfl

/-! Preservation of `TickWF` by the stages preceding settlement. -/

theorem TickWF_rasSacuBundle_checks :
    (∀ d, rasSacuBundle.damage = some d →
      (0 ≤ d.health ∧ d.health ≤ 1) ∧
      (0 < d.mass_total ∧ 0 < d.energy_total ∧ 0 < d.build_time)) ∧
    (∀ r, rasSacuBundle.consumer = some r →
      0 ≤ r.mass_request ∧ 0 ≤ r.energy_request) ∧
    (∀ pr, rasSacuBundle.producer = some pr →
      0 ≤ pr.mass_yield ∧ 0 ≤ pr.energy_yield) ∧
    (∀ g, rasSacuBundle.engineering = some g → 0 ≤ g.build_rate) ∧
    (∀ cap, rasSacuBundle.sacrificeCapable = some cap →
      0 ≤ cap.mass_efficiency ∧ 0 ≤ cap.energy_efficiency) := by
  refine ⟨?_, ?_, ?_, ?_, ?_⟩ <;> intro z hz <;>
    (try cases hz) <;>
    norm_num [RAS_SACU_DAMAGE, RAS_SACU_RESOURCE_PRODUCTION, RAS_SACU_ENGINEERING,
      RAS_SACU_SACRIFICE, TICK_RATE]

theorem TickWF_quantum_gate_step (w : World) (a : ℕ) (h : TickWF w) :
    TickWF (quantum_gate_step w a) := by
  obtain ⟨h1, h2, h3, h4, h5, h6, h7⟩ := h
  have hbundle := TickWF_rasSacuBundle_checks
  unfold quantum_gate_step
  cases hfa : w.find a with
  | none => exact ⟨h1, h2, h3, h4, h5, h6, h7⟩
  | some c =>
    dsimp only
    by_cases hact : (activeUnit c && c.constructing.isNone) = true
    swap
    · simp only [hact, if_false]
      exact ⟨h1, h2, h3, h4, h5, h6, h7⟩
    cases hq : c.quantumGate with
    | none => simp only [hact, if_true, hq]; exact ⟨h1, h2, h3, h4, h5, h6, h7⟩
    | some gate =>
    simp only [hact, if_true, hq]
    by_cases hpos : gate.rolloff_current > 0
    · rw [if_pos hpos]
      exact ⟨AllEnts_modifyEntity _ _ _ h1 (fun c' hc' => hc'),
        AllEnts_modifyEntity _ _ _ h2 (fun c' hc' => hc'),
        AllEnts_modifyEntity _ _ _ h3 (fun c' hc' => hc'),
        AllEnts_modifyEntity _ _ _ h4 (fun c' hc' => hc'),
        AllEnts_modifyEntity _ _ _ h5 (fun c' hc' => hc'),
        AllEnts_modifyEntity _ _ _ h6 (fun c' hc' => hc'),
        AllEnts_modifyEntity _ _ _ h7 (fun c' hc' => hc')⟩
    · rw [if_neg hpos]
      by_cases hzero : gate.rolloff_current = 0
      · rw [if_pos hzero]
        refine ⟨?_, ?_, ?_, ?_, ?_, ?_, ?_⟩
        · apply AllEnts_modifyEntity _ _ _
            (AllEnts_spawn w rasSacuBundle h1 (fun d hd => (hbundle.1 d hd).1))
          exact fun c' hc' => hc'
        · apply AllEnts_modifyEntity _ _ _
            (AllEnts_spawn w rasSacuBundle h2 (fun d hd => (hbundle.1 d hd).2))
          exact fun c' hc' => hc'
        · apply AllEnts_modifyEntity _ _ _
            (AllEnts_spawn w rasSacuBundle h3 (fun k hk => by cases hk))
          intro c' hc' k' hk'
          cases hk'
          norm_num
        · apply AllEnts_modifyEntity _ _ _
            (AllEnts_spawn w rasSacuBundle h4 hbundle.2.1)
          exact fun c' hc' => hc'
        · apply AllEnts_modifyEntity _ _ _
            (AllEnts_spawn w rasSacuBundle h5 hbundle.2.2.1)
          exact fun c' hc' => hc'
        · apply AllEnts_modifyEntity _ _ _
            (AllEnts_spawn w rasSacuBundle h6 hbundle.2.2.2.1)
          exact fun c' hc' => hc'
        · apply AllEnts_modifyEntity _ _ _
            (AllEnts_spawn w rasSacuBundle h7 hbundle.2.2.2.2)
          exact fun c' hc' => hc'
      · rw [if_neg hzero]
        exact ⟨AllEnts_modifyEntity _ _ _ h1 (fun c' hc' => hc'),
          AllEnts_modifyEntity _ _ _ h2 (fun c' hc' => hc'),
          AllEnts_modifyEntity _ _ _ h3 (fun c' hc' => hc'),
          AllEnts_modifyEntity _ _ _ h4 (fun c' hc' => hc'),
          AllEnts_modifyEntity _ _ _ h5 (fun c' hc' => hc'),
          AllEnts_modifyEntity _ _ _ h6 (fun c' hc' => hc'),
          AllEnts_modifyEntity _ _ _ h7 (fun c' hc' => hc')⟩

theorem TickWF_quantum_gate_spawn_construct (w : World) (h : TickWF w) :
    TickWF (quantum_gate_spawn_construct w) :=
  foldl_inv_mem quantum_gate_step TickWF (fun _ => True) _ (fun _ _ => trivial)
    (fun b a _ hb => TickWF_quantum_gate_step b a hb) w h

theorem TickWF_do_construct_resources_request_step (w : World) (a : ℕ)
    (h : TickWF w) : TickWF (do_construct_resources_request_step w a) := by
  obtain ⟨h1, h2, h3, h4, h5, h6, h7⟩ := h
  unfold do_construct_resources_request_step
  cases hfa : w.find a with
  | none => exact ⟨h1, h2, h3, h4, h5, h6, h7⟩
  | some c =>
    dsimp only
    by_cases hact : activeUnit c = true
    swap
    · simp only [hact, if_false]
      exact ⟨h1, h2, h3, h4, h5, h6, h7⟩
    cases hk : c.constructing with
    | none => simp only [hact, if_true, hk]; exact ⟨h1, h2, h3, h4, h5, h6, h7⟩
    | some k =>
    cases hg : c.engineering with
    | none => simp only [hact, if_true, hk, hg]; exact ⟨h1, h2, h3, h4, h5, h6, h7⟩
    | some g =>
    cases hr : c.consumer with
    | none => simp only [hact, if_true, hk, hg, hr]; exact ⟨h1, h2, h3, h4, h5, h6, h7⟩
    | some r =>
    simp only [hact, if_true, hk, hg, hr]
    cases htd : w.damageOf k.target with
    | none =>
      dsimp only
      exact ⟨AllEnts_modifyEntity _ _ _ h1 (fun c' hc' => hc'),
        AllEnts_modifyEntity _ _ _ h2 (fun c' hc' => hc'),
        AllEnts_modifyEntity _ _ _ h3 (fun c' hc' k' hk' => by cases hk'),
        AllEnts_modifyEntity _ _ _ h4 (fun c' hc' => hc'),
        AllEnts_modifyEntity _ _ _ h5 (fun c' hc' => hc'),
        AllEnts_modifyEntity _ _ _ h6 (fun c' hc' => hc'),
        AllEnts_modifyEntity _ _ _ h7 (fun c' hc' => hc')⟩
    | some td =>
    dsimp only
    obtain ⟨ct, hct, hctd⟩ := (World.damageOf_eq_some w k.target td).mp htd
    have hPTt := h2 (k.target, ct) (World.mem_of_find w _ _ hct) td hctd
    have hENa := h3 (a, c) (World.mem_of_find w _ _ hfa) k hk
    have hBRa := h6 (a, c) (World.mem_of_find w _ _ hfa) g hg
    have hCRa := h4 (a, c) (World.mem_of_find w _ _ hfa) r hr
    have hba : 0 ≤ g.build_rate / td.build_time := div_nonneg hBRa hPTt.2.2.le
    have hmrq : 0 ≤ g.build_rate / td.build_time * td.mass_total *
        k.mass_consumption_multiplier :=
      mul_nonneg (mul_nonneg hba hPTt.1.le) hENa.1.le
    have herq : 0 ≤ g.build_rate / td.build_time * td.energy_total *
        k.energy_consumption_multiplier :=
      mul_nonneg (mul_nonneg hba hPTt.2.1.le) hENa.2.1.le
    refine ⟨?_, ?_, ?_, ?_, ?_, ?_, ?_⟩
    · exact AllEnts_modifyEntity _ _ _ h1 (fun c' hc' => hc')
    · exact AllEnts_modifyEntity _ _ _ h2 (fun c' hc' => hc')
    · apply AllEnts_modifyEntity _ _ _ h3
      intro c' hc' k' hk'
      cases hk'
      exact ⟨hENa.1, hENa.2.1, hmrq, herq⟩
    · apply AllEnts_modifyEntity _ _ _ h4
      intro c' hc' r' hr'
      cases hr'
      exact ⟨add_nonneg hCRa.1 hmrq, add_nonneg hCRa.2 herq⟩
    · exact AllEnts_modifyEntity _ _ _ h5 (fun c' hc' => hc')
    · exact AllEnts_modifyEntity _ _ _ h6 (fun c' hc' => hc')
    · exact AllEnts_modifyEntity _ _ _ h7 (fun c' hc' => hc')

theorem TickWF_do_construct_resources_request (w : World) (h : TickWF w) :
    TickWF (do_construct_resources_request w) :=
  foldl_inv_mem do_construct_resources_request_step TickWF (fun _ => True) _
    (fun _ _ => trivial)
    (fun b a _ hb => TickWF_do_construct_resources_request_step b a hb) w h

theorem TickWF_apply_executing_promotions (w : World) (ids : List ℕ)
    (h : TickWF w) : TickWF (apply_executing_promotions w ids) := by
  apply foldl_inv_mem _ TickWF (fun _ => True) ids (fun _ _ => trivial) _ w h
  intro b a _ hb
  obtain ⟨h1, h2, h3, h4, h5, h6, h7⟩ := hb
  exact ⟨AllEnts_modifyEntity _ _ _ h1 (fun c' hc' => hc'),
    AllEnts_modifyEntity _ _ _ h2 (fun c' hc' => hc'),
    AllEnts_modifyEntity _ _ _ h3 (fun c' hc' => hc'),
    AllEnts_modifyEntity _ _ _ h4 (fun c' hc' => hc'),
    AllEnts_modifyEntity _ _ _ h5 (fun c' hc' => hc'),
    AllEnts_modifyEntity _ _ _ h6 (fun c' hc' => hc'),
    AllEnts_modifyEntity _ _ _ h7 (fun c' hc' => hc')⟩

theorem TickWF_economy_resource_producers (w : World) (h : TickWF w) :
    TickWF (economy_resource_producers w) := by
  obtain ⟨h1, h2, h3, h4, h5, h6, h7⟩ := h
  have hpa : ∀ (Q : EntityComponents → Prop), AllEnts Q w →
      (∀ c, Q c → Q (producerAccumulate c)) →
      AllEnts Q (economy_resource_producers w) := by
    intro Q hQ hstep p hp
    obtain ⟨p₀, hp₀, hpe⟩ := List.mem_map.mp hp
    subst hpe
    exact hstep p₀.2 (hQ p₀ hp₀)
  have hyield : ∀ c, (∀ pr, c.producer = some pr →
      0 ≤ pr.mass_yield ∧ 0 ≤ pr.energy_yield) →
      ∀ pr, (producerAccumulate c).producer = some pr →
        0 ≤ pr.mass_yield ∧ 0 ≤ pr.energy_yield := by
    intro c hc pr hpr
    unfold producerAccumulate at hpr
    by_cases hx : c.executing
    · rw [if_pos hx] at hpr
      cases hp0 : c.producer with
      | none => rw [hp0] at hpr; exact hc pr (hp0 ▸ hpr)
      | some pr0 =>
        rw [hp0] at hpr
        dsimp only at hpr
        cases hpr
        exact hc pr0 hp0
    · rw [if_neg hx] at hpr
      exact hc pr hpr
  refine ⟨?_, ?_, ?_, ?_, ?_, ?_, ?_⟩
  · exact hpa _ h1 (fun c hc => by
      intro d hd
      rw [producerAccumulate_damage] at hd
      exact hc d hd)
  · exact hpa _ h2 (fun c hc => by
      intro d hd
      rw [producerAccumulate_damage] at hd
      exact hc d hd)
  · exact hpa _ h3 (fun c hc => by
      intro k hk
      rw [producerAccumulate_constructing] at hk
      exact hc k hk)
  · exact hpa _ h4 (fun c hc => by
      intro r hr
      rw [producerAccumulate_consumer] at hr
      exact hc r hr)
  · exact hpa _ h5 hyield
  · exact hpa _ h6 (fun c hc => by
      intro g hg
      have : (producerAccumulate c).engineering = c.engineering := by
        unfold producerAccumulate
        by_cases hx : c.executing <;> cases hp0 : c.producer <;> simp [hx, hp0]
      rw [this] at hg
      exact hc g hg)
  · exact hpa _ h7 (fun c hc => by
      intro cap hcap
      have : (producerAccumulate c).sacrificeCapable = c.sacrificeCapable := by
        unfold producerAccumulate
        by_cases hx : c.executing <;> cases hp0 : c.producer <;> simp [hx, hp0]
      rw [this] at hcap
      exact hc cap hcap)

/-! Health evolution through the sacrifice resolver. -/

theorem sacrifice_snapshot_nonneg (w : World) (h : TickWF w) :
    ∀ info ∈ sacrifice_snapshot w,
      0 ≤ info.mass_available ∧ 0 ≤ info.energy_available := by
  intro info hinfo
  obtain ⟨p, hp, hpe⟩ := List.mem_filterMap.mp hinfo
  by_cases hact : activeUnit p.2 = true
  swap
  · rw [if_neg hact] at hpe
    cases hpe
  rw [if_pos hact] at hpe
  cases hd : p.2.damage with
  | none => rw [hd] at hpe; cases hpe
  | some d =>
  cases hs : p.2.sacrificing with
  | none => rw [hd, hs] at hpe; cases hpe
  | some sac =>
  cases hcap : p.2.sacrificeCapable with
  | none => rw [hd, hs, hcap] at hpe; cases hpe
  | some cap =>
  rw [hd, hs, hcap] at hpe
  dsimp only at hpe
  cases hpe
  have hHB := h.1 p hp d hd
  have hPT := h.2.1 p hp d hd
  have hEff := h.2.2.2.2.2.2 p hp cap hcap
  exact ⟨mul_nonneg (mul_nonneg hPT.1.le hHB.1) hEff.1,
    mul_nonneg (mul_nonneg hPT.2.1.le hHB.1) hEff.2⟩

/-- The health-domination relation over a base world; `none` is absent
here because the resolve loop defers all despawns. -/
def SacMono (w0 w : World) : Prop :=
  ∀ e d, w0.damageOf e = some d →
    ∃ d', w.damageOf e = some d' ∧ d.health ≤ d'.health ∧
      d'.mass_total = d.mass_total ∧ d'.energy_total = d.energy_total

theorem sacrifice_resolve_step_evolve (w0 : World)
    (acc : World × List SacrificeCommand) (info : SacrificeInfo)
    (hq : 0 ≤ info.mass_available ∧ 0 ≤ info.energy_available)
    (h : TickWF acc.1 ∧ SacMono w0 acc.1) :
    TickWF (sacrifice_resolve_step acc info).1 ∧
      SacMono w0 (sacrifice_resolve_step acc info).1 := by
  obtain ⟨hW, hM⟩ := h
  unfold sacrifice_resolve_step
  cases htd : acc.1.damageOf info.target_entity with
  | none => exact ⟨hW, hM⟩
  | some td =>
  dsimp only
  by_cases h1 : td.health ≥ 1
  · rw [if_pos h1]
    exact ⟨hW, hM⟩
  · rw [if_neg h1]
    obtain ⟨ct, hct, hctd⟩ := (World.damageOf_eq_some _ _ td).mp htd
    have hHBt := hW.1 (info.target_entity, ct) (World.mem_of_find _ _ _ hct) td hctd
    have hPTt := hW.2.1 (info.target_entity, ct) (World.mem_of_find _ _ _ hct) td hctd
    have hcontrib : 0 ≤ min (info.mass_available / td.mass_total)
        (info.energy_available / td.energy_total) :=
      le_min (div_nonneg hq.1 hPTt.1.le) (div_nonneg hq.2 hPTt.2.1.le)
    constructor
    · obtain ⟨h1', h2', h3', h4', h5', h6', h7'⟩ := hW
      refine ⟨?_, ?_, ?_, ?_, ?_, ?_, ?_⟩
      · apply AllEnts_modifyEntity _ _ _ h1'
        intro c' hc' d hd
        cases hd
        exact ⟨le_min (add_nonneg hHBt.1 hcontrib) zero_le_one, min_le_right _ _⟩
      · apply AllEnts_modifyEntity _ _ _ h2'
        intro c' hc' d hd
        cases hd
        exact hPTt
      · exact AllEnts_modifyEntity _ _ _ h3' (fun c' hc' => hc')
      · exact AllEnts_modifyEntity _ _ _ h4' (fun c' hc' => hc')
      · exact AllEnts_modifyEntity _ _ _ h5' (fun c' hc' => hc')
      · exact AllEnts_modifyEntity _ _ _ h6' (fun c' hc' => hc')
      · exact AllEnts_modifyEntity _ _ _ h7' (fun c' hc' => hc')
    · intro e d hd
      obtain ⟨d', hd', hh, hmt, het⟩ := hM e d hd
      by_cases he : e = info.target_entity
      · subst he
        have hdtd : d' = td := by
          rw [hd'] at htd
          exact (Option.some.injEq _ _).mp htd
        subst hdtd
        refine ⟨{ d' with health := min (d'.health +
          min (info.mass_available / d'.mass_total)
            (info.energy_available / d'.energy_total)) 1 }, ?_, ?_, hmt, het⟩
        · unfold World.damageOf
          rw [World.find_modifyEntity_self, hct]
          rfl
        · exact le_trans hh (le_min (le_add_of_nonneg_right hcontrib) hHBt.2)
      · refine ⟨d', ?_, hh, hmt, het⟩
        exact (World.damageOf_modifyEntity_ne _ _ _ _ he).trans hd'

theorem World.damageOf_despawn (w : World) (e' e : ℕ) :
    (w.despawn e').damageOf e = if e = e' then none else w.damageOf e := by
  unfold World.damageOf
  rw [World.find_despawn]
  by_cases he : e = e' <;> simp [he]

theorem construct_sacrifice_evolve (w : World) (h : TickWF w) :
    TickWF (construct_sacrifice w) ∧
    ∀ e d, w.damageOf e = some d →
      (construct_sacrifice w).find e = none ∨
      ∃ d', (construct_sacrifice w).damageOf e = some d' ∧ d.health ≤ d'.health ∧
        d'.mass_total = d.mass_total ∧ d'.energy_total = d.energy_total := by
  unfold construct_sacrifice
  have hres := foldl_inv_mem sacrifice_resolve_step
    (fun acc => TickWF acc.1 ∧ SacMono w acc.1)
    (fun info => 0 ≤ info.mass_available ∧ 0 ≤ info.energy_available)
    (sacrifice_snapshot w) (sacrifice_snapshot_nonneg w h)
    (fun b a hq hb => sacrifice_resolve_step_evolve w b a hq hb)
    (w, []) ⟨h, fun e d hd => ⟨d, hd, le_refl _, rfl, rfl⟩⟩
  have hcmd := foldl_inv_mem apply_sacrifice_command
    (fun w' => TickWF w' ∧ ∀ e d, w.damageOf e = some d →
      w'.find e = none ∨
      ∃ d', w'.damageOf e = some d' ∧ d.health ≤ d'.health ∧
        d'.mass_total = d.mass_total ∧ d'.energy_total = d.energy_total)
    (fun _ => True)
    ((sacrifice_snapshot w).foldl sacrifice_resolve_step (w, [])).2
    (fun _ _ => trivial)
    (fun b cmd _ hb => by
      obtain ⟨hW, hM⟩ := hb
      cases cmd with
      | removeSacrificing e' =>
        constructor
        · obtain ⟨h1, h2, h3, h4, h5, h6, h7⟩ := hW
          exact ⟨AllEnts_modifyEntity _ _ _ h1 (fun c' hc' => hc'),
            AllEnts_modifyEntity _ _ _ h2 (fun c' hc' => hc'),
            AllEnts_modifyEntity _ _ _ h3 (fun c' hc' => hc'),
            AllEnts_modifyEntity _ _ _ h4 (fun c' hc' => hc'),
            AllEnts_modifyEntity _ _ _ h5 (fun c' hc' => hc'),
            AllEnts_modifyEntity _ _ _ h6 (fun c' hc' => hc'),
            AllEnts_modifyEntity _ _ _ h7 (fun c' hc' => hc')⟩
        · intro e d hd
          rcases hM e d hd with hnone | ⟨d', hd', hh, hmt, het⟩
          · left
            show (b.modifyEntity e' _).find e = none
            rw [World.find_modifyEntity]
            by_cases he : e = e'
            · rw [if_pos he, ← he, hnone]
              rfl
            · rw [if_neg he]
              exact hnone
          · right
            refine ⟨d', ?_, hh, hmt, het⟩
            refine Eq.trans ?_ hd'
            apply damageOf_modifyEntity_dpres
            intro c
            rfl
      | despawnSource e' =>
        constructor
        · obtain ⟨h1, h2, h3, h4, h5, h6, h7⟩ := hW
          exact ⟨AllEnts_despawn _ _ h1, AllEnts_despawn _ _ h2,
            AllEnts_despawn _ _ h3, AllEnts_despawn _ _ h4,
            AllEnts_despawn _ _ h5, AllEnts_despawn _ _ h6,
            AllEnts_despawn _ _ h7⟩
        · intro e d hd
          by_cases he : e = e'
          · left
            show (b.despawn e').find e = none
            rw [World.find_despawn, if_pos he]
          · rcases hM e d hd with hnone | ⟨d', hd', hh, hmt, het⟩
            · left
              show (b.despawn e').find e = none
              rw [World.find_despawn, if_neg he]
              exact hnone
            · right
              refine ⟨d', ?_, hh, hmt, het⟩
              show (b.despawn e').damageOf e = some d'
              rw [World.damageOf_despawn, if_neg he]
              exact hd')
    ((sacrifice_snapshot w).foldl sacrifice_resolve_step (w, [])).1
    ⟨hres.1, fun e d hd => Or.inr (hres.2 e d hd)⟩
  exact hcmd

/-! Pointwise damage frames for the remaining stages. -/

theorem World.find_none_modifyEntity (w : World) (a : ℕ)
    (f : EntityComponents → EntityComponents) (e : ℕ) (h : w.find e = none) :
    (w.modifyEntity a f).find e = none := by
  rw [World.find_modifyEntity]
  by_cases he : e = a
  · rw [if_pos he, ← he, h]
    rfl
  · rw [if_neg he]
    exact h

theorem do_construct_resources_request_step_damageOf (w : World) (a e : ℕ) :
    (do_construct_resources_request_step w a).damageOf e = w.damageOf e := by
  unfold do_construct_resources_request_step
  repeat' split
  all_goals first
    | rfl
    | (apply damageOf_modifyEntity_dpres; intro c; rfl)

theorem do_construct_resources_request_damageOf (w : World) (e : ℕ) :
    (do_construct_resources_request w).damageOf e = w.damageOf e := by
  unfold do_construct_resources_request
  exact foldl_inv_mem do_construct_resources_request_step
    (fun w' => w'.damageOf e = w.damageOf e) (fun _ => True) _
    (fun _ _ => trivial)
    (fun b a _ hb => (do_construct_resources_request_step_damageOf b a e).trans hb)
    w rfl

theorem apply_executing_promotions_damageOf (w : World) (ids : List ℕ) (e : ℕ) :
    (apply_executing_promotions w ids).damageOf e = w.damageOf e := by
  unfold apply_executing_promotions
  exact foldl_inv_mem
    (fun w e => w.modifyEntity e (fun c =>
      { c with executing := true, willExecuteOnConstruct := false }))
    (fun w' => w'.damageOf e = w.damageOf e) (fun _ => True)
    ids (fun _ _ => trivial)
    (fun b a _ hb => by
      refine Eq.trans ?_ hb
      apply damageOf_modifyEntity_dpres
      intro c
      rfl) w rfl

theorem quantum_gate_step_frame (w' : World) (a e : ℕ) {X : Option Damage}
    (hP : (∃ c', w'.find e = some c') ∧ w'.damageOf e = X) :
    (∃ c', (quantum_gate_step w' a).find e = some c') ∧
      (quantum_gate_step w' a).damageOf e = X := by
  obtain ⟨⟨ce, hce⟩, hdam⟩ := hP
  unfold quantum_gate_step
  cases hfa : w'.find a with
  | none => exact ⟨⟨ce, hce⟩, hdam⟩
  | some c =>
    dsimp only
    by_cases hact : (activeUnit c && c.constructing.isNone) = true
    swap
    · simp only [hact, if_false]
      exact ⟨⟨ce, hce⟩, hdam⟩
    cases hq : c.quantumGate with
    | none => simp only [hact, if_true, hq]; exact ⟨⟨ce, hce⟩, hdam⟩
    | some gate =>
    simp only [hact, if_true, hq]
    by_cases hpos : gate.rolloff_current > 0
    · rw [if_pos hpos]
      refine ⟨presence_modifyEntity _ _ _ _ ⟨ce, hce⟩, ?_⟩
      refine Eq.trans ?_ hdam
      apply damageOf_modifyEntity_dpres
      intro c'
      rfl
    · rw [if_neg hpos]
      by_cases hzero : gate.rolloff_current = 0
      · rw [if_pos hzero]
        have hsp : (w'.spawn rasSacuBundle).find e = some ce :=
          World.find_spawn_of_found w' _ e ce hce
        have hspd : (w'.spawn rasSacuBundle).damageOf e = X := by
          unfold World.damageOf at hdam ⊢
          rw [hsp]
          rw [hce] at hdam
          exact hdam
        refine ⟨presence_modifyEntity _ _ _ _ ⟨ce, hsp⟩, ?_⟩
        refine Eq.trans ?_ hspd
        apply damageOf_modifyEntity_dpres
        intro c'
        rfl
      · rw [if_neg hzero]
        refine ⟨presence_modifyEntity _ _ _ _ ⟨ce, hce⟩, ?_⟩
        refine Eq.trans ?_ hdam
        apply damageOf_modifyEntity_dpres
        intro c'
        rfl

theorem quantum_gate_spawn_construct_frame (w : World) (e : ℕ)
    (c0 : EntityComponents) (h : w.find e = some c0) :
    (∃ c', (quantum_gate_spawn_construct w).find e = some c') ∧
      (quantum_gate_spawn_construct w).damageOf e = w.damageOf e := by
  unfold quantum_gate_spawn_construct
  exact foldl_inv_mem quantum_gate_step
    (fun w' => (∃ c', w'.find e = some c') ∧ w'.damageOf e = w.damageOf e)
    (fun _ => True) _ (fun _ _ => trivial)
    (fun b a _ hb => quantum_gate_step_frame b a e hb) w ⟨⟨c0, h⟩, rfl⟩

theorem do_construct_find_none (w : World) (e : ℕ) (h : w.find e = none) :
    (do_construct w).find e = none := by
  unfold do_construct
  apply foldl_inv_mem do_construct_step (fun w' => w'.find e = none)
    (fun _ => True) _ (fun _ _ => trivial) _ w h
  intro b a _ hb
  unfold do_construct_step
  repeat' split
  all_goals try (dsimp only; repeat' split)
  all_goals first
    | exact hb
    | exact World.find_none_modifyEntity _ _ _ _ hb
    | exact World.find_none_modifyEntity _ _ _ _
        (World.find_none_modifyEntity _ _ _ _ hb)

theorem consumerReset_find_none (w : World) (e : ℕ) (h : w.find e = none) :
    (economy_process_resource_consumption w).find e = none := by
  rw [find_economy_process_resource_consumption, h]
  rfl

theorem producers_find_none (w : World) (e : ℕ) (h : w.find e = none) :
    (economy_resource_producers w).find e = none := by
  rw [find_economy_resource_producers, h]
  rfl

theorem sum_producer_field_nonneg (l : List (ℕ × EntityComponents))
    (g : ResourceProducer → ℚ)
    (h : ∀ p ∈ l, ∀ pr, producerYields p = some pr → 0 ≤ g pr) :
    0 ≤ ((l.filterMap producerYields).map g).sum := by
  apply List.sum_nonneg
  intro x hx
  obtain ⟨pr, hpr, rfl⟩ := List.mem_map.mp hx
  obtain ⟨p, hp, hppr⟩ := List.mem_filterMap.mp hpr
  exact h p hp pr hppr

theorem apply_executing_promotions_find_none (w : World) (ids : List ℕ) (e : ℕ)
    (h : w.find e = none) : (apply_executing_promotions w ids).find e = none := by
  unfold apply_executing_promotions
  exact foldl_inv_mem
    (fun w e => w.modifyEntity e (fun c =>
      { c with executing := true, willExecuteOnConstruct := false }))
    (fun w' => w'.find e = none) (fun _ => True) ids (fun _ _ => trivial)
    (fun b a _ hb => World.find_none_modifyEntity b a _ e hb) w h

/-- C2: for every entity with a Build Cost component, health is
non-decreasing across a full tick of the `RASSimulation` pipeline
(which runs both construction settlement and sacrifice resolution) and
never exceeds 1.0.  The hypotheses are the component well-formedness
facts (`TickWF`) true of every configuration the program builds, plus
non-negative ledger stocks at the start of the tick. -/
theorem c2_health_monotone_bounded (w : World) (hW : TickWF w)
    (hS : StocksNonneg w) :
    ∀ e d d', w.damageOf e = some d → (ras_tick w).damageOf e = some d' →
      d.health ≤ d'.health ∧ d'.health ≤ 1 := by
  intro e d d' hd hd'
  have hW1 : TickWF (count_tick w) := hW
  have hW2 := TickWF_quantum_gate_spawn_construct _ hW1
  have hW3 := TickWF_do_construct_resources_request _ hW2
  have hEv := construct_sacrifice_evolve _ hW3
  have hW4 := hEv.1
  have hW5 := TickWF_apply_executing_promotions _
    (execute_on_finished_construction_pending
          (quantum_gate_spawn_construct (count_tick w))) hW4
  have hW6 := TickWF_economy_resource_producers _ hW5
  -- damage of e at the entry of the sacrifice stage
  have hd1 : (count_tick w).damageOf e = some d := hd
  obtain ⟨c1, hc1, _⟩ := (World.damageOf_eq_some _ _ _).mp hd1
  have hframe2 := quantum_gate_spawn_construct_frame (count_tick w) e c1 hc1
  have hd2 : (quantum_gate_spawn_construct (count_tick w)).damageOf e = some d :=
    hframe2.2.trans hd1
  have hd3 : (do_construct_resources_request
      (quantum_gate_spawn_construct (count_tick w))).damageOf e = some d :=
    (do_construct_resources_request_damageOf _ e).trans hd2
  -- economy is untouched up to the production stage
  have hEco5 : (apply_executing_promotions
      (construct_sacrifice (do_construct_resources_request
        (quantum_gate_spawn_construct (count_tick w))))
      (execute_on_finished_construction_pending
          (quantum_gate_spawn_construct (count_tick w)))).economy
      = w.economy := by
    rw [apply_executing_promotions_economy, construct_sacrifice_economy,
      do_construct_resources_request_economy, quantum_gate_spawn_construct_economy]
    rfl
  -- the stall ratios computed this tick are non-negative
  have hstock : 0 ≤ (economy_resource_producers
      (apply_executing_promotions
        (construct_sacrifice (do_construct_resources_request
          (quantum_gate_spawn_construct (count_tick w))))
        (execute_on_finished_construction_pending
          (quantum_gate_spawn_construct (count_tick w))))).economy.mass ∧
      0 ≤ (economy_resource_producers
      (apply_executing_promotions
        (construct_sacrifice (do_construct_resources_request
          (quantum_gate_spawn_construct (count_tick w))))
        (execute_on_finished_construction_pending
          (quantum_gate_spawn_construct (count_tick w))))).economy.energy := by
    constructor
    · apply add_nonneg
      · rw [hEco5]
        exact hS.1
      · apply sum_producer_field_nonneg
        intro p hp pr hpr
        unfold producerYields at hpr
        by_cases hx : p.2.executing
        · rw [if_pos hx] at hpr
          exact (hW5.2.2.2.2.1 p hp pr hpr).1
        · rw [if_neg hx] at hpr
          cases hpr
    · apply add_nonneg
      · rw [hEco5]
        exact hS.2
      · apply sum_producer_field_nonneg
        intro p hp pr hpr
        unfold producerYields at hpr
        by_cases hx : p.2.executing
        · rw [if_pos hx] at hpr
          exact (hW5.2.2.2.2.1 p hp pr hpr).2
        · rw [if_neg hx] at hpr
          cases hpr
  have hreqsum : ∀ g : ResourceConsumer → ℚ, (∀ r : ResourceConsumer,
      (0 ≤ r.mass_request ∧ 0 ≤ r.energy_request) → 0 ≤ g r) →
      0 ≤ (((economy_resource_producers
        (apply_executing_promotions
          (construct_sacrifice (do_construct_resources_request
            (quantum_gate_spawn_construct (count_tick w))))
          (execute_on_finished_construction_pending
          (quantum_gate_spawn_construct (count_tick w))))).entities.filterMap consumerOfEntry).map g).sum := by
    intro g hg
    apply sum_consumer_field_nonneg
    intro p hp r hr
    unfold consumerOfEntry at hr
    by_cases hx : p.2.executing
    · rw [if_pos hx] at hr
      exact hg r (hW6.2.2.2.1 p hp r hr)
    · rw [if_neg hx] at hr
      cases hr
  have hms : 0 ≤ (economy_process_resource_requests (economy_resource_producers
      (apply_executing_promotions
        (construct_sacrifice (do_construct_resources_request
          (quantum_gate_spawn_construct (count_tick w))))
        (execute_on_finished_construction_pending
          (quantum_gate_spawn_construct (count_tick w)))))).economy.mass_stall :=
    calc_stall_nonneg _ _ hstock.1 (hreqsum _ (fun r hr => hr.1))
  have hes : 0 ≤ (economy_process_resource_requests (economy_resource_producers
      (apply_executing_promotions
        (construct_sacrifice (do_construct_resources_request
          (quantum_gate_spawn_construct (count_tick w))))
        (execute_on_finished_construction_pending
          (quantum_gate_spawn_construct (count_tick w)))))).economy.energy_stall :=
    calc_stall_nonneg _ _ hstock.2 (hreqsum _ (fun r hr => hr.2))
  -- case on whether the sacrifice resolver destroyed the entity
  rcases hEv.2 e d hd3 with hnone | ⟨d4, hd4, hh4, _, _⟩
  · -- destroyed: it cannot reappear, contradicting hd'
    exfalso
    have h5 := apply_executing_promotions_find_none _
      (execute_on_finished_construction_pending
          (quantum_gate_spawn_construct (count_tick w))) e hnone
    have h6 := producers_find_none _ e h5
    have h7 : (economy_process_resource_requests (economy_resource_producers
        (apply_executing_promotions
          (construct_sacrifice (do_construct_resources_request
            (quantum_gate_spawn_construct (count_tick w))))
          (execute_on_finished_construction_pending
          (quantum_gate_spawn_construct (count_tick w)))))).find e = none := h6
    have h8 := do_construct_find_none _ e h7
    have h9 := consumerReset_find_none _ e h8
    unfold ras_tick ras_update_stage at hd'
    unfold World.damageOf at hd'
    rw [h9] at hd'
    cases hd'
  · -- survived the sacrifice stage with health d4 ≥ d
    have hd5 : (apply_executing_promotions
        (construct_sacrifice (do_construct_resources_request
          (quantum_gate_spawn_construct (count_tick w))))
        (execute_on_finished_construction_pending
          (quantum_gate_spawn_construct (count_tick w)))).damageOf e = some d4 :=
      (apply_executing_promotions_damageOf _ _ e).trans hd4
    have hd6 : (economy_resource_producers
        (apply_executing_promotions
          (construct_sacrifice (do_construct_resources_request
            (quantum_gate_spawn_construct (count_tick w))))
          (execute_on_finished_construction_pending
          (quantum_gate_spawn_construct (count_tick w))))).damageOf e = some d4 :=
      (damageOf_economy_resource_producers _ e).trans hd5
    have hd7 : (economy_process_resource_requests (economy_resource_producers
        (apply_executing_promotions
          (construct_sacrifice (do_construct_resources_request
            (quantum_gate_spawn_construct (count_tick w))))
          (execute_on_finished_construction_pending
          (quantum_gate_spawn_construct (count_tick w)))))).damageOf e = some d4 := hd6
    have hW7 : TickWF (economy_process_resource_requests (economy_resource_producers
        (apply_executing_promotions
          (construct_sacrifice (do_construct_resources_request
            (quantum_gate_spawn_construct (count_tick w))))
          (execute_on_finished_construction_pending
          (quantum_gate_spawn_construct (count_tick w)))))) := hW6
    have hsettle : SettleInv
        (economy_process_resource_requests (economy_resource_producers
          (apply_executing_promotions
            (construct_sacrifice (do_construct_resources_request
              (quantum_gate_spawn_construct (count_tick w))))
            (execute_on_finished_construction_pending
          (quantum_gate_spawn_construct (count_tick w))))))
        (do_construct (economy_process_resource_requests (economy_resource_producers
          (apply_executing_promotions
            (construct_sacrifice (do_construct_resources_request
              (quantum_gate_spawn_construct (count_tick w))))
            (execute_on_finished_construction_pending
          (quantum_gate_spawn_construct (count_tick w))))))) := by
      unfold do_construct
      exact foldl_inv_mem do_construct_step (SettleInv _) (fun _ => True) _
        (fun _ _ => trivial)
        (fun b a _ hb => SettleInv_do_construct_step _ hms hes b a hb) _
        ⟨hW7.1, hW7.2.1, hW7.2.2.1, rfl,
          fun e d hd => ⟨d, hd, le_refl _, rfl, rfl⟩⟩
    obtain ⟨d8, hd8, hh8, _, _⟩ := hsettle.2.2.2.2 e d4 hd7
    have hd9 : (ras_tick w).damageOf e = some d8 := by
      unfold ras_tick ras_update_stage
      exact (damageOf_economy_process_resource_consumption _ e).trans hd8
    have hdd : d' = d8 := by
      rw [hd'] at hd9
      exact (Option.some.injEq _ _).mp hd9
    subst hdd
    constructor
    · exact le_trans hh4 hh8
    · obtain ⟨c8, hc8, hc8d⟩ := (World.damageOf_eq_some _ _ _).mp hd8
      have := hsettle.1 (e, c8) (World.mem_of_find _ _ _ hc8) d' hc8d
      exact this.2

theorem find?_key_of_mem_nodup (l : List (ℕ × EntityComponents)) (e : ℕ)
    (c : EntityComponents) (hnd : (l.map (fun p => p.1)).Nodup)
    (hm : (e, c) ∈ l) : l.find? (fun p => p.1 == e) = some (e, c) := by
  induction l with
  | nil => cases hm
  | cons a l ih =>
    simp only [List.map_cons, List.nodup_cons] at hnd
    rcases List.mem_cons.mp hm with rfl | hm'
    · rw [List.find?_cons]
      simp
    · have ha : a.1 ≠ e := by
        intro hc
        exact hnd.1 (hc ▸ List.mem_map_of_mem (fun p => p.1) hm')
      have h1 : (a.1 == e) = false := by simp [ha]
      rw [List.find?_cons]
      simp only [h1, cond_false]
      exact ih hnd.2 hm'

theorem World.find_of_mem (w : World) (e : ℕ) (c : EntityComponents)
    (hnd : KeysNodup w) (hm : (e, c) ∈ w.entities) : w.find e = some c := by
  unfold World.find
  rw [find?_key_of_mem_nodup w.entities e c hnd hm]
  rfl

theorem World.find_isSome_of_key (w : World) (e : ℕ) (hnd : KeysNodup w)
    (hk : e ∈ w.entities.map (fun p => p.1)) : ∃ c, w.find e = some c := by
  obtain ⟨q, hq, hqe⟩ := List.mem_map.mp hk
  obtain ⟨q1, q2⟩ := q
  cases hqe
  exact ⟨q2, World.find_of_mem w _ q2 hnd hq⟩

theorem do_construct_resources_request_step_keys (w : World) (a : ℕ) :
    (do_construct_resources_request_step w a).entities.map (fun p => p.1)
      = w.entities.map (fun p => p.1) := by
  unfold do_construct_resources_request_step
  repeat' split
  all_goals first | rfl | exact World.modifyEntity_keys _ _ _

theorem do_construct_resources_request_keys (w : World) :
    (do_construct_resources_request w).entities.map (fun p => p.1)
      = w.entities.map (fun p => p.1) := by
  unfold do_construct_resources_request
  exact foldl_inv_mem do_construct_resources_request_step
    (fun w' => w'.entities.map (fun p => p.1) = w.entities.map (fun p => p.1))
    (fun _ => True) _ (fun _ _ => trivial)
    (fun b a _ hb => (do_construct_resources_request_step_keys b a).trans hb)
    w rfl

theorem do_construct_step_keys (w : World) (a : ℕ) :
    (do_construct_step w a).entities.map (fun p => p.1)
      = w.entities.map (fun p => p.1) := by
  unfold do_construct_step
  repeat' split
  all_goals try (dsimp only; repeat' split)
  all_goals first
    | rfl
    | exact World.modifyEntity_keys _ _ _
    | exact (World.modifyEntity_keys _ _ _).trans (World.modifyEntity_keys _ _ _)

theorem do_construct_keys (w : World) :
    (do_construct w).entities.map (fun p => p.1)
      = w.entities.map (fun p => p.1) := by
  unfold do_construct
  exact foldl_inv_mem do_construct_step
    (fun w' => w'.entities.map (fun p => p.1) = w.entities.map (fun p => p.1))
    (fun _ => True) _ (fun _ _ => trivial)
    (fun b a _ hb => (do_construct_step_keys b a).trans hb) w rfl

theorem apply_executing_promotions_keys (w : World) (ids : List ℕ) :
    (apply_executing_promotions w ids).entities.map (fun p => p.1)
      = w.entities.map (fun p => p.1) := by
  unfold apply_executing_promotions
  exact foldl_inv_mem
    (fun w e => w.modifyEntity e (fun c =>
      { c with executing := true, willExecuteOnConstruct := false }))
    (fun w' => w'.entities.map (fun p => p.1) = w.entities.map (fun p => p.1))
    (fun _ => True) ids (fun _ _ => trivial)
    (fun b a _ hb => (World.modifyEntity_keys _ _ _).trans hb) w rfl

theorem economy_resource_producers_keys (w : World) :
    (economy_resource_producers w).entities.map (fun p => p.1)
      = w.entities.map (fun p => p.1) := by
  unfold economy_resource_producers
  simp [List.map_map, Function.comp_def]

theorem settleObs_modifyEntity_ne (w : World) (a : ℕ)
    (f : EntityComponents → EntityComponents) (e : ℕ) (h : e ≠ a) :
    settleObs (w.modifyEntity a f) e = settleObs w e := by
  unfold settleObs World.consumerOf World.constructingOf
  rw [World.find_modifyEntity_ne _ _ _ _ h]

theorem settleObs_modifyEntity_pres (w : World) (a : ℕ)
    (f : EntityComponents → EntityComponents)
    (hf : ∀ c, (f c).consumer = c.consumer ∧ (f c).constructing = c.constructing ∧
      (f c).executing = c.executing ∧ (f c).constructionPaused = c.constructionPaused)
    (e : ℕ) :
    settleObs (w.modifyEntity a f) e = settleObs w e := by
  by_cases h : e = a
  · subst h
    unfold settleObs World.consumerOf World.constructingOf
    rw [World.find_modifyEntity_self]
    cases hu : w.find e with
    | none => rfl
    | some c =>
      simp only [Option.map_some', Option.some_bind]
      rw [(hf c).1, (hf c).2.1, (hf c).2.2.1, (hf c).2.2.2]
  · exact settleObs_modifyEntity_ne w a f e h

theorem do_construct_step_settleObs_ne (w : World) (a e : ℕ) (h : e ≠ a) :
    settleObs (do_construct_step w a) e = settleObs w e := by
  unfold do_construct_step
  cases hfa : w.find a with
  | none => rfl
  | some c =>
    dsimp only
    repeat' split
    all_goals try (dsimp only; repeat' split)
    all_goals first
      | rfl
      | exact settleObs_modifyEntity_ne w a _ e h
      | (refine Eq.trans (settleObs_modifyEntity_pres _ _ _ ?_ _)
          (settleObs_modifyEntity_ne w a _ e h)
         intro tc
         exact ⟨rfl, rfl, rfl, rfl⟩)

theorem do_construct_resources_request_step_find_ne (w : World) (a e : ℕ)
    (h : e ≠ a) :
    (do_construct_resources_request_step w a).find e = w.find e := by
  unfold do_construct_resources_request_step
  repeat' split
  all_goals first | rfl | exact World.find_modifyEntity_ne _ _ _ _ h

theorem apply_executing_promotions_find_cases (ids : List ℕ) (u : World) (e : ℕ) :
    (apply_executing_promotions u ids).find e = u.find e ∨
    (e ∈ ids ∧ (apply_executing_promotions u ids).find e = (u.find e).map
      (fun c => { c with executing := true, willExecuteOnConstruct := false })) := by
  induction ids generalizing u with
  | nil => exact Or.inl rfl
  | cons a ids ih =>
    unfold apply_executing_promotions at ih ⊢
    rw [List.foldl_cons]
    rcases ih (u.modifyEntity a (fun c =>
        { c with executing := true, willExecuteOnConstruct := false })) with h | ⟨hm, h⟩
    · by_cases hea : e = a
      · subst hea
        right
        refine ⟨List.mem_cons_self e ids, ?_⟩
        rw [h, World.find_modifyEntity_self]
      · left
        rw [h, World.find_modifyEntity_ne _ _ _ _ hea]
    · right
      refine ⟨List.mem_cons_of_mem a hm, ?_⟩
      by_cases hea : e = a
      · subst hea
        rw [h, World.find_modifyEntity_self]
        cases hu : u.find e with
        | none => rfl
        | some c => rfl
      · rw [h, World.find_modifyEntity_ne _ _ _ _ hea]

theorem mem_pending_inactive (u : World) (e : ℕ)
    (h : e ∈ execute_on_finished_construction_pending u) :
    ∃ p ∈ u.entities, p.1 = e ∧ p.2.executing = false := by
  unfold execute_on_finished_construction_pending at h
  obtain ⟨p, hp, hpe⟩ := List.mem_filterMap.mp h
  refine ⟨p, hp, ?_⟩
  cases hd : p.2.damage with
  | none =>
    rw [hd] at hpe
    cases hpe
  | some d =>
    rw [hd] at hpe
    dsimp only at hpe
    by_cases hc : ¬p.2.executing ∧ p.2.willExecuteOnConstruct ∧ d.health = 1
    · rw [if_pos hc] at hpe
      cases hpe
      exact ⟨rfl, by simpa using hc.1⟩
    · rw [if_neg hc] at hpe
      cases hpe

theorem do_construct_resources_request_step_cases (w : World) (e : ℕ)
    (c : EntityComponents) (hfind : w.find e = some c) :
    ((do_construct_resources_request_step w e).find e = some c ∧
      (activeUnit c = false ∨ c.constructing = none ∨ c.engineering = none ∨
        c.consumer = none)) ∨
    (activeUnit c = true ∧ (do_construct_resources_request_step w e).find e =
      some { c with constructing := none }) ∨
    (activeUnit c = true ∧ ∃ k g r td,
      c.constructing = some k ∧ c.engineering = some g ∧ c.consumer = some r ∧
      w.damageOf k.target = some td ∧
      (do_construct_resources_request_step w e).find e = some { c with
        constructing := some { k with
          build_amount := g.build_rate / td.build_time,
          mass_requested := g.build_rate / td.build_time * td.mass_total *
            k.mass_consumption_multiplier,
          energy_requested := g.build_rate / td.build_time * td.energy_total *
            k.energy_consumption_multiplier },
        consumer := some { r with
          mass_request := r.mass_request + g.build_rate / td.build_time *
            td.mass_total * k.mass_consumption_multiplier,
          energy_request := r.energy_request + g.build_rate / td.build_time *
            td.energy_total * k.energy_consumption_multiplier } }) := by
  unfold do_construct_resources_request_step
  rw [hfind]
  dsimp only
  by_cases hact : activeUnit c = true
  swap
  · rw [if_neg hact]
    exact Or.inl ⟨hfind, Or.inl (by simpa using hact)⟩
  rw [if_pos hact]
  cases hk : c.constructing with
  | none =>
    left
    constructor
    · cases hg : c.engineering <;> cases hr : c.consumer <;> exact hfind
    · exact Or.inr (Or.inl rfl)
  | some k =>
    cases hg : c.engineering with
    | none =>
      left
      constructor
      · cases hr : c.consumer <;> exact hfind
      · exact Or.inr (Or.inr (Or.inl rfl))
    | some g =>
      cases hr : c.consumer with
      | none =>
        left
        exact ⟨hfind, Or.inr (Or.inr (Or.inr rfl))⟩
      | some r =>
        dsimp only
        cases htd : w.damageOf k.target with
        | none =>
          right
          left
          refine ⟨hact, ?_⟩
          dsimp only
          rw [World.find_modifyEntity_self, hfind]
          simp only [Option.map_some', hg, hr]
        | some td =>
          right
          right
          refine ⟨hact, k, g, r, td, rfl, rfl, rfl, htd, ?_⟩
          dsimp only
          rw [World.find_modifyEntity_self, hfind]
          simp only [Option.map_some', hg, hr]

theorem request_fold_inactive_unchanged (w : World) (hK : KeysNodup w) (e : ℕ)
    (c : EntityComponents) (hfind : w.find e = some c)
    (hinact : activeUnit c = false) :
    (do_construct_resources_request w).find e = some c := by
  have hkey : e ∈ w.entities.map (fun p => p.1) := by
    exact List.mem_map_of_mem (fun p => p.1) (World.mem_of_find w e c hfind)
  have hK' : (w.entities.map (fun p => p.1)).Nodup := hK
  unfold do_construct_resources_request
  obtain ⟨w₁, _, hobs, hstep⟩ := foldl_obs_decomp do_construct_resources_request_step
    (fun u x => u.find x) (fun _ => True)
    (fun u a x hx => do_construct_resources_request_step_find_ne u a x hx)
    (fun _ _ _ => trivial) (w.entities.map (fun p => p.1)) w e hkey hK' trivial
  rw [hstep]
  unfold do_construct_resources_request_step
  rw [hobs, hfind]
  dsimp only
  rw [if_neg (by rw [hinact]; exact Bool.false_ne_true)]
  rw [hobs, hfind]

theorem ReqCovers_do_construct_resources_request (w : World)
    (hK : KeysNodup w) (hZ : ConsumersZeroed w) (hPE : PassiveEdgesZero w)
    (hE : EdgeHasEngineering w) (hPT : PositiveTotals w) (hEN : EdgeNonneg w)
    (hBR : BuildRatesNonneg w) :
    ReqCovers (do_construct_resources_request w) := by
  intro p hp
  have hkeys := do_construct_resources_request_keys w
  have hkey : p.1 ∈ w.entities.map (fun q => q.1) := by
    rw [← hkeys]
    exact List.mem_map_of_mem _ hp
  obtain ⟨c₀, hc₀⟩ := World.find_isSome_of_key w p.1 hK hkey
  have hmem₀ := World.mem_of_find w p.1 c₀ hc₀
  have hKu : KeysNodup (do_construct_resources_request w) := by
    unfold KeysNodup
    rw [hkeys]
    exact hK
  have hfu : (do_construct_resources_request w).find p.1 = some p.2 :=
    World.find_of_mem _ _ _ hKu hp
  have hK' : (w.entities.map (fun q => q.1)).Nodup := hK
  obtain ⟨w₁, hPd, hobs, hstep⟩ := foldl_obs_decomp do_construct_resources_request_step
    (fun u x => u.find x) (fun u => ∀ x, u.damageOf x = w.damageOf x)
    (fun u a x hx => do_construct_resources_request_step_find_ne u a x hx)
    (fun u a hu x => (do_construct_resources_request_step_damageOf u a x).trans (hu x))
    (w.entities.map (fun q => q.1)) w p.1 hkey hK' (fun _ => rfl)
  have hstep' : (do_construct_resources_request w).find p.1
      = (do_construct_resources_request_step w₁ p.1).find p.1 := hstep
  have hw₁ : w₁.find p.1 = some c₀ := hobs.trans hc₀
  have hzero := hZ _ hmem₀
  rcases do_construct_resources_request_step_cases w₁ p.1 c₀ hw₁ with
    ⟨hfe, hmiss⟩ | ⟨hact, hfe⟩ | ⟨hact, k, g, r, td, hk, hg, hr, htd, hfe⟩
  · have hp2 : p.2 = c₀ := by
      have := (hfu.symm.trans (hstep'.trans hfe))
      exact (Option.some.injEq _ _).mp this
    rw [hp2]
    intro r hrc
    have hz := hzero r hrc
    refine ⟨hz.2.2.1, hz.2.2.2, le_of_eq hz.1.symm, le_of_eq hz.2.1.symm, ?_⟩
    intro hact' k hk'
    rcases hmiss with hm | hm | hm | hm
    · rw [hact'] at hm
      cases hm
    · rw [hk'] at hm
      cases hm
    · have := hE _ hmem₀ hact' (by rw [hk']; rfl) (by rw [hrc]; rfl)
      rw [hm] at this
      cases this
    · rw [hrc] at hm
      cases hm
  · have hp2 : p.2 = { c₀ with constructing := none } := by
      have := (hfu.symm.trans (hstep'.trans hfe))
      exact (Option.some.injEq _ _).mp this
    rw [hp2]
    intro r hrc
    have hrc' : c₀.consumer = some r := hrc
    have hz := hzero r hrc'
    refine ⟨hz.2.2.1, hz.2.2.2, le_of_eq hz.1.symm, le_of_eq hz.2.1.symm, ?_⟩
    intro _ k hk'
    cases hk'
  · have hp2 : p.2 = { c₀ with
        constructing := some { k with
          build_amount := g.build_rate / td.build_time,
          mass_requested := g.build_rate / td.build_time * td.mass_total *
            k.mass_consumption_multiplier,
          energy_requested := g.build_rate / td.build_time * td.energy_total *
            k.energy_consumption_multiplier },
        consumer := some { r with
          mass_request := r.mass_request + g.build_rate / td.build_time *
            td.mass_total * k.mass_consumption_multiplier,
          energy_request := r.energy_request + g.build_rate / td.build_time *
            td.energy_total * k.energy_consumption_multiplier } } := by
      have := (hfu.symm.trans (hstep'.trans hfe))
      exact (Option.some.injEq _ _).mp this
    have hz := hzero r hr
    -- the new requested amounts are non-negative
    have htdw : w.damageOf k.target = some td := (hPd k.target).symm.trans htd
    obtain ⟨tc, htc, htcd⟩ := (World.damageOf_eq_some _ _ _).mp htdw
    have hmem_t := World.mem_of_find w k.target tc htc
    have hPTt := hPT _ hmem_t td htcd
    have hENk := hEN _ hmem₀ k hk
    have hbr := hBR _ hmem₀ g hg
    have hM : 0 ≤ g.build_rate / td.build_time * td.mass_total *
        k.mass_consumption_multiplier :=
      mul_nonneg (mul_nonneg (div_nonneg hbr (le_of_lt hPTt.2.2))
        (le_of_lt hPTt.1)) (le_of_lt hENk.1)
    have hEq : 0 ≤ g.build_rate / td.build_time * td.energy_total *
        k.energy_consumption_multiplier :=
      mul_nonneg (mul_nonneg (div_nonneg hbr (le_of_lt hPTt.2.2))
        (le_of_lt hPTt.2.1)) (le_of_lt hENk.2.1)
    rw [hp2]
    intro r' hr'
    have hr'' : r' = { r with
        mass_request := r.mass_request + g.build_rate / td.build_time *
          td.mass_total * k.mass_consumption_multiplier,
        energy_request := r.energy_request + g.build_rate / td.build_time *
          td.energy_total * k.energy_consumption_multiplier } :=
      ((Option.some.injEq _ _).mp hr').symm
    rw [hr'']
    refine ⟨hz.2.2.1, hz.2.2.2, ?_, ?_, ?_⟩
    · show 0 ≤ r.mass_request + _
      rw [hz.1, zero_add]
      exact hM
    · show 0 ≤ r.energy_request + _
      rw [hz.2.1, zero_add]
      exact hEq
    · intro _ k' hk'
      have hk'' : k' = { k with
          build_amount := g.build_rate / td.build_time,
          mass_requested := g.build_rate / td.build_time * td.mass_total *
            k.mass_consumption_multiplier,
          energy_requested := g.build_rate / td.build_time * td.energy_total *
            k.energy_consumption_multiplier } :=
        ((Option.some.injEq _ _).mp hk').symm
      rw [hk'']
      constructor
      · show _ ≤ r.mass_request + _
        rw [hz.1, zero_add]
      · show _ ≤ r.energy_request + _
        rw [hz.2.1, zero_add]

theorem ReqCovers_fa_update_stage (w : World)
    (hK : KeysNodup w) (hZ : ConsumersZeroed w) (hPE : PassiveEdgesZero w)
    (hE : EdgeHasEngineering w) (hPT : PositiveTotals w) (hEN : EdgeNonneg w)
    (hBR : BuildRatesNonneg w) :
    ReqCovers (fa_update_stage (count_tick w)) := by
  have hRC : ReqCovers (do_construct_resources_request (count_tick w)) :=
    ReqCovers_do_construct_resources_request (count_tick w)
      (show KeysNodup (count_tick w) from hK) hZ hPE hE hPT hEN hBR
  intro p hp
  have hkeys4 := do_construct_resources_request_keys (count_tick w)
  have hkeys5 := apply_executing_promotions_keys
    (do_construct_resources_request (count_tick w))
    (execute_on_finished_construction_pending (count_tick w))
  have hKu : KeysNodup (fa_update_stage (count_tick w)) := by
    unfold KeysNodup fa_update_stage
    rw [hkeys5, hkeys4]
    exact hK
  have hfu : (fa_update_stage (count_tick w)).find p.1 = some p.2 :=
    World.find_of_mem _ _ _ hKu hp
  rcases apply_executing_promotions_find_cases
    (execute_on_finished_construction_pending (count_tick w))
    (do_construct_resources_request (count_tick w)) p.1 with h | ⟨hm, h⟩
  · have hfu4 : (do_construct_resources_request (count_tick w)).find p.1
        = some p.2 := by
      rw [← h]
      exact hfu
    exact hRC _ (World.mem_of_find _ _ _ hfu4)
  · obtain ⟨q, hq, hq1, hqex⟩ := mem_pending_inactive (count_tick w) p.1 hm
    have hfind_q : (count_tick w).find p.1 = some q.2 := by
      rw [← hq1]
      exact World.find_of_mem _ _ _ (show KeysNodup (count_tick w) from hK) hq
    have hinact : activeUnit q.2 = false := by
      unfold activeUnit
      rw [hqex]
      rfl
    have hfu4 : (do_construct_resources_request (count_tick w)).find p.1
        = some q.2 :=
      request_fold_inactive_unchanged (count_tick w)
        (show KeysNodup (count_tick w) from hK) p.1 q.2 hfind_q hinact
    have hp2 : p.2 = { q.2 with
        executing := true, willExecuteOnConstruct := false } := by
      have h' : (fa_update_stage (count_tick w)).find p.1
          = ((do_construct_resources_request (count_tick w)).find p.1).map
            (fun c => { c with
              executing := true, willExecuteOnConstruct := false }) := h
      rw [hfu, hfu4] at h'
      exact (Option.some.injEq _ _).mp h'
    rw [hp2]
    intro r hrc
    have hrc' : q.2.consumer = some r := hrc
    have hz := hZ q hq r hrc'
    refine ⟨hz.2.2.1, hz.2.2.2, le_of_eq hz.1.symm, le_of_eq hz.2.1.symm, ?_⟩
    intro _ k hk
    have hk' : q.2.constructing = some k := hk
    have hpe := hPE q hq hqex k hk'
    rw [hpe.1, hpe.2, hz.1, hz.2.1]
    exact ⟨le_refl 0, le_refl 0⟩

theorem ReqCovers_economy_resource_producers (w : World) (h : ReqCovers w) :
    ReqCovers (economy_resource_producers w) := by
  have hflag : ∀ c, activeUnit (producerAccumulate c) = activeUnit c := by
    intro c
    unfold producerAccumulate activeUnit
    repeat' split
    all_goals rfl
  intro p hp
  unfold economy_resource_producers at hp
  obtain ⟨p₀, hp₀, hpe⟩ := List.mem_map.mp hp
  subst hpe
  intro r hrc
  rw [producerAccumulate_consumer] at hrc
  have hq := h p₀ hp₀ r hrc
  refine ⟨hq.1, hq.2.1, hq.2.2.1, hq.2.2.2.1, ?_⟩
  intro hact k hk
  rw [hflag] at hact
  rw [producerAccumulate_constructing] at hk
  exact hq.2.2.2.2 hact k hk

theorem settle_portion_bound (req ms mult mt mp : ℚ)
    (hmt : 0 < mt) (hmult : 0 < mult) (hms : 0 ≤ ms)
    (hmp : mp ≤ req * ms / mult / mt) :
    mp * mt * mult ≤ req * ms := by
  have h1 : mp * mt ≤ req * ms / mult := (le_div_iff hmt).mp hmp
  have h2 : mp * mt * mult ≤ req * ms / mult * mult :=
    mul_le_mul_of_nonneg_right h1 (le_of_lt hmult)
  rwa [div_mul_cancel₀ _ (ne_of_gt hmult)] at h2

theorem do_construct_step_consumer_bound (w : World) (e : ℕ)
    (c : EntityComponents) (hfind : w.find e = some c)
    (hHB : HealthBounds w) (hPT : PositiveTotals w) (hEN : EdgeNonneg w)
    (hms : 0 ≤ w.economy.mass_stall) (hes : 0 ≤ w.economy.energy_stall)
    (hr : ∀ r, c.consumer = some r →
      r.mass_consumed = 0 ∧ r.energy_consumed = 0 ∧
      0 ≤ r.mass_request ∧ 0 ≤ r.energy_request ∧
      (activeUnit c = true → ∀ k, c.constructing = some k →
        k.mass_requested ≤ r.mass_request ∧
        k.energy_requested ≤ r.energy_request)) :
    ∀ r', (do_construct_step w e).consumerOf e = some r' →
      r'.mass_consumed ≤ r'.mass_request * w.economy.mass_stall ∧
      r'.energy_consumed ≤ r'.energy_request * w.economy.energy_stall := by
  intro r' hr'
  have hmemc := World.mem_of_find w e c hfind
  unfold do_construct_step at hr'
  rw [hfind] at hr'
  dsimp only at hr'
  by_cases hact : activeUnit c = true
  swap
  · rw [if_neg hact] at hr'
    have hcr : c.consumer = some r' := by
      unfold World.consumerOf at hr'
      rw [hfind] at hr'
      simpa using hr'
    obtain ⟨h1, h2, h3, h4, _⟩ := hr r' hcr
    rw [h1, h2]
    exact ⟨mul_nonneg h3 hms, mul_nonneg h4 hes⟩
  rw [if_pos hact] at hr'
  split at hr'
  case _ =>
    rename_i k r hk hc
    split at hr'
    case _ =>
      rename_i td htd
      obtain ⟨h1, h2, h3, h4, hcov⟩ := hr r hc
      have hkcov := hcov hact k hk
      obtain ⟨tc, htc, htcd⟩ := (World.damageOf_eq_some _ _ _).mp htd
      have hmem_t := World.mem_of_find w k.target tc htc
      obtain ⟨hmt, het, hbt⟩ := hPT _ hmem_t td htcd
      have hhb := hHB _ hmem_t td htcd
      have hENk := hEN _ hmemc k hk
      split at hr'
      case _ hge =>
        -- target already complete: only the edge is dropped
        have hcr : c.consumer = some r' := by
          unfold World.consumerOf at hr'
          rw [World.find_modifyEntity_self, hfind] at hr'
          simpa using hr'
        obtain ⟨h1', h2', h3', h4', _⟩ := hr r' hcr
        rw [h1', h2']
        exact ⟨mul_nonneg h3' hms, mul_nonneg h4' hes⟩
      case _ hlt =>
        split at hr'
        case _ hcomp =>
          -- completion branch
          have hrc : r' = { r with
              mass_consumed := r.mass_consumed +
                (1 - td.health) * td.mass_total * k.mass_consumption_multiplier,
              energy_consumed := r.energy_consumed +
                (1 - td.health) * td.energy_total *
                  k.energy_consumption_multiplier } := by
            by_cases hte : e = k.target
            · rw [← hte] at hr'
              unfold World.consumerOf at hr'
              rw [World.find_modifyEntity_self, World.find_modifyEntity_self,
                hfind] at hr'
              simpa using hr'.symm
            · unfold World.consumerOf at hr'
              rw [World.find_modifyEntity_ne _ _ _ _ hte,
                World.find_modifyEntity_self, hfind] at hr'
              simpa using hr'.symm
          have h1mp : 1 - td.health ≤
              k.mass_requested * w.economy.mass_stall /
                  k.mass_consumption_multiplier / td.mass_total ⊓
                k.energy_requested * w.economy.energy_stall /
                  k.energy_consumption_multiplier / td.energy_total := by
            linarith [hcomp]
          have h0mp : (0:ℚ) ≤ 1 - td.health := by linarith [hhb.2]
          rw [hrc]
          constructor
          · show r.mass_consumed + _ ≤ r.mass_request * w.economy.mass_stall
            rw [h1, zero_add]
            calc (1 - td.health) * td.mass_total * k.mass_consumption_multiplier
                ≤ (k.mass_requested * w.economy.mass_stall /
                      k.mass_consumption_multiplier / td.mass_total ⊓
                    k.energy_requested * w.economy.energy_stall /
                      k.energy_consumption_multiplier / td.energy_total)
                    * td.mass_total * k.mass_consumption_multiplier := by
                  apply mul_le_mul_of_nonneg_right _ (le_of_lt hENk.1)
                  exact mul_le_mul_of_nonneg_right h1mp (le_of_lt hmt)
              _ ≤ k.mass_requested * w.economy.mass_stall :=
                  settle_portion_bound _ _ _ _ _ hmt hENk.1 hms
                    (min_le_left _ _)
              _ ≤ r.mass_request * w.economy.mass_stall :=
                  mul_le_mul_of_nonneg_right hkcov.1 hms
          · show r.energy_consumed + _ ≤ r.energy_request * w.economy.energy_stall
            rw [h2, zero_add]
            calc (1 - td.health) * td.energy_total * k.energy_consumption_multiplier
                ≤ (k.mass_requested * w.economy.mass_stall /
                      k.mass_consumption_multiplier / td.mass_total ⊓
                    k.energy_requested * w.economy.energy_stall /
                      k.energy_consumption_multiplier / td.energy_total)
                    * td.energy_total * k.energy_consumption_multiplier := by
                  apply mul_le_mul_of_nonneg_right _ (le_of_lt hENk.2.1)
                  exact mul_le_mul_of_nonneg_right h1mp (le_of_lt het)
              _ ≤ k.energy_requested * w.economy.energy_stall :=
                  settle_portion_bound _ _ _ _ _ het hENk.2.1 hes
                    (min_le_right _ _)
              _ ≤ r.energy_request * w.economy.energy_stall :=
                  mul_le_mul_of_nonneg_right hkcov.2 hes
        case _ hncomp =>
          -- accrual branch
          have hrc : r' = { r with
              mass_consumed := r.mass_consumed +
                (k.mass_requested * w.economy.mass_stall /
                    k.mass_consumption_multiplier / td.mass_total ⊓
                  k.energy_requested * w.economy.energy_stall /
                    k.energy_consumption_multiplier / td.energy_total) *
                  td.mass_total * k.mass_consumption_multiplier,
              energy_consumed := r.energy_consumed +
                (k.mass_requested * w.economy.mass_stall /
                    k.mass_consumption_multiplier / td.mass_total ⊓
                  k.energy_requested * w.economy.energy_stall /
                    k.energy_consumption_multiplier / td.energy_total) *
                  td.energy_total * k.energy_consumption_multiplier } := by
            by_cases hte : e = k.target
            · rw [← hte] at hr'
              unfold World.consumerOf at hr'
              rw [World.find_modifyEntity_self, World.find_modifyEntity_self,
                hfind] at hr'
              simpa using hr'.symm
            · unfold World.consumerOf at hr'
              rw [World.find_modifyEntity_ne _ _ _ _ hte,
                World.find_modifyEntity_self, hfind] at hr'
              simpa using hr'.symm
          rw [hrc]
          constructor
          · show r.mass_consumed + _ ≤ r.mass_request * w.economy.mass_stall
            rw [h1, zero_add]
            calc (k.mass_requested * w.economy.mass_stall /
                    k.mass_consumption_multiplier / td.mass_total ⊓
                  k.energy_requested * w.economy.energy_stall /
                    k.energy_consumption_multiplier / td.energy_total) *
                  td.mass_total * k.mass_consumption_multiplier
                ≤ k.mass_requested * w.economy.mass_stall :=
                  settle_portion_bound _ _ _ _ _ hmt hENk.1 hms
                    (min_le_left _ _)
              _ ≤ r.mass_request * w.economy.mass_stall :=
                  mul_le_mul_of_nonneg_right hkcov.1 hms
          · show r.energy_consumed + _ ≤ r.energy_request * w.economy.energy_stall
            rw [h2, zero_add]
            calc (k.mass_requested * w.economy.mass_stall /
                    k.mass_consumption_multiplier / td.mass_total ⊓
                  k.energy_requested * w.economy.energy_stall /
                    k.energy_consumption_multiplier / td.energy_total) *
                  td.energy_total * k.energy_consumption_multiplier
                ≤ k.energy_requested * w.economy.energy_stall :=
                  settle_portion_bound _ _ _ _ _ het hENk.2.1 hes
                    (min_le_right _ _)
              _ ≤ r.energy_request * w.economy.energy_stall :=
                  mul_le_mul_of_nonneg_right hkcov.2 hes
    case _ =>
      -- target damage missing, record untouched
      have hcr : c.consumer = some r' := by
        unfold World.consumerOf at hr'
        rw [hfind] at hr'
        simpa using hr'
      obtain ⟨h1, h2, h3, h4, _⟩ := hr r' hcr
      rw [h1, h2]
      exact ⟨mul_nonneg h3 hms, mul_nonneg h4 hes⟩
  case _ =>
    -- wildcard arm: entity has no edge or no consumer, record untouched
    have hcr : c.consumer = some r' := by
      unfold World.consumerOf at hr'
      rw [hfind] at hr'
      simpa using hr'
    obtain ⟨h1, h2, h3, h4, _⟩ := hr r' hcr
    rw [h1, h2]
    exact ⟨mul_nonneg h3 hms, mul_nonneg h4 hes⟩

/-- C3: across one `FASimulation` tick, each ledger stock settles to
min(capacity, stock before the tick + produced this tick − consumed this
tick), and every individual consumer's realized consumption (read just
before the accounting stage resets it) is at most its pending request
times the tick's stall ratio.  Hypotheses: the component well-formedness
facts of every program-built configuration, non-negative starting
stocks, consumers reset (as the previous tick's accounting stage leaves
them), distinct entity ids, active builders with an edge and a consumer
carry an engineering suite, and non-executing entities carry no pending
edge requests. -/
theorem c3_conservation_consumer_bound (w : World)
    (hW : TickWF w) (hS : StocksNonneg w) (hZ : ConsumersZeroed w)
    (hK : KeysNodup w) (hE : EdgeHasEngineering w) (hPE : PassiveEdgesZero w) :
    ((fa_tick w).economy.mass = min w.economy.mass_capacity
        (w.economy.mass + (fa_tick w).economy.mass_produced
          - (fa_tick w).economy.mass_consumed) ∧
      (fa_tick w).economy.energy = min w.economy.energy_capacity
        (w.economy.energy + (fa_tick w).economy.energy_produced
          - (fa_tick w).economy.energy_consumed)) ∧
    (∀ e r, (do_construct (economy_process_resource_requests
        (economy_resource_producers (fa_update_stage
          (count_tick w))))).consumerOf e = some r →
      r.mass_consumed ≤ r.mass_request * (fa_tick w).economy.mass_stall ∧
      r.energy_consumed ≤ r.energy_request * (fa_tick w).economy.energy_stall) := by
  set w5 := fa_update_stage (count_tick w) with hw5def
  set w6 := economy_resource_producers w5 with hw6def
  set w7 := economy_process_resource_requests w6 with hw7def
  set w8 := do_construct w7 with hw8def
  have e5 : w5.economy = w.economy := by
    rw [hw5def]
    unfold fa_update_stage
    rw [apply_executing_promotions_economy, do_construct_resources_request_economy]
    rfl
  have e8 : w8.economy = w7.economy := by
    rw [hw8def]
    exact do_construct_economy w7
  have hW5 : TickWF w5 := by
    rw [hw5def]
    unfold fa_update_stage
    exact TickWF_apply_executing_promotions _ _
      (TickWF_do_construct_resources_request _ (show TickWF (count_tick w) from hW))
  have hW6 : TickWF w6 := by
    rw [hw6def]
    exact TickWF_economy_resource_producers _ hW5
  have hstock : 0 ≤ w6.economy.mass ∧ 0 ≤ w6.economy.energy := by
    rw [hw6def]
    constructor
    · apply add_nonneg
      · rw [e5]
        exact hS.1
      · apply sum_producer_field_nonneg
        intro p hp pr hpr
        unfold producerYields at hpr
        by_cases hx : p.2.executing
        · rw [if_pos hx] at hpr
          exact (hW5.2.2.2.2.1 p hp pr hpr).1
        · rw [if_neg hx] at hpr
          cases hpr
    · apply add_nonneg
      · rw [e5]
        exact hS.2
      · apply sum_producer_field_nonneg
        intro p hp pr hpr
        unfold producerYields at hpr
        by_cases hx : p.2.executing
        · rw [if_pos hx] at hpr
          exact (hW5.2.2.2.2.1 p hp pr hpr).2
        · rw [if_neg hx] at hpr
          cases hpr
  have hreq : ∀ g : ResourceConsumer → ℚ, (∀ r : ResourceConsumer,
      (0 ≤ r.mass_request ∧ 0 ≤ r.energy_request) → 0 ≤ g r) →
      0 ≤ ((w6.entities.filterMap consumerOfEntry).map g).sum := by
    intro g hg
    apply sum_consumer_field_nonneg
    intro p hp r hr
    unfold consumerOfEntry at hr
    by_cases hx : p.2.executing
    · rw [if_pos hx] at hr
      exact hg r (hW6.2.2.2.1 p hp r hr)
    · rw [if_neg hx] at hr
      cases hr
  have hms7 : 0 ≤ w7.economy.mass_stall := by
    show 0 ≤ calc_stall w6.economy.mass
      (((w6.entities.filterMap consumerOfEntry).map
        (fun c => c.mass_request)).sum)
    exact calc_stall_nonneg _ _ hstock.1 (hreq _ (fun r hr => hr.1))
  have hes7 : 0 ≤ w7.economy.energy_stall := by
    show 0 ≤ calc_stall w6.economy.energy
      (((w6.entities.filterMap consumerOfEntry).map
        (fun c => c.energy_request)).sum)
    exact calc_stall_nonneg _ _ hstock.2 (hreq _ (fun r hr => hr.2))
  refine ⟨⟨?_, ?_⟩, ?_⟩
  · have hprod_m : (fa_tick w).economy.mass_produced
        = w6.economy.mass_produced := by
      show (do_construct w7).economy.mass_produced = w6.economy.mass_produced
      rw [do_construct_economy]
      rfl
    have hmass8 : w8.economy.mass
        = w.economy.mass + (fa_tick w).economy.mass_produced := by
      rw [e8, hprod_m]
      show w5.economy.mass + w6.economy.mass_produced
        = w.economy.mass + w6.economy.mass_produced
      rw [e5]
    have hcap_m : w8.economy.mass_capacity = w.economy.mass_capacity := by
      rw [e8]
      show w5.economy.mass_capacity = w.economy.mass_capacity
      rw [e5]
    show min w8.economy.mass_capacity
        (w8.economy.mass - (fa_tick w).economy.mass_consumed)
      = min w.economy.mass_capacity (w.economy.mass
        + (fa_tick w).economy.mass_produced - (fa_tick w).economy.mass_consumed)
    rw [hcap_m, hmass8]
  · have hprod_e : (fa_tick w).economy.energy_produced
        = w6.economy.energy_produced := by
      show (do_construct w7).economy.energy_produced = w6.economy.energy_produced
      rw [do_construct_economy]
      rfl
    have hmass8 : w8.economy.energy
        = w.economy.energy + (fa_tick w).economy.energy_produced := by
      rw [e8, hprod_e]
      show w5.economy.energy + w6.economy.energy_produced
        = w.economy.energy + w6.economy.energy_produced
      rw [e5]
    have hcap_e : w8.economy.energy_capacity = w.economy.energy_capacity := by
      rw [e8]
      show w5.economy.energy_capacity = w.economy.energy_capacity
      rw [e5]
    show min w8.economy.energy_capacity
        (w8.economy.energy - (fa_tick w).economy.energy_consumed)
      = min w.economy.energy_capacity (w.economy.energy
        + (fa_tick w).economy.energy_produced - (fa_tick w).economy.energy_consumed)
    rw [hcap_e, hmass8]
  · intro e r hre
    obtain ⟨c₈, hc₈, hc₈r⟩ : ∃ c₈, w8.find e = some c₈ ∧ c₈.consumer = some r := by
      unfold World.consumerOf at hre
      cases hfe : w8.find e with
      | none =>
        rw [hfe] at hre
        cases hre
      | some c₈ =>
        rw [hfe] at hre
        exact ⟨c₈, rfl, by simpa using hre⟩
    have hkeys7 : w7.entities.map (fun p => p.1) = w.entities.map (fun p => p.1) := by
      rw [hw7def]
      show w6.entities.map (fun p => p.1) = _
      rw [hw6def, economy_resource_producers_keys, hw5def]
      unfold fa_update_stage
      rw [apply_executing_promotions_keys, do_construct_resources_request_keys]
      rfl
    have hK7 : KeysNodup w7 := by
      unfold KeysNodup
      rw [hkeys7]
      exact hK
    have hK7' : (w7.entities.map (fun p => p.1)).Nodup := hK7
    have hkey : e ∈ w7.entities.map (fun p => p.1) := by
      rw [show w7.entities.map (fun p => p.1) = w8.entities.map (fun p => p.1) from
        (by rw [hw8def]; exact (do_construct_keys w7).symm)]
      exact List.mem_map_of_mem _ (World.mem_of_find _ _ _ hc₈)
    have hRC : ReqCovers w7 := by
      have h6 : ReqCovers w6 := by
        rw [hw6def]
        exact ReqCovers_economy_resource_producers _
          (by
            rw [hw5def]
            exact ReqCovers_fa_update_stage w hK hZ hPE hE hW.2.1 hW.2.2.1
              hW.2.2.2.2.2.1)
      exact h6
    have hSettle0 : SettleInv w7 w7 :=
      ⟨hW6.1, hW6.2.1, hW6.2.2.1, rfl, fun x d hd => ⟨d, hd, le_refl _, rfl, rfl⟩⟩
    obtain ⟨w₁, hInv, hobs, hstep⟩ := foldl_obs_decomp do_construct_step settleObs
      (SettleInv w7)
      (fun u a x hx => do_construct_step_settleObs_ne u a x hx)
      (fun u a hu => SettleInv_do_construct_step w7 hms7 hes7 u a hu)
      (w7.entities.map (fun p => p.1)) w7 e hkey hK7' hSettle0
    have hstep' : settleObs w8 e = settleObs (do_construct_step w₁ e) e := hstep
    obtain ⟨c₇, hc₇⟩ := World.find_isSome_of_key w7 e hK7 hkey
    have hobs3 : (w₁.find e).map (fun c => (c.executing, c.constructionPaused))
        = (w7.find e).map (fun c => (c.executing, c.constructionPaused)) :=
      congrArg (fun t => t.2.2) hobs
    cases hw₁f : w₁.find e with
    | none =>
      rw [hw₁f, hc₇] at hobs3
      cases hobs3
    | some c₁ =>
      rw [hw₁f, hc₇] at hobs3
      simp only [Option.map_some', Option.some.injEq, Prod.mk.injEq] at hobs3
      have hobs1 : c₁.consumer = c₇.consumer := by
        have h : w₁.consumerOf e = w7.consumerOf e := congrArg (fun t => t.1) hobs
        unfold World.consumerOf at h
        rw [hw₁f, hc₇] at h
        simpa using h
      have hobs2 : c₁.constructing = c₇.constructing := by
        have h : w₁.constructingOf e = w7.constructingOf e :=
          congrArg (fun t => t.2.1) hobs
        unfold World.constructingOf at h
        rw [hw₁f, hc₇] at h
        simpa using h
      have hQ := hRC (e, c₇) (World.mem_of_find _ _ _ hc₇)
      have hrhyp : ∀ r₀, c₁.consumer = some r₀ →
          r₀.mass_consumed = 0 ∧ r₀.energy_consumed = 0 ∧
          0 ≤ r₀.mass_request ∧ 0 ≤ r₀.energy_request ∧
          (activeUnit c₁ = true → ∀ k, c₁.constructing = some k →
            k.mass_requested ≤ r₀.mass_request ∧
            k.energy_requested ≤ r₀.energy_request) := by
        intro r₀ hrc
        rw [hobs1] at hrc
        have hq := hQ r₀ hrc
        refine ⟨hq.1, hq.2.1, hq.2.2.1, hq.2.2.2.1, ?_⟩
        intro hact k hk
        refine hq.2.2.2.2 ?_ k ?_
        · unfold activeUnit at hact ⊢
          rw [← hobs3.1, ← hobs3.2]
          exact hact
        · rw [← hobs2]
          exact hk
      have hbound := do_construct_step_consumer_bound w₁ e c₁ hw₁f hInv.1
        hInv.2.1 hInv.2.2.1
        (by rw [hInv.2.2.2.1]; exact hms7) (by rw [hInv.2.2.2.1]; exact hes7)
        hrhyp
      have hcons8 : w8.consumerOf e = (do_construct_step w₁ e).consumerOf e :=
        congrArg (fun t => t.1) hstep'
      have hre8 : (do_construct_step w₁ e).consumerOf e = some r := by
        rw [← hcons8]
        exact hre
      obtain ⟨hbm, hbe⟩ := hbound r hre8
      have hstall_m : w₁.economy.mass_stall = (fa_tick w).economy.mass_stall := by
        rw [hInv.2.2.2.1]
        show w7.economy.mass_stall = (do_construct w7).economy.mass_stall
        rw [do_construct_economy]
      have hstall_e : w₁.economy.energy_stall = (fa_tick w).economy.energy_stall := by
        rw [hInv.2.2.2.1]
        show w7.economy.energy_stall = (do_construct w7).economy.energy_stall
        rw [do_construct_economy]
      constructor
      · rw [← hstall_m]
        exact hbm
      · rw [← hstall_e]
        exact hbe

theorem scenarioA_TickWF : TickWF scenarioAWorld := by
  norm_num [TickWF, HealthBounds, PositiveTotals, EdgeNonneg, ConsumerReqNonneg,
    YieldsNonneg, BuildRatesNonneg, EffNonneg, AllEnts, scenarioAWorld,
    EntityComponents.empty, zeroConsumer, List.mem_cons]
  refine ⟨?_, ?_, ?_, ?_, ?_, ?_, ?_⟩ <;> (intro z hz; cases hz)

theorem scenarioA_StocksNonneg : StocksNonneg scenarioAWorld := by
  norm_num [StocksNonneg, scenarioAWorld, Economy.default]

theorem scenarioA_ConsumersZeroed : ConsumersZeroed scenarioAWorld := by
  norm_num [ConsumersZeroed, AllEnts, scenarioAWorld, EntityComponents.empty,
    zeroConsumer, List.mem_cons]
  intro z hz
  cases hz

theorem scenarioA_KeysNodup : KeysNodup scenarioAWorld := by
  unfold KeysNodup
  decide

theorem scenarioA_EdgeHasEngineering : EdgeHasEngineering scenarioAWorld := by
  norm_num [EdgeHasEngineering, AllEnts, scenarioAWorld, EntityComponents.empty,
    activeUnit, List.mem_cons]

theorem scenarioA_PassiveEdgesZero : PassiveEdgesZero scenarioAWorld := by
  norm_num [PassiveEdgesZero, AllEnts, scenarioAWorld, EntityComponents.empty,
    List.mem_cons]
  intro z hz
  cases hz

/-- Witness for C3 on Scenario A: after one tick the ledger obeys the
settlement equation, and the builder's consumer shows 10 mass consumed
against a request of 10 at stall ratio 1. -/
theorem c3_conservation_consumer_bound_witness :
    (fa_tick scenarioAWorld).economy.mass = min scenarioAWorld.economy.mass_capacity
      (scenarioAWorld.economy.mass + (fa_tick scenarioAWorld).economy.mass_produced
        - (fa_tick scenarioAWorld).economy.mass_consumed) ∧
    (do_construct (economy_process_resource_requests (economy_resource_producers
      (fa_update_stage (count_tick scenarioAWorld))))).consumerOf 1
        = some ⟨10, 10, 10, 10⟩ ∧
    ((10:ℚ) ≤ 10 * (fa_tick scenarioAWorld).economy.mass_stall) := by
  have hc := c3_conservation_consumer_bound scenarioAWorld scenarioA_TickWF
    scenarioA_StocksNonneg scenarioA_ConsumersZeroed scenarioA_KeysNodup
    scenarioA_EdgeHasEngineering scenarioA_PassiveEdgesZero
  have h1 : (do_construct (economy_process_resource_requests (economy_resource_producers
      (fa_update_stage (count_tick scenarioAWorld))))).consumerOf 1
        = some ⟨10, 10, 10, 10⟩ := by
    norm_num [count_tick, fa_update_stage, execute_on_finished_construction_pending,
      apply_executing_promotions, do_construct_resources_request,
      do_construct_resources_request_step, do_construct, do_construct_step,
      economy_resource_producers, economy_process_resource_requests,
      producerYields, producerAccumulate, consumerOfEntry, calc_stall, activeUnit,
      World.find, World.modifyEntity, World.damageOf, World.consumerOf,
      scenarioAWorld, EntityComponents.empty, Economy.default, zeroConsumer,
      List.filterMap_cons, List.find?_cons]
  refine ⟨hc.1.1, h1, ?_⟩
  have hb := hc.2 1 ⟨10, 10, 10, 10⟩ h1
  exact hb.1

/-- Witness for C2 on Scenario A: the target entity starts at health 0
and after one `RASSimulation` tick sits at health 1/10, which the claim
theorem bounds between the old health and 1. -/
theorem c2_health_monotone_bounded_witness :
    scenarioAWorld.damageOf 2 = some ⟨0, 100, 100, 100, 10⟩ ∧
    (ras_tick scenarioAWorld).damageOf 2 = some ⟨1/10, 100, 100, 100, 10⟩ ∧
    ((0 : ℚ) ≤ 1/10 ∧ (1/10 : ℚ) ≤ 1) := by
  have h1 : scenarioAWorld.damageOf 2 = some ⟨0, 100, 100, 100, 10⟩ := by
    norm_num [World.damageOf, World.find, scenarioAWorld,
      EntityComponents.empty, List.find?_cons]
  have h2 : (ras_tick scenarioAWorld).damageOf 2 =
      some ⟨1/10, 100, 100, 100, 10⟩ := by
    norm_num [ras_tick, ras_update_stage, count_tick,
      quantum_gate_spawn_construct, quantum_gate_step, construct_sacrifice,
      sacrifice_snapshot, sacrifice_resolve_step, apply_sacrifice_command,
      execute_on_finished_construction_pending, apply_executing_promotions,
      do_construct_resources_request, do_construct_resources_request_step,
      do_construct, do_construct_step, economy_resource_producers,
      economy_process_resource_requests, economy_process_resource_consumption,
      producerYields, producerAccumulate, consumerOfEntry, consumerReset,
      calc_stall, activeUnit, World.find, World.modifyEntity, World.damageOf,
      World.despawn, World.spawn, scenarioAWorld, EntityComponents.empty,
      Economy.default, zeroConsumer, List.filterMap_cons, List.find?_cons]
  exact ⟨h1, h2, c2_health_monotone_bounded scenarioAWorld scenarioA_TickWF
    scenarioA_StocksNonneg 2 _ _ h1 h2⟩

end FA
